import Mathlib

/-!
# mammut / fastflow: adaptivity parameters and adaptivity manager

A shallow embedding of `mammut/fastflow/fastflow.cpp` and
`mammut/fastflow/fastflow.tpp`.

Conventions of the embedding.

* `double` quantities (thresholds, bandwidths, monitored values) are exact
  rationals (`ℚ`).
* Unsigned machine integers are naturals; a wrap-around is written `% 2 ^ w`
  at the operation where the C++ type makes it possible.
* A C++ pointer that may be `NULL` is an `Option`; pointer identity of topology
  and frequency objects is structural equality of the records below (each one
  carries its identifier).
* A call that may end in a C++ exception, or in undefined behaviour, ends in
  `Completion.threw`; the state reached at that point is kept next to it.
-/

namespace mammut.fastflow

/-! ## Exceptions -/

/-- Ways in which a call of the embedded code can end abnormally. -/
inductive Exn where
  /-- Raised by `std::vector::at` on an index that is not below `size()`. -/
  | outOfRange
  /-- Undefined behaviour: `front()` or `back()` of an empty vector, an integer
  division by zero, a dereferenced null pointer. -/
  | undefinedBehaviour
  /-- Raised by `AdaptiveNode::getThreadHandler`, "Thread not initialized." -/
  | threadNotInitialized
  /-- Raised by `AdaptiveNode::svc_init`, "Tasks manager not initialized." -/
  | tasksManagerNotInitialized
  /-- Raised by `setVirtualCoreToHighestFrequency`. -/
  | highestFrequencyFailed
  /-- Raised by `setUnusedVirtualCores`, "Not yet supported." -/
  | notYetSupported
  /-- Raised by `applyUnusedVirtualCoresStrategy`. -/
  | lowestFrequencyFailed
  /-- Raised by `updatePstate`, "Impossible to set the specified governor." -/
  | governorFailed
  /-- Raised by `updatePstate`, "Impossible to set the specified governor's bounds." -/
  | governorBoundsFailed
  /-- Raised by `updatePstate`, "Impossible to set the specified frequency." -/
  | frequencyFailed
  /-- Raised by `getEstimatedPower`, "Notimplemented." -/
  | notImplemented
  /-- Raised by `AdaptiveFarm::construct`, "AdaptiveFarm: invalid
  AdaptivityParameters". -/
  | invalidAdaptivityParameters
  deriving DecidableEq, Repr

/-- How a call ended: with a value, or with an exception. -/
inductive Completion (α : Type) where
  | returned (value : α)
  | threw (e : Exn)
  deriving DecidableEq, Repr

/-! ## Platform façade (cpufreq and topology modules) -/

/-- Modelled from the spec: `cpufreq::Governor`, declared in the missing header
`mammut/cpufreq/cpufreq.hpp`; the spec lists the governors PERFORMANCE,
USERSPACE, POWERSAVE, ONDEMAND and CONSERVATIVE. -/
inductive Governor where
  | GOVERNOR_CONSERVATIVE
  | GOVERNOR_ONDEMAND
  | GOVERNOR_USERSPACE
  | GOVERNOR_POWERSAVE
  | GOVERNOR_PERFORMANCE
  deriving DecidableEq, Repr

/-- Modelled from the spec: `cpufreq::Frequency`, declared in the missing header
`mammut/cpufreq/cpufreq.hpp`: an unsigned integer number of KHz (`0` stands for
an absent bound). -/
abbrev Frequency := Nat

/-- Modelled from the spec: `topology::VirtualCore` (missing header
`mammut/topology/topology.hpp`), a hardware execution context with a stable
identifier, which may be hot-pluggable. -/
structure VirtualCore where
  virtualCoreId : Nat
  hotPluggable : Bool
  deriving DecidableEq, Repr

/-- Modelled from the spec: `topology::PhysicalCore`, which owns its
VirtualCores (the SMT siblings, in order). -/
structure PhysicalCore where
  physicalCoreId : Nat
  virtualCores : List VirtualCore
  deriving DecidableEq, Repr

/-- Modelled from the spec: `topology::Cpu`, which owns its PhysicalCores. -/
structure Cpu where
  cpuId : Nat
  physicalCores : List PhysicalCore
  deriving DecidableEq, Repr

/-- Modelled from the spec: `topology::Topology`, the enumeration
Cpu → PhysicalCore → VirtualCore. -/
structure Topology where
  cpus : List Cpu
  deriving DecidableEq, Repr

/-- Modelled from the spec: `cpufreq::Domain`, a set of VirtualCores sharing a
P-state.  It exposes its available governors and available frequencies; each
programming operation returns a success boolean, which the platform decides:
`settableGovernors` are the governors for which `setGovernor` succeeds, and the
four flags say whether the corresponding operation succeeds. -/
structure Domain where
  domainId : Nat
  virtualCores : List VirtualCore
  availableGovernors : List Governor
  availableFrequencies : List Frequency
  settableGovernors : List Governor
  setGovernorBoundsOk : Bool
  setFrequencyUserspaceOk : Bool
  setHighestFrequencyUserspaceOk : Bool
  setLowestFrequencyUserspaceOk : Bool
  deriving DecidableEq, Repr

/-- Modelled from the spec: `cpufreq::CpuFreq`, the enumeration of the frequency
domains of the machine. -/
structure CpuFreq where
  domains : List Domain
  deriving DecidableEq, Repr

/-- Modelled from the spec: `utils::contains` (missing header
`mammut/utils.hpp`), membership of a value in a vector. -/
def contains {α : Type} [DecidableEq α] (v : List α) (x : α) : Bool :=
  decide (x ∈ v)

/-- Accessor `CpuFreq::getDomains()`. -/
def CpuFreq.getDomains (c : CpuFreq) : List Domain := c.domains

/-- Accessor `Domain::getAvailableGovernors()`. -/
def Domain.getAvailableGovernors (d : Domain) : List Governor := d.availableGovernors

/-- Accessor `Domain::getAvailableFrequencies()`. -/
def Domain.getAvailableFrequencies (d : Domain) : List Frequency := d.availableFrequencies

/-! ## Parameters (`fastflow.cpp`) -/

/-- Modelled from the spec: `StrategyFrequencies`, declared in the missing header
`mammut/fastflow/fastflow.hpp`; the source names `STRATEGY_FREQUENCY_NO` and
`STRATEGY_FREQUENCY_OS`, the spec adds the conservative strategies. -/
inductive StrategyFrequencies where
  | STRATEGY_FREQUENCY_NO
  | STRATEGY_FREQUENCY_OS
  | STRATEGY_FREQUENCY_CORES_CONSERVATIVE
  | STRATEGY_FREQUENCY_POWER_CONSERVATIVE
  deriving DecidableEq, Repr

/-- Modelled from the spec: `StrategyMapping`, declared in the missing header
`mammut/fastflow/fastflow.hpp`. -/
inductive StrategyMapping where
  | STRATEGY_MAPPING_NO
  | STRATEGY_MAPPING_OS
  | STRATEGY_MAPPING_AUTO
  | STRATEGY_MAPPING_LINEAR
  | STRATEGY_MAPPING_CACHE_EFFICIENT
  deriving DecidableEq, Repr

/-- Modelled from the spec: `StrategyUnusedVirtualCores`, declared in the missing
header `mammut/fastflow/fastflow.hpp`. -/
inductive StrategyUnusedVirtualCores where
  | STRATEGY_UNUSED_VC_NONE
  | STRATEGY_UNUSED_VC_AUTO
  | STRATEGY_UNUSED_VC_LOWEST_FREQUENCY
  | STRATEGY_UNUSED_VC_OFF
  deriving DecidableEq, Repr

/-- Modelled from the spec: `AdaptivityParametersValidation`, declared in the
missing header `mammut/fastflow/fastflow.hpp`; the eight codes returned by
`validate`. -/
inductive AdaptivityParametersValidation where
  | VALIDATION_OK
  | VALIDATION_STRATEGY_FREQUENCY_UNSUPPORTED
  | VALIDATION_GOVERNOR_UNSUPPORTED
  | VALIDATION_STRATEGY_MAPPING_UNSUPPORTED
  | VALIDATION_THRESHOLDS_INVALID
  | VALIDATION_EC_SENSITIVE_WRONG_F_STRATEGY
  | VALIDATION_EC_SENSITIVE_MISSING_GOVERNORS
  | VALIDATION_INVALID_FREQUENCY_BOUNDS
  deriving DecidableEq, Repr

/-- The record `AdaptivityParameters`: the fields read or written by
`fastflow.cpp` and `fastflow.tpp`.  `cpufreq` and `topology` are the platform
modules the record points to. -/
structure AdaptivityParameters where
  cpufreq : CpuFreq
  topology : Topology
  strategyFrequencies : StrategyFrequencies
  frequencyGovernor : Governor
  strategyMapping : StrategyMapping
  strategyNeverUsedVirtualCores : StrategyUnusedVirtualCores
  sensitiveEmitter : Bool
  sensitiveCollector : Bool
  numSamples : Nat
  samplingInterval : Nat
  underloadThresholdFarm : ℚ
  overloadThresholdFarm : ℚ
  underloadThresholdWorker : ℚ
  overloadThresholdWorker : ℚ
  migrateCollector : Bool
  requiredBandwidth : ℚ
  maxBandwidthVariation : ℚ
  stabilizationPeriod : Nat
  frequencyLowerBound : Frequency
  frequencyUpperBound : Frequency
  deriving DecidableEq

/-- Embeds `AdaptivityParameters::isFrequencyGovernorAvailable`
(`fastflow.cpp`, lines 120-133). -/
def isFrequencyGovernorAvailable (p : AdaptivityParameters) (governor : Governor) : Bool :=
  let frequencyDomains := p.cpufreq.getDomains
  if frequencyDomains.length = 0 then false
  else frequencyDomains.all (fun d => contains d.getAvailableGovernors governor)

/-- The section "Validate frequency strategies" of `AdaptivityParameters::validate`
(`fastflow.cpp`, lines 144-169).  The first component is the code returned inside
the section, or `none` when control falls through to line 171; the second is the
local vector `frequencyDomains`; the third is the record as the section leaves it
(line 154 overwrites `frequencyGovernor`). -/
def validateFrequencyStrategies (self : AdaptivityParameters) :
    Option AdaptivityParametersValidation × List Domain × AdaptivityParameters :=
  if self.strategyFrequencies ≠ .STRATEGY_FREQUENCY_NO then
    let frequencyDomains := self.cpufreq.getDomains
    if frequencyDomains.length = 0 then
      (some .VALIDATION_STRATEGY_FREQUENCY_UNSUPPORTED, frequencyDomains, self)
    else if self.strategyFrequencies ≠ .STRATEGY_FREQUENCY_OS then
      let p := { self with frequencyGovernor := .GOVERNOR_USERSPACE }
      if !isFrequencyGovernorAvailable p p.frequencyGovernor then
        (some .VALIDATION_STRATEGY_FREQUENCY_UNSUPPORTED, frequencyDomains, p)
      else if (p.sensitiveEmitter || p.sensitiveCollector) &&
          !isFrequencyGovernorAvailable p .GOVERNOR_PERFORMANCE &&
          !isFrequencyGovernorAvailable p .GOVERNOR_USERSPACE then
        (some .VALIDATION_EC_SENSITIVE_MISSING_GOVERNORS, frequencyDomains, p)
      else (none, frequencyDomains, p)
    else if (self.sensitiveEmitter || self.sensitiveCollector) &&
        !isFrequencyGovernorAvailable self .GOVERNOR_PERFORMANCE &&
        !isFrequencyGovernorAvailable self .GOVERNOR_USERSPACE then
      (some .VALIDATION_EC_SENSITIVE_MISSING_GOVERNORS, frequencyDomains, self)
    else (none, frequencyDomains, self)
  else
    if self.sensitiveEmitter || self.sensitiveCollector then
      (some .VALIDATION_EC_SENSITIVE_WRONG_F_STRATEGY, [], self)
    else (none, [], self)

/-- The upper-bound part of the section "Validate frequency bounds"
(`fastflow.cpp`, lines 197-203), followed by the final `return VALIDATION_OK`
of line 209. -/
def validateFrequencyUpperBound (availableFrequencies : List Frequency)
    (p : AdaptivityParameters) :
    Completion AdaptivityParametersValidation × AdaptivityParameters :=
  if p.frequencyUpperBound ≠ 0 then
    if !contains availableFrequencies p.frequencyUpperBound then
      (.returned .VALIDATION_INVALID_FREQUENCY_BOUNDS, p)
    else (.returned .VALIDATION_OK, p)
  else
    match availableFrequencies[availableFrequencies.length - 1]? with
    | none => (.threw .outOfRange, p)
    | some f => (.returned .VALIDATION_OK, { p with frequencyUpperBound := f })

/-- The section "Validate frequency bounds" of `AdaptivityParameters::validate`
together with the final `return VALIDATION_OK` (`fastflow.cpp`, lines 181-209),
run on the local `frequencyDomains` left by the earlier sections.  The three uses
of `std::vector::at` raise `outOfRange` on a bad index. -/
def validateFrequencyBounds (frequencyDomains : List Domain) (p : AdaptivityParameters) :
    Completion AdaptivityParametersValidation × AdaptivityParameters :=
  if p.frequencyLowerBound ≠ 0 ∨ p.frequencyUpperBound ≠ 0 then
    if p.strategyFrequencies = .STRATEGY_FREQUENCY_OS then
      match frequencyDomains[0]? with
      | none => (.threw .outOfRange, p)
      | some domain0 =>
        let availableFrequencies := domain0.getAvailableFrequencies
        if availableFrequencies.length = 0 then
          (.returned .VALIDATION_INVALID_FREQUENCY_BOUNDS, p)
        else if p.frequencyLowerBound ≠ 0 then
          if !contains availableFrequencies p.frequencyLowerBound then
            (.returned .VALIDATION_INVALID_FREQUENCY_BOUNDS, p)
          else validateFrequencyUpperBound availableFrequencies p
        else
          match availableFrequencies[0]? with
          | none => (.threw .outOfRange, p)
          | some f =>
            validateFrequencyUpperBound availableFrequencies { p with frequencyLowerBound := f }
    else
      (.returned .VALIDATION_INVALID_FREQUENCY_BOUNDS, p)
  else (.returned .VALIDATION_OK, p)

/-- Embeds `AdaptivityParameters::validate` (`fastflow.cpp`, lines 135-210), its
five commented sections in order.  The result pairs the way the call ended with
the parameter record as the call leaves it (`validate` is not `const`: it may
overwrite `frequencyGovernor`, `frequencyLowerBound` and `frequencyUpperBound`). -/
def validate (self : AdaptivityParameters) :
    Completion AdaptivityParametersValidation × AdaptivityParameters :=
  -- Validate thresholds.
  if self.underloadThresholdFarm > self.overloadThresholdFarm ∨
     self.underloadThresholdWorker > self.overloadThresholdWorker ∨
     self.underloadThresholdFarm < 0 ∨ self.overloadThresholdFarm > 100 ∨
     self.underloadThresholdWorker < 0 ∨ self.overloadThresholdWorker > 100 then
    (.returned .VALIDATION_THRESHOLDS_INVALID, self)
  else
    -- Validate frequency strategies.
    match validateFrequencyStrategies self with
    | (some code, _, p) => (.returned code, p)
    | (none, frequencyDomains, p) =>
      -- Validate governor availability.
      if !isFrequencyGovernorAvailable p p.frequencyGovernor then
        (.returned .VALIDATION_GOVERNOR_UNSUPPORTED, p)
      -- Validate mapping strategy.
      else if p.strategyMapping = .STRATEGY_MAPPING_CACHE_EFFICIENT then
        (.returned .VALIDATION_STRATEGY_MAPPING_UNSUPPORTED, p)
      -- Validate frequency bounds.
      else validateFrequencyBounds frequencyDomains p


/-! ## Platform façade: queries and programming operations -/

/-- Accessor `Topology::getCpus()`. -/
def Topology.getCpus (t : Topology) : List Cpu := t.cpus

/-- Accessor `Cpu::getPhysicalCores()`. -/
def Cpu.getPhysicalCores (c : Cpu) : List PhysicalCore := c.physicalCores

/-- Accessor `PhysicalCore::getVirtualCores()`. -/
def PhysicalCore.getVirtualCores (pc : PhysicalCore) : List VirtualCore := pc.virtualCores

/-- Accessor `Domain::getVirtualCores()`. -/
def Domain.getVirtualCores (d : Domain) : List VirtualCore := d.virtualCores

/-- Accessor `VirtualCore::isHotPluggable()`. -/
def VirtualCore.isHotPluggable (vc : VirtualCore) : Bool := vc.hotPluggable

/-- Modelled from the spec: `Topology::getPhysicalCores()` (missing
`mammut/topology`), every PhysicalCore of the machine, Cpu by Cpu. -/
def Topology.getPhysicalCores (t : Topology) : List PhysicalCore :=
  t.cpus.flatMap (fun cpu => cpu.physicalCores)

/-- Modelled from the spec: `Topology::getVirtualCores()` (missing
`mammut/topology`), every VirtualCore of the machine, PhysicalCore by
PhysicalCore. -/
def Topology.getVirtualCores (t : Topology) : List VirtualCore :=
  t.getPhysicalCores.flatMap (fun pc => pc.virtualCores)

/-- Modelled from the spec: `Topology::virtualToPhysical(virtualCores)` (missing
`mammut/topology`), the query `virtual_to_physical(vc[])`: the PhysicalCores that
own one of the given VirtualCores. -/
def Topology.virtualToPhysical (t : Topology) (virtualCores : List VirtualCore) :
    List PhysicalCore :=
  t.getPhysicalCores.filter (fun pc => pc.virtualCores.any (fun vc => contains virtualCores vc))

/-- Modelled from the spec: `PhysicalCore::getVirtualCore()` (missing
`mammut/topology`), one VirtualCore of the PhysicalCore: its first sibling
(`none` when it owns no VirtualCore). -/
def PhysicalCore.getVirtualCore (pc : PhysicalCore) : Option VirtualCore :=
  pc.virtualCores.head?

/-- Modelled from the spec: the overload `CpuFreq::getDomains(virtualCores)`
(missing `mammut/cpufreq`), the query `domains_covering(vcs)`: the domains that
contain any of the given VirtualCores. -/
def CpuFreq.getDomainsCovering (c : CpuFreq) (virtualCores : List VirtualCore) : List Domain :=
  c.domains.filter (fun d => d.virtualCores.any (fun vc => contains virtualCores vc))

/-- Modelled from the spec: `CpuFreq::getDomainsComplete(virtualCores)` (missing
`mammut/cpufreq`), the query `domains_complete(vcs)`: the domains entirely
contained within the given VirtualCores. -/
def CpuFreq.getDomainsComplete (c : CpuFreq) (virtualCores : List VirtualCore) : List Domain :=
  c.domains.filter (fun d => d.virtualCores.all (fun vc => contains virtualCores vc))

/-- Modelled from the spec: `CpuFreq::getDomain(virtualCore)` (missing
`mammut/cpufreq`), the query `domain(vc)`: the domain that contains the
VirtualCore (`none`, a null pointer, when there is none). -/
def CpuFreq.getDomain (c : CpuFreq) (virtualCore : VirtualCore) : Option Domain :=
  c.domains.find? (fun d => contains d.virtualCores virtualCore)

/-- Modelled from the spec: `CpuFreq::isGovernorAvailable(governor)` (missing
`mammut/cpufreq`): the governor "is available globally", on every domain. -/
def CpuFreq.isGovernorAvailable (c : CpuFreq) (governor : Governor) : Bool :=
  c.domains.all (fun d => contains d.availableGovernors governor)

/-- A call issued to the platform: a thread pinned, a domain programmed, a
VirtualCore unplugged.  Domains are named by `domainId`, threads by the
identifier of their handler. -/
inductive PlatformCall where
  | move (thread : Nat) (virtualCore : Option VirtualCore)
  | setGovernor (domainId : Nat) (governor : Governor)
  | setGovernorBounds (domainId : Nat) (lowerBound upperBound : Frequency)
  | setFrequencyUserspace (domainId : Nat) (frequency : Frequency)
  | setHighestFrequencyUserspace (domainId : Nat)
  | setLowestFrequencyUserspace (domainId : Nat)
  | hotUnplug (virtualCore : VirtualCore)
  deriving DecidableEq, Repr

/-- Modelled from the spec: `Domain::setGovernor(governor)`, which returns a
success boolean. -/
def Domain.setGovernor (d : Domain) (governor : Governor) : Bool :=
  contains d.settableGovernors governor

/-! ## Adaptive nodes and the farm (`fastflow.cpp`, `fastflow.tpp`) -/

/-- The members of `AdaptiveNode` used by `fastflow.cpp`: `_tasksManager` and
`_thread` (both `NULL` after construction, lines 34-38; a thread handler is
named by a number) and the predicate of the monitor `_threadCreated`. -/
structure AdaptiveNode where
  tasksManager : Option Nat
  thread : Option Nat
  threadCreated : Bool
  deriving DecidableEq, Repr

/-- Embeds `AdaptiveNode::getThreadHandler` (`fastflow.cpp`, lines 54-60). -/
def AdaptiveNode.getThreadHandler (node : AdaptiveNode) : Completion Nat :=
  match node.thread with
  | some thread => .returned thread
  | none => .threw .threadNotInitialized

/-- The farm as the manager sees it: the stages of the underlying `ff_farm`
(`getWorkers()`, `getEmitter()`, `getCollector()`; an absent stage is `NULL`) and
the members `_adaptiveWorkers`, `_adaptiveEmitter`, `_adaptiveCollector` and
`_firstRun` of `AdaptiveFarm`. -/
structure AdaptiveFarm where
  workers : List AdaptiveNode
  emitter : Option AdaptiveNode
  collector : Option AdaptiveNode
  adaptiveWorkers : List AdaptiveNode
  adaptiveEmitter : Option AdaptiveNode
  adaptiveCollector : Option AdaptiveNode
  firstRun : Bool
  deriving DecidableEq, Repr

/-- Accessor `ff_farm::getEmitter()`. -/
def AdaptiveFarm.getEmitter (farm : AdaptiveFarm) : Option AdaptiveNode := farm.emitter

/-- Accessor `ff_farm::getCollector()`. -/
def AdaptiveFarm.getCollector (farm : AdaptiveFarm) : Option AdaptiveNode := farm.collector

/-- Embeds `AdaptiveFarm::getAdaptiveWorkers` (`fastflow.tpp`, lines 9-12). -/
def AdaptiveFarm.getAdaptiveWorkers (farm : AdaptiveFarm) : List AdaptiveNode :=
  farm.adaptiveWorkers

/-- Embeds `AdaptiveFarm::getAdaptiveEmitter` (`fastflow.tpp`, lines 14-17). -/
def AdaptiveFarm.getAdaptiveEmitter (farm : AdaptiveFarm) : Option AdaptiveNode :=
  farm.adaptiveEmitter

/-- Embeds `AdaptiveFarm::getAdaptiveCollector` (`fastflow.tpp`, lines 19-22). -/
def AdaptiveFarm.getAdaptiveCollector (farm : AdaptiveFarm) : Option AdaptiveNode :=
  farm.adaptiveCollector

/-! ## The adaptivity manager (`fastflow.tpp`) -/

/-- The members of `AdaptivityManagerFarm` (initialised at lines 105-116), the
parameter record `_p` points to, and `calls`, the platform calls issued so far
(oldest first). -/
structure AdaptivityManagerFarm where
  stop : Bool
  farm : AdaptiveFarm
  p : AdaptivityParameters
  workers : List AdaptiveNode
  maxNumWorkers : Nat
  currentNumWorkers : Nat
  currentFrequency : Frequency
  emitterVirtualCore : Option VirtualCore
  collectorVirtualCore : Option VirtualCore
  workersVirtualCores : List VirtualCore
  unusedVirtualCores : List VirtualCore
  availableFrequencies : List Frequency
  calls : List PlatformCall
  deriving DecidableEq

/-- Embeds the constructor `AdaptivityManagerFarm::AdaptivityManagerFarm`
(`fastflow.tpp`, lines 104-116); the vectors start empty. -/
def AdaptivityManagerFarm.construct (farm : AdaptiveFarm)
    (adaptivityParameters : AdaptivityParameters) : AdaptivityManagerFarm :=
  { stop := false
    farm := farm
    p := adaptivityParameters
    workers := farm.getAdaptiveWorkers
    maxNumWorkers := farm.getAdaptiveWorkers.length
    currentNumWorkers := farm.getAdaptiveWorkers.length
    currentFrequency := 0
    emitterVirtualCore := none
    collectorVirtualCore := none
    workersVirtualCores := []
    unusedVirtualCores := []
    availableFrequencies := []
    calls := [] }

/-- Sequencing of two steps of a `void` member function: the second step runs
on the state left by the first unless the first threw. -/
def andThen {σ : Type} (r : Completion Unit × σ) (k : σ → Completion Unit × σ) :
    Completion Unit × σ :=
  match r with
  | (.returned _, s) => k s
  | (.threw e, s) => (.threw e, s)

/-- Embeds `AdaptivityManagerFarm::getSeparatedDomainPhysicalCores`
(`fastflow.tpp`, lines 123-138). -/
def getSeparatedDomainPhysicalCores (m : AdaptivityManagerFarm)
    (virtualCores : List VirtualCore) : List PhysicalCore :=
  let allDomains := m.p.cpufreq.getDomains
  let hypotheticWorkersDomains := m.p.cpufreq.getDomainsCovering virtualCores
  if allDomains.length > hypotheticWorkersDomains.length then
    allDomains.foldl
      (fun physicalCoresInUnusedDomains currentDomain =>
        if !contains hypotheticWorkersDomains currentDomain then
          physicalCoresInUnusedDomains ++
            m.p.topology.virtualToPhysical currentDomain.getVirtualCores
        else physicalCoresInUnusedDomains)
      []
  else []

/-- Embeds `AdaptivityManagerFarm::setVirtualCoreToHighestFrequency`
(`fastflow.tpp`, lines 140-151).  The argument is a pointer: `none` is `NULL`,
and so is the domain of a VirtualCore that belongs to no domain. -/
def setVirtualCoreToHighestFrequency (m : AdaptivityManagerFarm)
    (virtualCore : Option VirtualCore) : Completion Unit × AdaptivityManagerFarm :=
  match virtualCore.bind m.p.cpufreq.getDomain with
  | none => (.threw .undefinedBehaviour, m)
  | some performanceDomain =>
    let m := { m with calls := m.calls ++
      [.setGovernor performanceDomain.domainId .GOVERNOR_PERFORMANCE] }
    let frequencySet := performanceDomain.setGovernor .GOVERNOR_PERFORMANCE
    if !frequencySet then
      let m := { m with calls := m.calls ++
        [.setGovernor performanceDomain.domainId .GOVERNOR_USERSPACE] }
      if !performanceDomain.setGovernor .GOVERNOR_USERSPACE then
        (.threw .highestFrequencyFailed, m)
      else
        let m := { m with calls := m.calls ++
          [.setHighestFrequencyUserspace performanceDomain.domainId] }
        if !performanceDomain.setHighestFrequencyUserspaceOk then
          (.threw .highestFrequencyFailed, m)
        else (.returned (), m)
    else (.returned (), m)

/-- The loop over `physicalCores` of `setUnusedVirtualCores` (`fastflow.tpp`,
lines 172-174): pushes sibling `virtualUsed` of each PhysicalCore in turn. -/
def pushPhysicalCores (virtualUsed : Nat) :
    List PhysicalCore → List VirtualCore → Completion Unit × List VirtualCore
  | [], unusedVirtualCores => (.returned (), unusedVirtualCores)
  | physicalCore :: rest, unusedVirtualCores =>
    match physicalCore.getVirtualCores[virtualUsed]? with
    | none => (.threw .outOfRange, unusedVirtualCores)
    | some virtualCore => pushPhysicalCores virtualUsed rest (unusedVirtualCores ++ [virtualCore])

/-- The loop over `cpus` of `setUnusedVirtualCores` (`fastflow.tpp`, lines
170-175). -/
def pushCpus (virtualUsed : Nat) :
    List Cpu → List VirtualCore → Completion Unit × List VirtualCore
  | [], unusedVirtualCores => (.returned (), unusedVirtualCores)
  | cpu :: rest, unusedVirtualCores =>
    andThen (pushPhysicalCores virtualUsed cpu.getPhysicalCores unusedVirtualCores)
      (pushCpus virtualUsed rest)

/-- The loop `while(virtualUsed < virtualPerPhysical)` of `setUnusedVirtualCores`
(`fastflow.tpp`, lines 169-177), entered with `iterations` rounds left to run,
that is `virtualPerPhysical - virtualUsed`. -/
def pushRounds (cpus : List Cpu) :
    Nat → Nat → List VirtualCore → Completion Unit × List VirtualCore
  | 0, _, unusedVirtualCores => (.returned (), unusedVirtualCores)
  | iterations + 1, virtualUsed, unusedVirtualCores =>
    andThen (pushCpus virtualUsed cpus unusedVirtualCores)
      (pushRounds cpus iterations (virtualUsed + 1))

/-- Embeds `AdaptivityManagerFarm::setUnusedVirtualCores` (`fastflow.tpp`, lines
153-185).  The integer division of line 167 is undefined when the topology has
no PhysicalCore. -/
def setUnusedVirtualCores (m : AdaptivityManagerFarm) :
    Completion Unit × AdaptivityManagerFarm :=
  match m.p.strategyMapping with
  | .STRATEGY_MAPPING_AUTO | .STRATEGY_MAPPING_LINEAR =>
    let cpus := m.p.topology.getCpus
    if m.p.topology.getPhysicalCores.length = 0 then (.threw .undefinedBehaviour, m)
    else
      let virtualPerPhysical :=
        m.p.topology.getVirtualCores.length / m.p.topology.getPhysicalCores.length
      match pushRounds cpus virtualPerPhysical 0 m.unusedVirtualCores with
      | (completion, unusedVirtualCores) =>
        (completion, { m with unusedVirtualCores := unusedVirtualCores })
  | .STRATEGY_MAPPING_CACHE_EFFICIENT => (.threw .notYetSupported, m)
  | _ => (.returned (), m)

/-- Embeds `AdaptivityManagerFarm::computeAutoUnusedVCStrategy` (`fastflow.tpp`,
lines 187-202). -/
def computeAutoUnusedVCStrategy (m : AdaptivityManagerFarm)
    (virtualCores : List VirtualCore) : StrategyUnusedVirtualCores :=
  if virtualCores.any (fun vc => vc.isHotPluggable) then .STRATEGY_UNUSED_VC_OFF
  else if m.p.cpufreq.isGovernorAvailable .GOVERNOR_POWERSAVE ||
      m.p.cpufreq.isGovernorAvailable .GOVERNOR_USERSPACE then
    .STRATEGY_UNUSED_VC_LOWEST_FREQUENCY
  else .STRATEGY_UNUSED_VC_NONE

/-- The loop of the case `STRATEGY_UNUSED_VC_OFF` of
`applyUnusedVirtualCoresStrategy` (`fastflow.tpp`, lines 209-214). -/
def hotUnplugAll : List VirtualCore → AdaptivityManagerFarm → AdaptivityManagerFarm
  | [], m => m
  | vc :: rest, m =>
    if vc.isHotPluggable then hotUnplugAll rest { m with calls := m.calls ++ [.hotUnplug vc] }
    else hotUnplugAll rest m

/-- The loop of the case `STRATEGY_UNUSED_VC_LOWEST_FREQUENCY` of
`applyUnusedVirtualCoresStrategy` (`fastflow.tpp`, lines 218-227). -/
def setLowestFrequencyAll :
    List Domain → AdaptivityManagerFarm → Completion Unit × AdaptivityManagerFarm
  | [], m => (.returned (), m)
  | domain :: rest, m =>
    let m := { m with calls := m.calls ++ [.setGovernor domain.domainId .GOVERNOR_POWERSAVE] }
    if !domain.setGovernor .GOVERNOR_POWERSAVE then
      let m := { m with calls := m.calls ++ [.setGovernor domain.domainId .GOVERNOR_USERSPACE] }
      if !domain.setGovernor .GOVERNOR_USERSPACE then (.threw .lowestFrequencyFailed, m)
      else
        let m := { m with calls := m.calls ++ [.setLowestFrequencyUserspace domain.domainId] }
        if !domain.setLowestFrequencyUserspaceOk then (.threw .lowestFrequencyFailed, m)
        else setLowestFrequencyAll rest m
    else setLowestFrequencyAll rest m

/-- Embeds `AdaptivityManagerFarm::applyUnusedVirtualCoresStrategy`
(`fastflow.tpp`, lines 204-233).  The switch reads
`_p->strategyNeverUsedVirtualCores`, not the first argument. -/
def applyUnusedVirtualCoresStrategy (m : AdaptivityManagerFarm)
    (_strategyUnusedVirtualCores : StrategyUnusedVirtualCores)
    (virtualCores : List VirtualCore) : Completion Unit × AdaptivityManagerFarm :=
  match m.p.strategyNeverUsedVirtualCores with
  | .STRATEGY_UNUSED_VC_OFF => (.returned (), hotUnplugAll virtualCores m)
  | .STRATEGY_UNUSED_VC_LOWEST_FREQUENCY =>
    setLowestFrequencyAll (m.p.cpufreq.getDomainsComplete virtualCores) m
  | _ => (.returned (), m)

/-- The loop of `updatePstate` (`fastflow.tpp`, lines 244-258). -/
def updatePstateDomains (frequency : Frequency) :
    List Domain → AdaptivityManagerFarm → Completion Unit × AdaptivityManagerFarm
  | [], m => (.returned (), m)
  | domain :: rest, m =>
    let m := { m with calls := m.calls ++ [.setGovernor domain.domainId m.p.frequencyGovernor] }
    if !domain.setGovernor m.p.frequencyGovernor then (.threw .governorFailed, m)
    else if m.p.frequencyGovernor ≠ .GOVERNOR_USERSPACE then
      let m := { m with calls := m.calls ++
        [.setGovernorBounds domain.domainId m.p.frequencyLowerBound m.p.frequencyUpperBound] }
      if !domain.setGovernorBoundsOk then (.threw .governorBoundsFailed, m)
      else updatePstateDomains frequency rest m
    else if m.p.strategyFrequencies ≠ .STRATEGY_FREQUENCY_OS then
      let m := { m with calls := m.calls ++ [.setFrequencyUserspace domain.domainId frequency] }
      if !domain.setFrequencyUserspaceOk then (.threw .frequencyFailed, m)
      else updatePstateDomains frequency rest m
    else updatePstateDomains frequency rest m

/-- Embeds `AdaptivityManagerFarm::updatePstate` (`fastflow.tpp`, lines 235-259). -/
def updatePstate (m : AdaptivityManagerFarm) (virtualCores : List VirtualCore)
    (frequency : Frequency) : Completion Unit × AdaptivityManagerFarm :=
  let usedDomains := m.p.cpufreq.getDomainsCovering virtualCores
  updatePstateDomains frequency usedDomains m

/-- The locals of `mapAndSetFrequencies` that live across its sections
(`fastflow.tpp`, lines 269-271). -/
structure MappingLocals where
  emitterMappingRequired : Bool
  collectorMappingRequired : Bool
  frequencyScalableVirtualCores : List VirtualCore
  deriving DecidableEq, Repr

/-- The initialiser of `scalableVirtualCoresNum` (`fastflow.tpp`, lines 279-281).
By the C++ precedence rules `a + b ? 1 : 0 + c ? 1 : 0` is
`(a + b) ? 1 : ((0 + c) ? 1 : 0)`. -/
def scalableVirtualCoresNum (m : AdaptivityManagerFarm) (l : MappingLocals) : Nat :=
  if m.workers.length +
      (if l.emitterMappingRequired && !m.p.sensitiveEmitter then 1 else 0) ≠ 0 then 1
  else if 0 + (if l.collectorMappingRequired && !m.p.sensitiveCollector then 1 else 0) ≠ 0 then 1
  else 0

/-- The placement of one sensitive stage (`fastflow.tpp`, lines 291-295 for the
emitter, 299-303 for the collector): the VirtualCore chosen on
`performancePhysicalCores.at(index)`, set to the highest frequency. -/
def placeSensitiveStage (m : AdaptivityManagerFarm)
    (performancePhysicalCores : List PhysicalCore) (index : Nat) :
    Completion (Option VirtualCore) × AdaptivityManagerFarm :=
  match performancePhysicalCores[index]? with
  | none => (.threw .outOfRange, m)
  | some physicalCore =>
    let vc := physicalCore.getVirtualCore
    match setVirtualCoreToHighestFrequency m vc with
    | (.threw e, m) => (.threw e, m)
    | (.returned _, m) => (.returned vc, m)

/-- The block of the sensitive emitter in `mapAndSetFrequencies` (`fastflow.tpp`,
lines 290-296); the last component is the local `index`. -/
def mapSensitiveEmitter (m : AdaptivityManagerFarm) (l : MappingLocals)
    (performancePhysicalCores : List PhysicalCore) (index : Nat) :
    Completion Unit × AdaptivityManagerFarm × MappingLocals × Nat :=
  if m.p.sensitiveEmitter && l.emitterMappingRequired then
    match placeSensitiveStage m performancePhysicalCores index with
    | (.threw e, m) => (.threw e, m, l, index)
    | (.returned vc, m) =>
      (.returned (), { m with emitterVirtualCore := vc },
        { l with emitterMappingRequired := false },
        (index + 1) % performancePhysicalCores.length)
  else (.returned (), m, l, index)

/-- The block of the sensitive collector in `mapAndSetFrequencies`
(`fastflow.tpp`, lines 298-304); the last component is the local `index`. -/
def mapSensitiveCollector (m : AdaptivityManagerFarm) (l : MappingLocals)
    (performancePhysicalCores : List PhysicalCore) (index : Nat) :
    Completion Unit × AdaptivityManagerFarm × MappingLocals × Nat :=
  if m.p.sensitiveCollector && l.collectorMappingRequired then
    match placeSensitiveStage m performancePhysicalCores index with
    | (.threw e, m) => (.threw e, m, l, index)
    | (.returned vc, m) =>
      (.returned (), { m with collectorVirtualCore := vc },
        { l with collectorMappingRequired := false },
        (index + 1) % performancePhysicalCores.length)
  else (.returned (), m, l, index)

/-- The section of `mapAndSetFrequencies` that separates the sensitive stages
(`fastflow.tpp`, lines 277-306). -/
def mapSensitiveStages (m : AdaptivityManagerFarm) (l : MappingLocals) :
    Completion MappingLocals × AdaptivityManagerFarm :=
  if m.p.strategyFrequencies ≠ .STRATEGY_FREQUENCY_NO ∧
      (m.p.sensitiveEmitter || m.p.sensitiveCollector) then
    let scalableVirtualCores :=
      if scalableVirtualCoresNum m l < m.unusedVirtualCores.length then
        m.unusedVirtualCores.take (scalableVirtualCoresNum m l)
      else m.unusedVirtualCores
    let performancePhysicalCores := getSeparatedDomainPhysicalCores m scalableVirtualCores
    if performancePhysicalCores.length ≠ 0 then
      match mapSensitiveEmitter m l performancePhysicalCores 0 with
      | (.threw e, m, _, _) => (.threw e, m)
      | (.returned _, m, l, index) =>
        match mapSensitiveCollector m l performancePhysicalCores index with
        | (.threw e, m, _, _) => (.threw e, m)
        | (.returned _, m, l, _) => (.returned l, m)
    else (.returned l, m)
  else (.returned l, m)

/-- The emitter block of the EWC assignment (`fastflow.tpp`, lines 311-315);
`front()` of an empty vector is undefined. -/
def mapEmitter (m : AdaptivityManagerFarm) (l : MappingLocals) :
    Completion MappingLocals × AdaptivityManagerFarm :=
  if l.emitterMappingRequired then
    match m.unusedVirtualCores with
    | [] => (.threw .undefinedBehaviour, m)
    | vc :: rest =>
      (.returned
          { l with frequencyScalableVirtualCores := l.frequencyScalableVirtualCores ++ [vc] },
        { m with emitterVirtualCore := some vc, unusedVirtualCores := rest })
  else (.returned l, m)

/-- The workers block of the EWC assignment (`fastflow.tpp`, lines 317-322).  The
loop pushes `_unusedVirtualCores.at(i)` for `i = 0, 1, ...` and throws at the
first index that is out of range; otherwise line 322 erases the entries taken. -/
def mapWorkers (m : AdaptivityManagerFarm) (l : MappingLocals) :
    Completion MappingLocals × AdaptivityManagerFarm :=
  let pushed := m.unusedVirtualCores.take m.workers.length
  let l := { l with
    frequencyScalableVirtualCores := l.frequencyScalableVirtualCores ++ pushed }
  let m := { m with workersVirtualCores := m.workersVirtualCores ++ pushed }
  if pushed.length < m.workers.length then (.threw .outOfRange, m)
  else (.returned l, { m with unusedVirtualCores := m.unusedVirtualCores.drop m.workers.length })

/-- The collector block of the EWC assignment (`fastflow.tpp`, lines 324-328);
`front()` of an empty vector is undefined. -/
def mapCollector (m : AdaptivityManagerFarm) (l : MappingLocals) :
    Completion MappingLocals × AdaptivityManagerFarm :=
  if l.collectorMappingRequired then
    match m.unusedVirtualCores with
    | [] => (.threw .undefinedBehaviour, m)
    | vc :: rest =>
      (.returned
          { l with frequencyScalableVirtualCores := l.frequencyScalableVirtualCores ++ [vc] },
        { m with collectorVirtualCore := some vc, unusedVirtualCores := rest })
  else (.returned l, m)

/-- The section of `mapAndSetFrequencies` that assigns the remaining stages in
EWC order (`fastflow.tpp`, lines 308-328). -/
def mapRemainingStages (m : AdaptivityManagerFarm) (l : MappingLocals) :
    Completion MappingLocals × AdaptivityManagerFarm :=
  match mapEmitter m l with
  | (.threw e, m) => (.threw e, m)
  | (.returned l, m) =>
    match mapWorkers m l with
    | (.threw e, m) => (.threw e, m)
    | (.returned l, m) => mapCollector m l

/-- One `node->getThreadHandler()->move(virtualCore)` (`fastflow.tpp`, lines 334,
338 and 342). -/
def moveNode (node : AdaptiveNode) (virtualCore : Option VirtualCore)
    (m : AdaptivityManagerFarm) : Completion Unit × AdaptivityManagerFarm :=
  match node.getThreadHandler with
  | .threw e => (.threw e, m)
  | .returned thread => (.returned (), { m with calls := m.calls ++ [.move thread virtualCore] })

/-- The loop of lines 341-343 of `mapAndSetFrequencies`, from worker `i` on. -/
def moveWorkers : List AdaptiveNode → Nat → AdaptivityManagerFarm →
    Completion Unit × AdaptivityManagerFarm
  | [], _, m => (.returned (), m)
  | worker :: rest, i, m =>
    match m.workersVirtualCores[i]? with
    | none =>
      match worker.getThreadHandler with
      | .threw e => (.threw e, m)
      | .returned _ => (.threw .outOfRange, m)
    | some vc => andThen (moveNode worker (some vc) m) (moveWorkers rest (i + 1))

/-- The section "Perform mapping" of `mapAndSetFrequencies` (`fastflow.tpp`,
lines 330-343). -/
def performMapping (m : AdaptivityManagerFarm) : Completion Unit × AdaptivityManagerFarm :=
  andThen
    (match m.farm.getAdaptiveEmitter with
      | some node => moveNode node m.emitterVirtualCore m
      | none => (.returned (), m))
    (fun m =>
      andThen
        (match m.farm.getAdaptiveCollector with
          | some node => moveNode node m.collectorVirtualCore m
          | none => (.returned (), m))
        (moveWorkers m.workers 0))

/-- The treatment of the unused VirtualCores in `mapAndSetFrequencies`
(`fastflow.tpp`, lines 345-349). -/
def treatUnusedVirtualCores (m : AdaptivityManagerFarm) :
    Completion Unit × AdaptivityManagerFarm :=
  let m :=
    if m.p.strategyNeverUsedVirtualCores = .STRATEGY_UNUSED_VC_AUTO then
      { m with p := { m.p with
          strategyNeverUsedVirtualCores := computeAutoUnusedVCStrategy m m.unusedVirtualCores } }
    else m
  applyUnusedVirtualCoresStrategy m m.p.strategyNeverUsedVirtualCores m.unusedVirtualCores

/-- The initial P-state of `mapAndSetFrequencies` (`fastflow.tpp`, lines 351-356).
`at(0)` throws without any domain; `back()` of an empty vector is undefined. -/
def setInitialPstate (m : AdaptivityManagerFarm) (l : MappingLocals) :
    Completion Unit × AdaptivityManagerFarm :=
  if m.p.strategyFrequencies ≠ .STRATEGY_FREQUENCY_NO ∧
      m.p.strategyFrequencies ≠ .STRATEGY_FREQUENCY_OS then
    match m.p.cpufreq.getDomains[0]? with
    | none => (.threw .outOfRange, m)
    | some domain0 =>
      let m := { m with availableFrequencies := domain0.getAvailableFrequencies }
      match m.availableFrequencies.getLast? with
      | none => (.threw .undefinedBehaviour, m)
      | some highest =>
        let m := { m with currentFrequency := highest }
        updatePstate m l.frequencyScalableVirtualCores m.currentFrequency
  else (.returned (), m)

/-- Embeds `AdaptivityManagerFarm::mapAndSetFrequencies` (`fastflow.tpp`, lines
261-357), its sections in order.  The result pairs the way the call ended with
the manager as the call leaves it. -/
def mapAndSetFrequencies (m : AdaptivityManagerFarm) :
    Completion Unit × AdaptivityManagerFarm :=
  if m.p.strategyMapping = .STRATEGY_MAPPING_NO then (.returned (), m)
  else
    -- Computes map.
    andThen (setUnusedVirtualCores m) (fun m =>
      let l : MappingLocals :=
        { emitterMappingRequired := m.farm.getEmitter.isSome
          collectorMappingRequired := m.farm.getCollector.isSome
          frequencyScalableVirtualCores := [] }
      match mapSensitiveStages m l with
      | (.threw e, m) => (.threw e, m)
      | (.returned l, m) =>
        match mapRemainingStages m l with
        | (.threw e, m) => (.threw e, m)
        | (.returned l, m) =>
          -- Perform mapping.
          andThen (performMapping m) (fun m =>
            andThen (treatUnusedVirtualCores m) (fun m => setInitialPstate m l)))

/-! ## Contract check and reconfiguration search (`fastflow.tpp`) -/

/-- Embeds `AdaptivityManagerFarm::isContractViolated` (`fastflow.tpp`, lines
404-414). -/
def isContractViolated (m : AdaptivityManagerFarm) (monitoredValue : ℚ) : Bool :=
  if m.p.requiredBandwidth ≠ 0 then
    let offset := (m.p.requiredBandwidth * m.p.maxBandwidthVariation) / 100
    decide (monitoredValue < m.p.requiredBandwidth - offset ∨
      monitoredValue > m.p.requiredBandwidth + offset)
  else
    decide (monitoredValue < m.p.underloadThresholdFarm ∨
      monitoredValue > m.p.overloadThresholdFarm)

/-- Embeds `AdaptivityManagerFarm::getEstimatedMonitoredValue` (`fastflow.tpp`,
lines 416-423).  The factor in parentheses is computed on unsigned integers:
`frequency`, `_currentFrequency` (32 bits) and `numWorkers` (`uint`, 32 bits)
multiply modulo `2 ^ 32`, `_currentNumWorkers` (`size_t`) widens the operation to
64 bits, `/` is the integer division, left-associative with `*`, and undefined
on a zero divisor. -/
def getEstimatedMonitoredValue (m : AdaptivityManagerFarm) (monitoredValue : ℚ)
    (frequency : Frequency) (numWorkers : Nat) : Completion ℚ :=
  if m.p.requiredBandwidth ≠ 0 then
    if m.currentFrequency = 0 then .threw .undefinedBehaviour
    else
      .returned (monitoredValue *
        ((((frequency * numWorkers) % 2 ^ 32 / m.currentFrequency * m.currentNumWorkers)
          % 2 ^ 64 : Nat) : ℚ))
  else
    if (frequency * numWorkers) % 2 ^ 32 = 0 then .threw .undefinedBehaviour
    else
      .returned (monitoredValue *
        ((((m.currentFrequency * m.currentNumWorkers) % 2 ^ 64 /
          ((frequency * numWorkers) % 2 ^ 32) : Nat)) : ℚ))

/-- Embeds `AdaptivityManagerFarm::getEstimatedPower` (`fastflow.tpp`, lines
425-428): the body throws `std::runtime_error("Notimplemented.")`. -/
def getEstimatedPower (_m : AdaptivityManagerFarm) (_frequency : Frequency)
    (_numWorkers : Nat) : Completion ℚ :=
  .threw .notImplemented

/-- The constant `std::numeric_limits<double>::max()`. -/
def doubleMax : ℚ := 2 ^ 1024 - 2 ^ 971

/-- The variables of `getNewConfiguration` that its loops update: the local
`minEstimatedPower` and the two reference parameters. -/
structure SearchState where
  minEstimatedPower : ℚ
  frequency : Frequency
  numWorkers : Nat
  deriving DecidableEq

/-- The inner loop of `getNewConfiguration` (`fastflow.tpp`, lines 438-449), over
the frequencies still to examine for the worker count `i`. -/
def searchFrequencies (m : AdaptivityManagerFarm) (monitoredValue : ℚ) (i : Nat) :
    List Frequency → SearchState → Completion SearchState
  | [], s => .returned s
  | examinedFrequency :: rest, s =>
    match getEstimatedMonitoredValue m monitoredValue examinedFrequency (i % 2 ^ 32) with
    | .threw e => .threw e
    | .returned estimatedMonitoredValue =>
      if !isContractViolated m estimatedMonitoredValue then
        match getEstimatedPower m examinedFrequency (i % 2 ^ 32) with
        | .threw e => .threw e
        | .returned estimatedPower =>
          if estimatedPower < s.minEstimatedPower then
            searchFrequencies m monitoredValue i rest
              { minEstimatedPower := estimatedPower
                frequency := examinedFrequency
                numWorkers := i % 2 ^ 32 }
          else searchFrequencies m monitoredValue i rest s
      else searchFrequencies m monitoredValue i rest s

/-- The outer loop of `getNewConfiguration` (`fastflow.tpp`, lines 437-450),
entered at worker count `i` with `iterations` rounds left to run, that is
`_maxNumWorkers - i`. -/
def searchWorkers (m : AdaptivityManagerFarm) (monitoredValue : ℚ) :
    Nat → Nat → SearchState → Completion SearchState
  | 0, _, s => .returned s
  | iterations + 1, i, s =>
    match searchFrequencies m monitoredValue i m.availableFrequencies s with
    | .threw e => .threw e
    | .returned s => searchWorkers m monitoredValue iterations (i + 1) s

/-- Embeds `AdaptivityManagerFarm::getNewConfiguration` (`fastflow.tpp`, lines
431-451).  `frequency` and `numWorkers` are the values the two reference
parameters hold at the call; the value returned is the pair they hold at the
end. -/
def getNewConfiguration (m : AdaptivityManagerFarm) (monitoredValue : ℚ)
    (frequency : Frequency) (numWorkers : Nat) : Completion (Frequency × Nat) :=
  match searchWorkers m monitoredValue m.maxNumWorkers 0
      { minEstimatedPower := doubleMax, frequency := frequency, numWorkers := numWorkers } with
  | .threw e => .threw e
  | .returned s => .returned (s.frequency, s.numWorkers)

/-! ## Predicates and scenarios for `validate` -/

/-- The threshold test of `validate` (lines 137-140), as a proposition. -/
def thresholdsRejected (p : AdaptivityParameters) : Prop :=
  p.underloadThresholdFarm > p.overloadThresholdFarm ∨
  p.underloadThresholdWorker > p.overloadThresholdWorker ∨
  p.underloadThresholdFarm < 0 ∨ p.overloadThresholdFarm > 100 ∨
  p.underloadThresholdWorker < 0 ∨ p.overloadThresholdWorker > 100

/-- Proof helper: the value of `isFrequencyGovernorAvailable`, which reads the
record only through its `cpufreq` module. -/
def governorOnEveryDomain (c : CpuFreq) (governor : Governor) : Bool :=
  if c.getDomains.length = 0 then false
  else c.getDomains.all (fun d => contains d.getAvailableGovernors governor)

/-- The governor stored in the record when the section "Validate frequency
strategies" falls through (line 154 overwrites it under a strategy that is
neither NO nor OS). -/
def governorAfterStrategies (p : AdaptivityParameters) : Governor :=
  if p.strategyFrequencies ≠ .STRATEGY_FREQUENCY_NO ∧
      p.strategyFrequencies ≠ .STRATEGY_FREQUENCY_OS then .GOVERNOR_USERSPACE
  else p.frequencyGovernor

/-- The record as the section "Validate frequency strategies" leaves it. -/
def parametersAfterStrategies (p : AdaptivityParameters) : AdaptivityParameters :=
  if p.strategyFrequencies ≠ .STRATEGY_FREQUENCY_NO ∧
      p.strategyFrequencies ≠ .STRATEGY_FREQUENCY_OS then
    { p with frequencyGovernor := .GOVERNOR_USERSPACE }
  else p

/-- The local vector `frequencyDomains` as the section "Validate frequency
strategies" leaves it: filled at line 148 unless the strategy is NO. -/
def domainsAfterStrategies (p : AdaptivityParameters) : List Domain :=
  if p.strategyFrequencies ≠ .STRATEGY_FREQUENCY_NO then p.cpufreq.getDomains else []

/-- The section "Validate frequency strategies" returns no code: each of its
tests (lines 149, 155, 159-161 and 166) passes. -/
def passesStrategyChecks (p : AdaptivityParameters) : Prop :=
  (p.strategyFrequencies ≠ .STRATEGY_FREQUENCY_NO →
    p.cpufreq.getDomains ≠ [] ∧
    (p.strategyFrequencies ≠ .STRATEGY_FREQUENCY_OS →
      isFrequencyGovernorAvailable p .GOVERNOR_USERSPACE = true) ∧
    ¬ ((p.sensitiveEmitter = true ∨ p.sensitiveCollector = true) ∧
        isFrequencyGovernorAvailable p .GOVERNOR_PERFORMANCE = false ∧
        isFrequencyGovernorAvailable p .GOVERNOR_USERSPACE = false)) ∧
  (p.strategyFrequencies = .STRATEGY_FREQUENCY_NO →
    p.sensitiveEmitter = false ∧ p.sensitiveCollector = false)

/-- Every check of `validate` that precedes the section "Validate frequency
bounds" passes: the threshold test (lines 137-140), the tests of the frequency
strategy section, the governor test (line 172, on the governor stored at that
point) and the mapping test (line 177). -/
def passesChecksBeforeBounds (p : AdaptivityParameters) : Prop :=
  ¬ thresholdsRejected p ∧
  passesStrategyChecks p ∧
  isFrequencyGovernorAvailable p (governorAfterStrategies p) = true ∧
  p.strategyMapping ≠ .STRATEGY_MAPPING_CACHE_EFFICIENT

/-- The four thresholds lie in [0,100] and each underload threshold is at most
its overload threshold. -/
def thresholdsValid (p : AdaptivityParameters) : Prop :=
  (0 ≤ p.underloadThresholdFarm ∧ p.underloadThresholdFarm ≤ 100) ∧
  (0 ≤ p.overloadThresholdFarm ∧ p.overloadThresholdFarm ≤ 100) ∧
  (0 ≤ p.underloadThresholdWorker ∧ p.underloadThresholdWorker ≤ 100) ∧
  (0 ≤ p.overloadThresholdWorker ∧ p.overloadThresholdWorker ≤ 100) ∧
  p.underloadThresholdFarm ≤ p.overloadThresholdFarm ∧
  p.underloadThresholdWorker ≤ p.overloadThresholdWorker

/-- The available-frequency list of the first frequency domain of the platform
(empty when the platform has no domain). -/
def firstDomainFrequencies (p : AdaptivityParameters) : List Frequency :=
  match p.cpufreq.getDomains with
  | [] => []
  | domain0 :: _ => domain0.getAvailableFrequencies

/-- A frequency domain offering every governor and the frequencies 1.0, 1.5 and
2.0 GHz (in KHz), on which every programming operation succeeds. -/
def exampleDomain : Domain :=
  { domainId := 0
    virtualCores := []
    availableGovernors := [.GOVERNOR_CONSERVATIVE, .GOVERNOR_ONDEMAND, .GOVERNOR_USERSPACE,
      .GOVERNOR_POWERSAVE, .GOVERNOR_PERFORMANCE]
    availableFrequencies := [1000000, 1500000, 2000000]
    settableGovernors := [.GOVERNOR_CONSERVATIVE, .GOVERNOR_ONDEMAND, .GOVERNOR_USERSPACE,
      .GOVERNOR_POWERSAVE, .GOVERNOR_PERFORMANCE]
    setGovernorBoundsOk := true
    setFrequencyUserspaceOk := true
    setHighestFrequencyUserspaceOk := true
    setLowestFrequencyUserspaceOk := true }

/-- The values given by the constructor `AdaptivityParameters::AdaptivityParameters`
(`fastflow.cpp`, lines 86-102) on the platform modules `cpufreq` and `topology`.
The constructor leaves `strategyNeverUsedVirtualCores`, `requiredBandwidth` and
`maxBandwidthVariation` uninitialised; they are given the defaults of the spec
(NONE and 0). -/
def defaultParameters (cpufreq : CpuFreq) (topology : Topology) : AdaptivityParameters :=
  { cpufreq := cpufreq
    topology := topology
    strategyFrequencies := .STRATEGY_FREQUENCY_NO
    frequencyGovernor := .GOVERNOR_USERSPACE
    strategyMapping := .STRATEGY_MAPPING_OS
    strategyNeverUsedVirtualCores := .STRATEGY_UNUSED_VC_NONE
    sensitiveEmitter := false
    sensitiveCollector := false
    numSamples := 10
    samplingInterval := 1
    underloadThresholdFarm := 80
    overloadThresholdFarm := 90
    underloadThresholdWorker := 80
    overloadThresholdWorker := 90
    migrateCollector := true
    requiredBandwidth := 0
    maxBandwidthVariation := 0
    stabilizationPeriod := 4
    frequencyLowerBound := 0
    frequencyUpperBound := 0 }

/-- Scenario S4: default parameters with `sensitiveEmitter` set, on a platform
without any frequency domain. -/
def s4Parameters : AdaptivityParameters :=
  { defaultParameters ⟨[]⟩ ⟨[]⟩ with sensitiveEmitter := true }

/-- Scenario S5: strategy OS with governor ONDEMAND on `exampleDomain`, upper
bound 1.7 GHz. -/
def s5Parameters : AdaptivityParameters :=
  { defaultParameters ⟨[exampleDomain]⟩ ⟨[]⟩ with
    strategyFrequencies := .STRATEGY_FREQUENCY_OS
    frequencyGovernor := .GOVERNOR_ONDEMAND
    frequencyUpperBound := 1700000 }

/-- Scenario with both bounds absent: strategy OS with governor ONDEMAND on
`exampleDomain`. -/
def absentBoundsParameters : AdaptivityParameters :=
  { defaultParameters ⟨[exampleDomain]⟩ ⟨[]⟩ with
    strategyFrequencies := .STRATEGY_FREQUENCY_OS
    frequencyGovernor := .GOVERNOR_ONDEMAND }

/-- Scenario with an available-frequency list that is not sorted: strategy OS,
upper bound 2.0 GHz given, lower bound absent. -/
def unsortedFrequenciesParameters : AdaptivityParameters :=
  { defaultParameters
      ⟨[{ exampleDomain with availableFrequencies := [2000000, 1000000] }]⟩ ⟨[]⟩ with
    strategyFrequencies := .STRATEGY_FREQUENCY_OS
    frequencyGovernor := .GOVERNOR_ONDEMAND
    frequencyUpperBound := 2000000 }

/-- Scenario with a sorted available-frequency list and only the upper bound
given: strategy OS, upper bound 1.5 GHz. -/
def upperBoundOnlyParameters : AdaptivityParameters :=
  { defaultParameters ⟨[exampleDomain]⟩ ⟨[]⟩ with
    strategyFrequencies := .STRATEGY_FREQUENCY_OS
    frequencyGovernor := .GOVERNOR_ONDEMAND
    frequencyUpperBound := 1500000 }

/-! ## Scenarios for the manager -/

/-- A stage whose thread has started: tasks manager attached, thread handler
`thread` acquired. -/
def startedNode (thread : Nat) : AdaptiveNode :=
  { tasksManager := some 0, thread := some thread, threadCreated := true }

/-- A farm after its first `run`: the adaptive stages are the stages of the
underlying farm. -/
def runningFarm (workers : List AdaptiveNode) (emitter collector : Option AdaptiveNode) :
    AdaptiveFarm :=
  { workers := workers
    emitter := emitter
    collector := collector
    adaptiveWorkers := workers
    adaptiveEmitter := emitter
    adaptiveCollector := collector
    firstRun := false }

/-- One frequency domain holding the eight VirtualCores 0..7, with the governors,
frequencies and successful operations of `exampleDomain`. -/
def eightCoreDomain : Domain :=
  { exampleDomain with
    virtualCores := [⟨0, false⟩, ⟨1, false⟩, ⟨2, false⟩, ⟨3, false⟩, ⟨4, false⟩, ⟨5, false⟩,
      ⟨6, false⟩, ⟨7, false⟩] }

/-- One Cpu of four PhysicalCores of two siblings; PhysicalCore `j` owns the
VirtualCores `j` (first sibling) and `j + 4`. -/
def fourCoreTopology : Topology :=
  { cpus := [{ cpuId := 0
               physicalCores :=
                 [{ physicalCoreId := 0, virtualCores := [⟨0, false⟩, ⟨4, false⟩] },
                  { physicalCoreId := 1, virtualCores := [⟨1, false⟩, ⟨5, false⟩] },
                  { physicalCoreId := 2, virtualCores := [⟨2, false⟩, ⟨6, false⟩] },
                  { physicalCoreId := 3, virtualCores := [⟨3, false⟩, ⟨7, false⟩] }] }] }

/-- Scenario S3: bandwidth contract, 1000 required with 10 percent of variation,
under LINEAR mapping and the POWER_CONSERVATIVE frequency strategy. -/
def s3Parameters : AdaptivityParameters :=
  { defaultParameters ⟨[eightCoreDomain]⟩ fourCoreTopology with
    strategyMapping := .STRATEGY_MAPPING_LINEAR
    strategyFrequencies := .STRATEGY_FREQUENCY_POWER_CONSERVATIVE
    requiredBandwidth := 1000
    maxBandwidthVariation := 10 }

/-- Scenario S3: the manager of a farm of two workers, in the state in which
`mapAndSetFrequencies` leaves it (current frequency 2.0 GHz, the highest). -/
def s3Manager : AdaptivityManagerFarm :=
  (mapAndSetFrequencies
    (AdaptivityManagerFarm.construct (runningFarm [startedNode 1, startedNode 2] none none)
      s3Parameters)).2

/-! ## Predicates on topologies and mappings -/

/-- Sibling `k` of PhysicalCore `j` of Cpu `c` in the topology, if there is
one. -/
def Topology.sibling (t : Topology) (c j k : Nat) : Option VirtualCore :=
  (t.cpus[c]?).bind (fun cpu =>
    (cpu.physicalCores[j]?).bind (fun physicalCore => physicalCore.virtualCores[k]?))

/-- The topology is uniform: `C` Cpus of `P` PhysicalCores of `S` siblings. -/
def Topology.Uniform (t : Topology) (C P S : Nat) : Prop :=
  t.cpus.length = C ∧
  ∀ cpu ∈ t.cpus, cpu.physicalCores.length = P ∧
    ∀ physicalCore ∈ cpu.physicalCores, physicalCore.virtualCores.length = S

/-- Distinct places of the topology hold distinct VirtualCores (the objects of
the topology module are pairwise distinct). -/
def Topology.DistinctCores (t : Topology) : Prop :=
  ∀ c j k c' j' k' v, t.sibling c j k = some v → t.sibling c' j' k' = some v →
    c = c' ∧ j = j' ∧ k = k'

/-- The candidate list built by the loops of `setUnusedVirtualCores` on a
topology whose PhysicalCores all own `S` siblings: round `k` appends sibling `k`
of every PhysicalCore, Cpu by Cpu. -/
def linearCandidates (t : Topology) (S : Nat) : List VirtualCore :=
  (List.range S).flatMap (fun k => t.cpus.flatMap (fun cpu =>
    cpu.physicalCores.filterMap (fun physicalCore => physicalCore.virtualCores[k]?)))

/-- Two manager states agree on the mapping: emitter, collector, worker and
unused VirtualCores. -/
def sameMapping (a b : AdaptivityManagerFarm) : Prop :=
  a.emitterVirtualCore = b.emitterVirtualCore ∧
  a.collectorVirtualCore = b.collectorVirtualCore ∧
  a.workersVirtualCores = b.workersVirtualCores ∧
  a.unusedVirtualCores = b.unusedVirtualCores

/-- VirtualCore number `id`, not hot-pluggable. -/
def core (id : Nat) : VirtualCore := { virtualCoreId := id, hotPluggable := false }

/-- Scenarios S1 and S2: one Cpu of four PhysicalCores of two siblings. -/
def s1Topology : Topology := fourCoreTopology

/-- Scenario S1: two workers, no emitter, no collector, LINEAR mapping. -/
def s1Manager : AdaptivityManagerFarm :=
  AdaptivityManagerFarm.construct
    (runningFarm [startedNode 1, startedNode 2] none none)
    { defaultParameters ⟨[exampleDomain]⟩ s1Topology with
      strategyMapping := .STRATEGY_MAPPING_LINEAR }

/-- Scenario S2: four workers, an emitter and a collector, LINEAR mapping. -/
def s2Manager : AdaptivityManagerFarm :=
  AdaptivityManagerFarm.construct
    (runningFarm [startedNode 1, startedNode 2, startedNode 3, startedNode 4]
      (some (startedNode 0)) (some (startedNode 5)))
    { defaultParameters ⟨[exampleDomain]⟩ s1Topology with
      strategyMapping := .STRATEGY_MAPPING_LINEAR }

/-- One Cpu of two PhysicalCores of one sibling each: VirtualCores 0 and 1. -/
def twoCoreTopology : Topology :=
  { cpus := [{ cpuId := 0
               physicalCores :=
                 [{ physicalCoreId := 0, virtualCores := [core 0] },
                  { physicalCoreId := 1, virtualCores := [core 1] }] }] }

/-- One frequency domain per VirtualCore of `twoCoreTopology`. -/
def twoDomainCpuFreq : CpuFreq :=
  { domains := [{ exampleDomain with domainId := 0, virtualCores := [core 0] },
                { exampleDomain with domainId := 1, virtualCores := [core 1] }] }

/-- Parameters asking for a sensitive emitter: LINEAR mapping, frequency
strategy OS with governor ONDEMAND, on `twoCoreTopology` with one domain per
core. -/
def sensitiveEmitterParameters : AdaptivityParameters :=
  { defaultParameters twoDomainCpuFreq twoCoreTopology with
    strategyMapping := .STRATEGY_MAPPING_LINEAR
    strategyFrequencies := .STRATEGY_FREQUENCY_OS
    frequencyGovernor := .GOVERNOR_ONDEMAND
    sensitiveEmitter := true }

/-- A sensitive emitter and one worker on `twoCoreTopology`. -/
def sensitiveEmitterOneWorker : AdaptivityManagerFarm :=
  AdaptivityManagerFarm.construct
    (runningFarm [startedNode 1] (some (startedNode 0)) none)
    sensitiveEmitterParameters

/-- A sensitive emitter and two workers on `twoCoreTopology`. -/
def sensitiveEmitterTwoWorkers : AdaptivityManagerFarm :=
  AdaptivityManagerFarm.construct
    (runningFarm [startedNode 1, startedNode 2] (some (startedNode 0)) none)
    sensitiveEmitterParameters


/-! ## Scenarios for the governor, mapping and purity properties of `validate` -/

/-- Parameters asking for the reserved mapping strategy CACHE_EFFICIENT, on
`exampleDomain`. -/
def cacheEfficientParameters : AdaptivityParameters :=
  { defaultParameters ⟨[exampleDomain]⟩ ⟨[]⟩ with
    strategyMapping := .STRATEGY_MAPPING_CACHE_EFFICIENT }

/-- Parameters with governor ONDEMAND under the POWER_CONSERVATIVE frequency
strategy, on `exampleDomain`. -/
def ondemandConservativeParameters : AdaptivityParameters :=
  { defaultParameters ⟨[exampleDomain]⟩ ⟨[]⟩ with
    strategyFrequencies := .STRATEGY_FREQUENCY_POWER_CONSERVATIVE
    frequencyGovernor := .GOVERNOR_ONDEMAND }

/-- Parameters with governor ONDEMAND under strategy OS on a platform where the
second of two domains does not offer ONDEMAND. -/
def missingGovernorParameters : AdaptivityParameters :=
  { defaultParameters
      ⟨[exampleDomain,
        { exampleDomain with
          domainId := 1
          availableGovernors := [.GOVERNOR_USERSPACE, .GOVERNOR_PERFORMANCE] }]⟩ ⟨[]⟩ with
    strategyFrequencies := .STRATEGY_FREQUENCY_OS
    frequencyGovernor := .GOVERNOR_ONDEMAND }

/-- Scenario with a sorted available-frequency list and only the lower bound
given: strategy OS, lower bound 1.5 GHz. -/
def lowerBoundOnlyParameters : AdaptivityParameters :=
  { defaultParameters ⟨[exampleDomain]⟩ ⟨[]⟩ with
    strategyFrequencies := .STRATEGY_FREQUENCY_OS
    frequencyGovernor := .GOVERNOR_ONDEMAND
    frequencyLowerBound := 1500000 }

/-! ## The life of an adaptive node (`fastflow.cpp`) -/

/-- What a call of `svc_init` does outside the node: it asks the tasks manager
for a thread handler, and it fires the signal "thread created". -/
inductive NodeEvent where
  | handlerAcquired (thread : Nat)
  | threadCreatedNotified
  deriving DecidableEq, Repr

/-- Modelled from the spec: `Monitor::notifyOne` on the monitor `_threadCreated`
(`mammut/utils.hpp` is not among the sources).  The signal "thread created" is a
single-shot notification: once fired, `predicate()` holds. -/
def Monitor.notifyOne (_predicate : Bool) : Bool := true

/-- Modelled from the spec: the state of a freshly constructed monitor
(`mammut/utils.hpp` is not among the sources).  Before the signal "thread
created" has been fired, `predicate()` does not hold. -/
def Monitor.construct : Bool := false

/-- Embeds the constructor `AdaptiveNode::AdaptiveNode` (`fastflow.cpp`, lines
34-38): `_tasksManager` and `_thread` are `NULL`, and the member `_threadCreated`
is default-constructed. -/
def AdaptiveNode.construct : AdaptiveNode :=
  { tasksManager := none, thread := none, threadCreated := Monitor.construct }

/-- Embeds `AdaptiveNode::initMammutModules` (`fastflow.cpp`, lines 62-68).
`remote` and `localTasksManager` are the answers of `TasksManager::remote` and
`TasksManager::local` (pointers: `none` is `NULL`). -/
def AdaptiveNode.initMammutModules (node : AdaptiveNode) (communicator : Option Nat)
    (remote : Nat → Option Nat) (localTasksManager : Option Nat) : AdaptiveNode :=
  match communicator with
  | some c => { node with tasksManager := remote c }
  | none => { node with tasksManager := localTasksManager }

/-- Embeds `AdaptiveNode::svc_init` (`fastflow.cpp`, lines 72-84).  `handler` is
the thread handler that `_tasksManager->getThreadHandler()` hands out if it is
asked (the node acquires a `ThreadHandler` from the platform; a `NULL` answer is
not considered), and `adaptiveSvcInit` the value of the overridable hook
`adaptive_svc_init()` (0 unless overridden).  The result is the way the call
ended, the node as the call leaves it, and the events of the call in order.  The
line written to `std::cout` is left out. -/
def AdaptiveNode.svc_init (node : AdaptiveNode) (handler : Nat) (adaptiveSvcInit : Int) :
    Completion Int × AdaptiveNode × List NodeEvent :=
  if !node.threadCreated then
    match node.tasksManager with
    | some _ =>
      (.returned adaptiveSvcInit,
        { node with thread := some handler
                    threadCreated := Monitor.notifyOne node.threadCreated },
        [.handlerAcquired handler, .threadCreatedNotified])
    | none => (.threw .tasksManagerNotInitialized, node, [])
  else (.returned adaptiveSvcInit, node, [])

/-- A run of later calls of `svc_init` on a node, each with the handler the
tasks manager would hand out and the value of the hook; the result is the node
after the last call, the events of all the calls, and whether every call
returned the value of its hook. -/
def svcInitRuns : AdaptiveNode → List (Nat × Int) → AdaptiveNode × List NodeEvent × Bool
  | node, [] => (node, [], true)
  | node, (handler, hook) :: rest =>
    match node.svc_init handler hook with
    | (completion, node1, events) =>
      match svcInitRuns node1 rest with
      | (node2, events2, ok) =>
        (node2, events ++ events2, decide (completion = .returned hook) && ok)

/-- A node on which `svc_init` has never run: a constructed node after any
number of calls of `initMammutModules`, each given by its communicator and the
answers of the platform. -/
def initMammutModulesRuns :
    AdaptiveNode → List (Option Nat × Option Nat × Option Nat) → AdaptiveNode
  | node, [] => node
  | node, (communicator, remote, localTasksManager) :: rest =>
    initMammutModulesRuns
      (node.initMammutModules communicator (fun _ => remote) localTasksManager) rest

/-! ## Scenarios for the OS mapping and the unused VirtualCores -/

/-- The constructor defaults (mapping OS, frequency strategy NO) on the platform
of scenario S1: one domain over a Cpu of four PhysicalCores of two siblings. -/
def osMappingParameters : AdaptivityParameters :=
  defaultParameters ⟨[eightCoreDomain]⟩ fourCoreTopology

/-- A farm of two workers under the constructor defaults. -/
def osMappingWorkers : AdaptivityManagerFarm :=
  AdaptivityManagerFarm.construct (runningFarm [startedNode 1, startedNode 2] none none)
    osMappingParameters

/-- A farm of an emitter alone under the constructor defaults. -/
def osMappingEmitter : AdaptivityManagerFarm :=
  AdaptivityManagerFarm.construct (runningFarm [] (some (startedNode 0)) none)
    osMappingParameters

/-- A farm of two workers under the constructor defaults with the mapping
strategy NO. -/
def noMappingWorkers : AdaptivityManagerFarm :=
  AdaptivityManagerFarm.construct (runningFarm [startedNode 1, startedNode 2] none none)
    { osMappingParameters with strategyMapping := .STRATEGY_MAPPING_NO }

/-- A VirtualCore that can be hot-unplugged. -/
def hotPluggableCore (id : Nat) : VirtualCore := { virtualCoreId := id, hotPluggable := true }

/-- One Cpu of four PhysicalCores of one hot-pluggable VirtualCore each. -/
def s6Topology : Topology :=
  { cpus := [{ cpuId := 0
               physicalCores :=
                 [{ physicalCoreId := 0, virtualCores := [hotPluggableCore 0] },
                  { physicalCoreId := 1, virtualCores := [hotPluggableCore 1] },
                  { physicalCoreId := 2, virtualCores := [hotPluggableCore 2] },
                  { physicalCoreId := 3, virtualCores := [hotPluggableCore 3] }] }] }

/-- Scenario S6: two workers under LINEAR mapping on `s6Topology`, with the
unused-core strategy AUTO, before `mapAndSetFrequencies`. -/
def s6Start : AdaptivityManagerFarm :=
  AdaptivityManagerFarm.construct (runningFarm [startedNode 1, startedNode 2] none none)
    { defaultParameters ⟨[exampleDomain]⟩ s6Topology with
      strategyMapping := .STRATEGY_MAPPING_LINEAR
      strategyNeverUsedVirtualCores := .STRATEGY_UNUSED_VC_AUTO }

/-- Scenario S6: the state in which the section "Perform mapping" leaves
`s6Start`: the workers pinned to the VirtualCores 0 and 1, the VirtualCores 2 and
3 unused. -/
def s6Manager : AdaptivityManagerFarm :=
  { s6Start with
    workersVirtualCores := [hotPluggableCore 0, hotPluggableCore 1]
    unusedVirtualCores := [hotPluggableCore 2, hotPluggableCore 3]
    calls := [.move 1 (some (hotPluggableCore 0)), .move 2 (some (hotPluggableCore 1))] }

/-! ## Scenarios for the estimates and the initial P-state -/

/-- Load contract: the parameters of scenario S3 without required bandwidth, so
that the farm thresholds 80 and 90 apply. -/
def loadParameters : AdaptivityParameters :=
  { s3Parameters with requiredBandwidth := 0, maxBandwidthVariation := 0 }

/-- The manager of a farm of two workers under `loadParameters`, in the state in
which `mapAndSetFrequencies` leaves it (current frequency 2.0 GHz). -/
def loadManager : AdaptivityManagerFarm :=
  (mapAndSetFrequencies
    (AdaptivityManagerFarm.construct (runningFarm [startedNode 1, startedNode 2] none none)
      loadParameters)).2

/-- The initialiser of the local `scalableVirtualCores` of `mapAndSetFrequencies`
(`fastflow.tpp`, lines 283-285): the prefix of `_unusedVirtualCores` of length
`scalableVirtualCoresNum`, or the whole list when it is not longer than that. -/
def scalableVirtualCores (m : AdaptivityManagerFarm) (l : MappingLocals) : List VirtualCore :=
  if scalableVirtualCoresNum m l < m.unusedVirtualCores.length then
    m.unusedVirtualCores.take (scalableVirtualCoresNum m l)
  else m.unusedVirtualCores

/-- The locals of `mapAndSetFrequencies` as lines 269-271 initialise them. -/
def initialLocals (m : AdaptivityManagerFarm) : MappingLocals :=
  { emitterMappingRequired := m.farm.getEmitter.isSome
    collectorMappingRequired := m.farm.getCollector.isSome
    frequencyScalableVirtualCores := [] }

/-- The count of scalable candidates as the spec gives it: the workers, plus one
for an emitter to map that is not sensitive, plus one for such a collector. -/
def scalableCandidatesCount (m : AdaptivityManagerFarm) (l : MappingLocals) : Nat :=
  m.workers.length +
    (if l.emitterMappingRequired && !m.p.sensitiveEmitter then 1 else 0) +
    (if l.collectorMappingRequired && !m.p.sensitiveCollector then 1 else 0)

/-- Two manager states agree on what the initial P-state reads: the cpufreq
module, the frequency strategy, and the members `_currentFrequency` and
`_availableFrequencies`. -/
def sameFrequencyState (a b : AdaptivityManagerFarm) : Prop :=
  a.p.cpufreq = b.p.cpufreq ∧
  a.p.strategyFrequencies = b.p.strategyFrequencies ∧
  a.currentFrequency = b.currentFrequency ∧
  a.availableFrequencies = b.availableFrequencies

/-- The POWER_CONSERVATIVE frequency strategy with the mapping strategy NO, on
the platform of scenario S3. -/
def noMappingConservativeParameters : AdaptivityParameters :=
  { s3Parameters with strategyMapping := .STRATEGY_MAPPING_NO }

/-- A farm of two workers under `noMappingConservativeParameters`. -/
def noMappingConservative : AdaptivityManagerFarm :=
  AdaptivityManagerFarm.construct (runningFarm [startedNode 1, startedNode 2] none none)
    noMappingConservativeParameters

/-- The parameters of scenario S3 on a domain whose available-frequency list is
not sorted: 2.0 GHz, then 1.0 GHz. -/
def unsortedConservativeParameters : AdaptivityParameters :=
  { s3Parameters with
    cpufreq := ⟨[{ eightCoreDomain with availableFrequencies := [2000000, 1000000] }]⟩ }

/-- A farm of two workers under `unsortedConservativeParameters`. -/
def unsortedConservative : AdaptivityManagerFarm :=
  AdaptivityManagerFarm.construct (runningFarm [startedNode 1, startedNode 2] none none)
    unsortedConservativeParameters

/-- Scenario S3 before `mapAndSetFrequencies`: a farm of two workers. -/
def s3Start : AdaptivityManagerFarm :=
  AdaptivityManagerFarm.construct (runningFarm [startedNode 1, startedNode 2] none none)
    s3Parameters


/-! ## Scenarios for the shape of validated parameters -/

/-- The parameters of scenario S3 with the governor ONDEMAND given by the
caller. -/
def ondemandS3Parameters : AdaptivityParameters :=
  { s3Parameters with frequencyGovernor := .GOVERNOR_ONDEMAND }

/-- A farm of two workers on the record that `validate` leaves for
`ondemandS3Parameters`. -/
def validatedConservative : AdaptivityManagerFarm :=
  AdaptivityManagerFarm.construct (runningFarm [startedNode 1, startedNode 2] none none)
    (validate ondemandS3Parameters).2

/-! ## The farm wrapper (`fastflow.tpp`, lines 24-92) -/

/-- The object `AdaptiveFarm` as `construct` and `run` use it.  Stages are held
by pointer: a pointer is an address, and `nodes` gives the stage object at each
address.  `workers`, `emitter` and `collector` are the answers of the base class
`ff_farm` to `getWorkers()`, `getEmitter()` and `getCollector()` (an absent stage
is `NULL`); `started` lists the managers constructed and started so far, oldest
first. -/
structure AdaptiveFarmObject where
  nodes : Nat → AdaptiveNode
  workers : List Nat
  emitter : Option Nat
  collector : Option Nat
  adaptiveWorkers : List Nat
  adaptiveEmitter : Option Nat
  adaptiveCollector : Option Nat
  firstRun : Bool
  adaptivityParameters : AdaptivityParameters
  adaptivityManager : Option AdaptivityManagerFarm
  started : List AdaptivityManagerFarm

/-- The farm as the manager sees it through its pointer `_farm`: every pointer
replaced by the stage it points to. -/
def AdaptiveFarmObject.toAdaptiveFarm (farm : AdaptiveFarmObject) : AdaptiveFarm :=
  { workers := farm.workers.map farm.nodes
    emitter := farm.emitter.map farm.nodes
    collector := farm.collector.map farm.nodes
    adaptiveWorkers := farm.adaptiveWorkers.map farm.nodes
    adaptiveEmitter := farm.adaptiveEmitter.map farm.nodes
    adaptiveCollector := farm.adaptiveCollector.map farm.nodes
    firstRun := farm.firstRun }

/-- Embeds `AdaptiveFarm::construct` (`fastflow.tpp`, lines 24-36), run by both
constructors after the constructor of `ff_farm`, on a farm whose vector
`_adaptiveWorkers` is empty.  `validate` may rewrite the record the farm points
to. -/
def AdaptiveFarmObject.construct (nodes : Nat → AdaptiveNode) (workers : List Nat)
    (emitter collector : Option Nat) (adaptivityParameters : AdaptivityParameters) :
    Completion Unit × AdaptiveFarmObject :=
  match validate adaptivityParameters with
  | (completion, validated) =>
    let farm : AdaptiveFarmObject :=
      { nodes := nodes
        workers := workers
        emitter := emitter
        collector := collector
        adaptiveWorkers := []
        adaptiveEmitter := none
        adaptiveCollector := none
        firstRun := true
        adaptivityParameters := validated
        adaptivityManager := none
        started := [] }
    match completion with
    | .threw e => (.threw e, farm)
    | .returned validationRes =>
      if validationRes ≠ .VALIDATION_OK then (.threw .invalidAdaptivityParameters, farm)
      else (.returned (), farm)

/-- One call `node->initMammutModules(_adaptivityParameters->communicator)` of
`AdaptiveFarm::run`: the stage at address `node` is updated in place.
`communicator` is the value of the field `communicator` of the parameter record;
`remote` and `localTasksManager` are the answers of the platform, as in
`AdaptiveNode.initMammutModules`. -/
def AdaptiveFarmObject.initNode (farm : AdaptiveFarmObject) (node : Nat)
    (communicator : Option Nat) (remote : Nat → Option Nat)
    (localTasksManager : Option Nat) : AdaptiveFarmObject :=
  { farm with
    nodes := fun address =>
      if address = node then
        (farm.nodes node).initMammutModules communicator remote localTasksManager
      else farm.nodes address }

/-- The loop over the workers of `AdaptiveFarm::run` (`fastflow.tpp`, lines
63-66), from worker `i` on: the worker is pushed at the end of
`_adaptiveWorkers`, then the entry at index `i` is initialised. -/
def initAdaptiveWorkers (communicator : Option Nat) (remote : Nat → Option Nat)
    (localTasksManager : Option Nat) :
    List Nat → Nat → AdaptiveFarmObject → Completion Unit × AdaptiveFarmObject
  | [], _, farm => (.returned (), farm)
  | worker :: rest, i, farm =>
    let farm := { farm with adaptiveWorkers := farm.adaptiveWorkers ++ [worker] }
    match farm.adaptiveWorkers[i]? with
    | none => (.threw .outOfRange, farm)
    | some node =>
      initAdaptiveWorkers communicator remote localTasksManager rest (i + 1)
        (farm.initNode node communicator remote localTasksManager)

/-- The block of `AdaptiveFarm::run` guarded by the first test of `_firstRun`
(`fastflow.tpp`, lines 61-78). -/
def AdaptiveFarmObject.initStages (farm : AdaptiveFarmObject) (communicator : Option Nat)
    (remote : Nat → Option Nat) (localTasksManager : Option Nat) :
    Completion Unit × AdaptiveFarmObject :=
  match initAdaptiveWorkers communicator remote localTasksManager farm.workers 0 farm with
  | (.threw e, farm) => (.threw e, farm)
  | (.returned _, farm) =>
    let farm := { farm with adaptiveEmitter := farm.emitter }
    let farm :=
      match farm.adaptiveEmitter with
      | some node => farm.initNode node communicator remote localTasksManager
      | none => farm
    let farm := { farm with adaptiveCollector := farm.collector }
    let farm :=
      match farm.adaptiveCollector with
      | some node => farm.initNode node communicator remote localTasksManager
      | none => farm
    (.returned (), farm)

/-- Embeds `AdaptiveFarm::run` (`fastflow.tpp`, lines 59-92).  `r` is the value
that the run of the underlying farm, `ff_farm::run(skip_init)`, returns: 0 on
success.  The manager of line 86 is constructed on the farm as it is at that
point and started at line 87.  The line written to `std::cout` is left out. -/
def AdaptiveFarmObject.run (farm : AdaptiveFarmObject) (communicator : Option Nat)
    (remote : Nat → Option Nat) (localTasksManager : Option Nat) (_skip_init : Bool)
    (r : Int) : Completion Int × AdaptiveFarmObject :=
  match (if farm.firstRun then farm.initStages communicator remote localTasksManager
      else (.returned (), farm)) with
  | (.threw e, farm) => (.threw e, farm)
  | (.returned _, farm) =>
    if r ≠ 0 then (.returned r, farm)
    else if farm.firstRun then
      let farm := { farm with firstRun := false }
      let manager :=
        AdaptivityManagerFarm.construct farm.toAdaptiveFarm farm.adaptivityParameters
      (.returned r,
        { farm with adaptivityManager := some manager, started := farm.started ++ [manager] })
    else (.returned r, farm)

/-- A sequence of calls of `run` on a local farm (no communicator, tasks manager
0), given by the values the underlying runs return. -/
def AdaptiveFarmObject.runs : AdaptiveFarmObject → List Int → AdaptiveFarmObject
  | farm, [] => farm
  | farm, r :: rest =>
    AdaptiveFarmObject.runs (farm.run none (fun _ => none) (some 0) false r).2 rest

/-- A farm of two workers, at the addresses 10 and 11, without emitter and
collector, constructed on the constructor defaults of the parameters. -/
def twoWorkerFarm : AdaptiveFarmObject :=
  (AdaptiveFarmObject.construct (fun _ => AdaptiveNode.construct) [10, 11] none none
    osMappingParameters).2


/-! # Theorems -/

/-! ## Theorems on `validate` -/

theorem validate_of_thresholdsRejected (p : AdaptivityParameters) (h : thresholdsRejected p) :
    validate p = (.returned .VALIDATION_THRESHOLDS_INVALID, p) := by
  unfold validate
  exact if_pos h

theorem validateFrequencyUpperBound_code (fs : List Frequency) (p : AdaptivityParameters) :
    (validateFrequencyUpperBound fs p).1 = .returned .VALIDATION_OK ∨
    (validateFrequencyUpperBound fs p).1 = .returned .VALIDATION_INVALID_FREQUENCY_BOUNDS ∨
    (validateFrequencyUpperBound fs p).1 = .threw .outOfRange := by
  unfold validateFrequencyUpperBound
  split_ifs
  · simp
  · simp
  · split <;> simp

theorem validateFrequencyBounds_code (ds : List Domain) (p : AdaptivityParameters) :
    (validateFrequencyBounds ds p).1 = .returned .VALIDATION_OK ∨
    (validateFrequencyBounds ds p).1 = .returned .VALIDATION_INVALID_FREQUENCY_BOUNDS ∨
    (validateFrequencyBounds ds p).1 = .threw .outOfRange := by
  unfold validateFrequencyBounds
  split_ifs <;> (try split) <;> (try dsimp only) <;> (try split_ifs) <;> (try split) <;>
    first
      | exact validateFrequencyUpperBound_code _ _
      | simp

theorem validateFrequencyStrategies_code (p : AdaptivityParameters) :
    (validateFrequencyStrategies p).1 = none ∨
    (validateFrequencyStrategies p).1 = some .VALIDATION_STRATEGY_FREQUENCY_UNSUPPORTED ∨
    (validateFrequencyStrategies p).1 = some .VALIDATION_EC_SENSITIVE_MISSING_GOVERNORS ∨
    ((validateFrequencyStrategies p).1 = some .VALIDATION_EC_SENSITIVE_WRONG_F_STRATEGY ∧
      p.strategyFrequencies = .STRATEGY_FREQUENCY_NO ∧
      (p.sensitiveEmitter = true ∨ p.sensitiveCollector = true)) := by
  unfold validateFrequencyStrategies
  dsimp only
  split_ifs <;> simp_all

/-- When the threshold test passes, `validate` is the chain of the later sections. -/
theorem validate_of_not_thresholdsRejected (p : AdaptivityParameters)
    (h : ¬ thresholdsRejected p) :
    validate p =
      match validateFrequencyStrategies p with
      | (some code, _, q) => (.returned code, q)
      | (none, frequencyDomains, q) =>
        if !isFrequencyGovernorAvailable q q.frequencyGovernor then
          (.returned .VALIDATION_GOVERNOR_UNSUPPORTED, q)
        else if q.strategyMapping = .STRATEGY_MAPPING_CACHE_EFFICIENT then
          (.returned .VALIDATION_STRATEGY_MAPPING_UNSUPPORTED, q)
        else validateFrequencyBounds frequencyDomains q := by
  conv_lhs => unfold validate
  exact if_neg h

theorem thresholds_condition_iff (uf of uw ow : ℚ) :
    (uf > of ∨ uw > ow ∨ uf < 0 ∨ of > 100 ∨ uw < 0 ∨ ow > 100) ↔
      ((uf < 0 ∨ 100 < uf) ∨ (of < 0 ∨ 100 < of) ∨ (uw < 0 ∨ 100 < uw) ∨
       (ow < 0 ∨ 100 < ow) ∨ uf > of ∨ uw > ow) := by
  constructor
  · rintro (h | h | h | h | h | h) <;> simp [h]
  · rintro ((h | h) | (h | h) | (h | h) | (h | h) | h | h)
    · simp [h]
    · rcases le_or_lt uf of with h1 | h1
      · right; right; right; left; linarith
      · left; exact h1
    · rcases le_or_lt uf of with h1 | h1
      · right; right; left; linarith
      · left; exact h1
    · simp [h]
    · simp [h]
    · rcases le_or_lt uw ow with h1 | h1
      · right; right; right; right; right; linarith
      · right; left; exact h1
    · rcases le_or_lt uw ow with h1 | h1
      · right; right; right; right; left; linarith
      · right; left; exact h1
    · simp [h]
    · simp [h]
    · simp [h]

/-- The code returned by `validate` is `THRESHOLDS_INVALID` only through the
threshold test. -/
theorem validate_code_thresholds_iff (p : AdaptivityParameters) :
    (validate p).1 = .returned .VALIDATION_THRESHOLDS_INVALID ↔ thresholdsRejected p := by
  constructor
  · intro h
    by_contra hn
    rw [validate_of_not_thresholdsRejected p hn] at h
    have hc := validateFrequencyStrategies_code p
    rcases hr : validateFrequencyStrategies p with ⟨c, ds, q⟩
    rw [hr] at h hc
    rcases c with _ | c
    · dsimp only at h
      have hb := validateFrequencyBounds_code ds q
      split_ifs at h
      · simp at h
      · simp at h
      · rw [h] at hb
        simp at hb
    · dsimp only at h hc
      rw [Completion.returned.injEq] at h
      subst h
      simp at hc
  · intro h
    rw [validate_of_thresholdsRejected p h]

/-- C1. `validate` returns `VALIDATION_THRESHOLDS_INVALID` if and only if one of
the four thresholds lies outside [0,100], or underload exceeds overload for the
farm band or for the worker band. -/
theorem validate_thresholds_invalid_iff (p : AdaptivityParameters) :
    (validate p).1 = .returned .VALIDATION_THRESHOLDS_INVALID ↔
      ((p.underloadThresholdFarm < 0 ∨ 100 < p.underloadThresholdFarm) ∨
       (p.overloadThresholdFarm < 0 ∨ 100 < p.overloadThresholdFarm) ∨
       (p.underloadThresholdWorker < 0 ∨ 100 < p.underloadThresholdWorker) ∨
       (p.overloadThresholdWorker < 0 ∨ 100 < p.overloadThresholdWorker) ∨
       p.underloadThresholdFarm > p.overloadThresholdFarm ∨
       p.underloadThresholdWorker > p.overloadThresholdWorker) := by
  rw [validate_code_thresholds_iff, ← thresholds_condition_iff]
  rfl

theorem isFrequencyGovernorAvailable_eq (p : AdaptivityParameters) (g : Governor) :
    isFrequencyGovernorAvailable p g = governorOnEveryDomain p.cpufreq g := rfl

theorem isFrequencyGovernorAvailable_congr (p q : AdaptivityParameters) (g : Governor)
    (h : q.cpufreq = p.cpufreq) :
    isFrequencyGovernorAvailable q g = isFrequencyGovernorAvailable p g := by
  unfold isFrequencyGovernorAvailable
  rw [h]

theorem validateFrequencyStrategies_of_passes (p : AdaptivityParameters)
    (h : passesStrategyChecks p) :
    validateFrequencyStrategies p =
      (none, domainsAfterStrategies p, parametersAfterStrategies p) := by
  obtain ⟨h1, h2⟩ := h
  unfold validateFrequencyStrategies domainsAfterStrategies parametersAfterStrategies
  dsimp only
  split_ifs <;> simp_all [isFrequencyGovernorAvailable_eq]

theorem validate_of_passes (p : AdaptivityParameters) (h : passesChecksBeforeBounds p) :
    validate p =
      validateFrequencyBounds (domainsAfterStrategies p) (parametersAfterStrategies p) := by
  rw [validate_of_not_thresholdsRejected p h.1, validateFrequencyStrategies_of_passes p h.2.1]
  obtain ⟨-, -, hg, hm⟩ := h
  have e1 : isFrequencyGovernorAvailable (parametersAfterStrategies p)
      (parametersAfterStrategies p).frequencyGovernor = true := by
    rw [isFrequencyGovernorAvailable_congr p]
    · convert hg using 2
      unfold parametersAfterStrategies governorAfterStrategies
      split_ifs <;> rfl
    · unfold parametersAfterStrategies
      split_ifs <;> rfl
  have e2 : (parametersAfterStrategies p).strategyMapping = p.strategyMapping := by
    unfold parametersAfterStrategies
    split_ifs <;> rfl
  simp [e1, e2, hm]

theorem thresholdsValid_iff (p : AdaptivityParameters) :
    thresholdsValid p ↔ ¬ thresholdsRejected p := by
  unfold thresholdsValid thresholdsRejected
  rw [thresholds_condition_iff]
  simp only [not_or, not_lt, gt_iff_lt]

/-- C8. `validate` returns `VALIDATION_EC_SENSITIVE_WRONG_F_STRATEGY` if and only
if the thresholds are valid, the frequency strategy is NO and a sensitivity flag
is set; in particular (S4) strategy NO with `sensitiveEmitter` and the default
thresholds gives this code whatever the platform, mapping strategy and bounds. -/
theorem validate_ec_sensitive_wrong_f_strategy_iff (p : AdaptivityParameters) :
    ((validate p).1 = .returned .VALIDATION_EC_SENSITIVE_WRONG_F_STRATEGY ↔
      (thresholdsValid p ∧ p.strategyFrequencies = .STRATEGY_FREQUENCY_NO ∧
        (p.sensitiveEmitter = true ∨ p.sensitiveCollector = true))) ∧
    (p.strategyFrequencies = .STRATEGY_FREQUENCY_NO → p.sensitiveEmitter = true →
      p.underloadThresholdFarm = 80 → p.overloadThresholdFarm = 90 →
      p.underloadThresholdWorker = 80 → p.overloadThresholdWorker = 90 →
      (validate p).1 = .returned .VALIDATION_EC_SENSITIVE_WRONG_F_STRATEGY) := by
  have key : (validate p).1 = .returned .VALIDATION_EC_SENSITIVE_WRONG_F_STRATEGY ↔
      (thresholdsValid p ∧ p.strategyFrequencies = .STRATEGY_FREQUENCY_NO ∧
        (p.sensitiveEmitter = true ∨ p.sensitiveCollector = true)) := by
    rw [thresholdsValid_iff]
    constructor
    · intro h
      by_cases hr : thresholdsRejected p
      · rw [validate_of_thresholdsRejected p hr] at h
        simp at h
      · refine ⟨hr, ?_⟩
        rw [validate_of_not_thresholdsRejected p hr] at h
        have hc := validateFrequencyStrategies_code p
        rcases hs : validateFrequencyStrategies p with ⟨c, ds, q⟩
        rw [hs] at h hc
        rcases c with _ | c
        · dsimp only at h
          have hb := validateFrequencyBounds_code ds q
          split_ifs at h
          · simp at h
          · simp at h
          · rw [h] at hb
            simp at hb
        · dsimp only at h hc
          rw [Completion.returned.injEq] at h
          subst h
          simpa using hc
    · rintro ⟨hr, hno, hs⟩
      rw [validate_of_not_thresholdsRejected p hr]
      have : validateFrequencyStrategies p =
          (some .VALIDATION_EC_SENSITIVE_WRONG_F_STRATEGY, [], p) := by
        unfold validateFrequencyStrategies
        rw [if_neg (by simp [hno]), if_pos (by simpa using hs)]
      rw [this]
  refine ⟨key, ?_⟩
  intro hno hse h1 h2 h3 h4
  refine key.2 ⟨?_, hno, Or.inl hse⟩
  unfold thresholdsValid
  rw [h1, h2, h3, h4]
  norm_num

/-- Witness for C8: scenario S4. -/
theorem validate_ec_sensitive_wrong_f_strategy_witness :
    (validate s4Parameters).1 = .returned .VALIDATION_EC_SENSITIVE_WRONG_F_STRATEGY :=
  (validate_ec_sensitive_wrong_f_strategy_iff s4Parameters).2 rfl rfl rfl rfl rfl rfl

theorem parametersAfterStrategies_bounds (p : AdaptivityParameters) :
    (parametersAfterStrategies p).frequencyLowerBound = p.frequencyLowerBound ∧
    (parametersAfterStrategies p).frequencyUpperBound = p.frequencyUpperBound ∧
    (parametersAfterStrategies p).strategyFrequencies = p.strategyFrequencies := by
  unfold parametersAfterStrategies
  split_ifs <;> simp

/-- Under strategy OS, once the earlier checks have passed, the bounds section
runs on the available frequencies of the first domain. -/
theorem validate_of_passes_os (p : AdaptivityParameters) (h : passesChecksBeforeBounds p)
    (hos : p.strategyFrequencies = .STRATEGY_FREQUENCY_OS)
    (hb : p.frequencyLowerBound ≠ 0 ∨ p.frequencyUpperBound ≠ 0) :
    validate p =
      if firstDomainFrequencies p = [] then
        (.returned .VALIDATION_INVALID_FREQUENCY_BOUNDS, p)
      else if p.frequencyLowerBound ≠ 0 then
        if !contains (firstDomainFrequencies p) p.frequencyLowerBound then
          (.returned .VALIDATION_INVALID_FREQUENCY_BOUNDS, p)
        else validateFrequencyUpperBound (firstDomainFrequencies p) p
      else
        match (firstDomainFrequencies p)[0]? with
        | none => (.threw .outOfRange, p)
        | some f =>
          validateFrequencyUpperBound (firstDomainFrequencies p)
            { p with frequencyLowerBound := f } := by
  rw [validate_of_passes p h]
  have hd : p.cpufreq.getDomains ≠ [] := (h.2.1.1 (by simp [hos])).1
  have e1 : parametersAfterStrategies p = p := by
    unfold parametersAfterStrategies
    simp [hos]
  have e2 : domainsAfterStrategies p = p.cpufreq.getDomains := by
    unfold domainsAfterStrategies
    simp [hos]
  rw [e1, e2]
  unfold validateFrequencyBounds
  rw [if_pos hb, if_pos hos]
  unfold firstDomainFrequencies
  rcases hdd : p.cpufreq.getDomains with _ | ⟨d0, ds⟩
  · exact absurd hdd hd
  · simp only [List.getElem?_cons_zero, List.length_eq_zero]

theorem validateFrequencyUpperBound_eq (fs : List Frequency) (q : AdaptivityParameters)
    (hne : fs ≠ []) :
    validateFrequencyUpperBound fs q =
      if q.frequencyUpperBound ≠ 0 ∧ q.frequencyUpperBound ∉ fs then
        (.returned .VALIDATION_INVALID_FREQUENCY_BOUNDS, q)
      else
        (.returned .VALIDATION_OK,
          { q with frequencyUpperBound :=
              if q.frequencyUpperBound ≠ 0 then q.frequencyUpperBound
              else fs.getLast?.getD 0 }) := by
  unfold validateFrequencyUpperBound
  by_cases hu : q.frequencyUpperBound = 0
  · obtain ⟨f, hf⟩ : ∃ f, fs.getLast? = some f := by
      rcases h : fs.getLast? with _ | f
      · exact absurd (List.getLast?_eq_none_iff.1 h) hne
      · exact ⟨f, rfl⟩
    rw [← List.getLast?_eq_getElem?, hf]
    simp [hu]
  · by_cases hm : q.frequencyUpperBound ∈ fs
    · simp [hu, hm, contains]
    · simp [hu, hm, contains]

/-- Under strategy OS with a bound given, once the earlier checks have passed:
the code returned by `validate`, and the bounds it leaves in the record. -/
theorem validate_os_bounds (p : AdaptivityParameters) (h : passesChecksBeforeBounds p)
    (hos : p.strategyFrequencies = .STRATEGY_FREQUENCY_OS)
    (hb : p.frequencyLowerBound ≠ 0 ∨ p.frequencyUpperBound ≠ 0) :
    ((validate p).1 =
      if firstDomainFrequencies p = [] ∨
          (p.frequencyLowerBound ≠ 0 ∧ p.frequencyLowerBound ∉ firstDomainFrequencies p) ∨
          (p.frequencyUpperBound ≠ 0 ∧ p.frequencyUpperBound ∉ firstDomainFrequencies p) then
        .returned .VALIDATION_INVALID_FREQUENCY_BOUNDS
      else .returned .VALIDATION_OK) ∧
    ((validate p).1 = .returned .VALIDATION_OK →
      (validate p).2.frequencyLowerBound =
        (if p.frequencyLowerBound ≠ 0 then p.frequencyLowerBound
         else (firstDomainFrequencies p).head?.getD 0) ∧
      (validate p).2.frequencyUpperBound =
        (if p.frequencyUpperBound ≠ 0 then p.frequencyUpperBound
         else (firstDomainFrequencies p).getLast?.getD 0)) := by
  rw [validate_of_passes_os p h hos hb]
  by_cases hfs : firstDomainFrequencies p = []
  · simp [hfs]
  rw [if_neg hfs]
  by_cases hl : p.frequencyLowerBound = 0
  · obtain ⟨f, hf⟩ : ∃ f, (firstDomainFrequencies p).head? = some f := by
      rcases h : (firstDomainFrequencies p).head? with _ | f
      · exact absurd (List.head?_eq_none_iff.1 h) hfs
      · exact ⟨f, rfl⟩
    rw [if_neg (by simp [hl]), ← List.head?_eq_getElem?, hf]
    dsimp only
    rw [validateFrequencyUpperBound_eq _ _ hfs]
    dsimp only
    split_ifs <;> simp_all
  · rw [if_pos hl]
    by_cases hm : p.frequencyLowerBound ∈ firstDomainFrequencies p
    · rw [if_neg (by simp [contains, hm]), validateFrequencyUpperBound_eq _ _ hfs]
      split_ifs <;> simp_all
    · rw [if_pos (by simp [contains, hm])]
      simp [hfs, hl, hm]

/-- C9. For a parameter set that passes every check preceding the bounds check
and has a non-zero frequency bound, `validate` returns
`VALIDATION_INVALID_FREQUENCY_BOUNDS` exactly when the strategy is not OS, or the
first domain has no available frequency, or a non-zero bound is not an available
frequency; otherwise it returns `VALIDATION_OK`.  In particular (S5) available
frequencies 1.0, 1.5, 2.0 GHz with upper bound 1.7 GHz are rejected. -/
theorem validate_invalid_frequency_bounds_iff (p : AdaptivityParameters)
    (hpass : passesChecksBeforeBounds p)
    (hb : p.frequencyLowerBound ≠ 0 ∨ p.frequencyUpperBound ≠ 0) :
    ((validate p).1 = .returned .VALIDATION_INVALID_FREQUENCY_BOUNDS ↔
      (p.strategyFrequencies ≠ .STRATEGY_FREQUENCY_OS ∨
       firstDomainFrequencies p = [] ∨
       (p.frequencyLowerBound ≠ 0 ∧ p.frequencyLowerBound ∉ firstDomainFrequencies p) ∨
       (p.frequencyUpperBound ≠ 0 ∧ p.frequencyUpperBound ∉ firstDomainFrequencies p))) ∧
    (¬ (p.strategyFrequencies ≠ .STRATEGY_FREQUENCY_OS ∨
       firstDomainFrequencies p = [] ∨
       (p.frequencyLowerBound ≠ 0 ∧ p.frequencyLowerBound ∉ firstDomainFrequencies p) ∨
       (p.frequencyUpperBound ≠ 0 ∧ p.frequencyUpperBound ∉ firstDomainFrequencies p)) →
      (validate p).1 = .returned .VALIDATION_OK) ∧
    (firstDomainFrequencies p = [1000000, 1500000, 2000000] →
      p.frequencyUpperBound = 1700000 →
      (validate p).1 = .returned .VALIDATION_INVALID_FREQUENCY_BOUNDS) := by
  have key : (validate p).1 =
      if (p.strategyFrequencies ≠ .STRATEGY_FREQUENCY_OS ∨
          firstDomainFrequencies p = [] ∨
          (p.frequencyLowerBound ≠ 0 ∧ p.frequencyLowerBound ∉ firstDomainFrequencies p) ∨
          (p.frequencyUpperBound ≠ 0 ∧ p.frequencyUpperBound ∉ firstDomainFrequencies p)) then
        .returned .VALIDATION_INVALID_FREQUENCY_BOUNDS
      else .returned .VALIDATION_OK := by
    by_cases hos : p.strategyFrequencies = .STRATEGY_FREQUENCY_OS
    · rw [(validate_os_bounds p hpass hos hb).1]
      simp [hos]
    · rw [if_pos (Or.inl hos), validate_of_passes p hpass]
      obtain ⟨e1, e2, e3⟩ := parametersAfterStrategies_bounds p
      unfold validateFrequencyBounds
      rw [e1, e2, e3, if_pos hb, if_neg hos]
  refine ⟨?_, ?_, ?_⟩
  · rw [key]
    split_ifs with hc
    · simp [hc]
    · simp [hc]
  · intro hc
    rw [key, if_neg hc]
  · intro hfs hu
    rw [key, if_pos]
    right; right; right
    rw [hfs, hu]
    decide

/-- Witness for C9: scenario S5. -/
theorem validate_invalid_frequency_bounds_witness :
    (validate s5Parameters).1 = .returned .VALIDATION_INVALID_FREQUENCY_BOUNDS :=
  (validate_invalid_frequency_bounds_iff s5Parameters
    (by unfold passesChecksBeforeBounds passesStrategyChecks thresholdsRejected
          governorAfterStrategies
        decide)
    (by decide)).2.2 rfl rfl

theorem validateFrequencyStrategies_none (p : AdaptivityParameters)
    (h : (validateFrequencyStrategies p).1 = none) : passesStrategyChecks p := by
  unfold validateFrequencyStrategies at h
  unfold passesStrategyChecks
  dsimp only at h
  split_ifs at h <;> simp_all [isFrequencyGovernorAvailable_eq]

theorem parametersAfterStrategies_governor (p : AdaptivityParameters) :
    (parametersAfterStrategies p).frequencyGovernor = governorAfterStrategies p ∧
    (parametersAfterStrategies p).strategyMapping = p.strategyMapping ∧
    (parametersAfterStrategies p).cpufreq = p.cpufreq := by
  unfold parametersAfterStrategies governorAfterStrategies
  split_ifs <;> simp

/-- A call of `validate` that returns none of the codes of the checks preceding
the bounds check has passed every one of them. -/
theorem passesChecksBeforeBounds_of_code (p : AdaptivityParameters)
    (h1 : (validate p).1 ≠ .returned .VALIDATION_THRESHOLDS_INVALID)
    (h2 : (validate p).1 ≠ .returned .VALIDATION_STRATEGY_FREQUENCY_UNSUPPORTED)
    (h3 : (validate p).1 ≠ .returned .VALIDATION_EC_SENSITIVE_MISSING_GOVERNORS)
    (h4 : (validate p).1 ≠ .returned .VALIDATION_EC_SENSITIVE_WRONG_F_STRATEGY)
    (h5 : (validate p).1 ≠ .returned .VALIDATION_GOVERNOR_UNSUPPORTED)
    (h6 : (validate p).1 ≠ .returned .VALIDATION_STRATEGY_MAPPING_UNSUPPORTED) :
    passesChecksBeforeBounds p := by
  by_cases hr : thresholdsRejected p
  · rw [validate_of_thresholdsRejected p hr] at h1
    exact absurd rfl h1
  rw [validate_of_not_thresholdsRejected p hr] at h2 h3 h4 h5 h6
  have hcode := validateFrequencyStrategies_code p
  rcases hs : validateFrequencyStrategies p with ⟨c, ds, q⟩
  rw [hs] at h2 h3 h4 h5 h6 hcode
  rcases c with _ | c
  · have h12 := validateFrequencyStrategies_none p (by rw [hs])
    have hq := validateFrequencyStrategies_of_passes p h12
    rw [hs] at hq
    obtain rfl : q = parametersAfterStrategies p := congrArg (fun t => t.2.2) hq
    obtain ⟨e1, e2, e3⟩ := parametersAfterStrategies_governor p
    dsimp only at h5 h6
    rw [e1, e2, isFrequencyGovernorAvailable_congr p _ _ e3] at h5 h6
    have hg : isFrequencyGovernorAvailable p (governorAfterStrategies p) = true := by
      by_contra hg
      rw [if_pos (by simpa using hg)] at h5
      exact absurd rfl h5
    refine ⟨hr, h12, hg, ?_⟩
    intro hm
    rw [if_neg (by simp [hg]), if_pos hm] at h6
    exact absurd rfl h6
  · dsimp only at h2 h3 h4 hcode
    rcases hcode with hc | hc | hc | ⟨hc, -⟩
    · simp at hc
    · rw [Option.some.injEq] at hc
      subst hc
      exact absurd rfl h2
    · rw [Option.some.injEq] at hc
      subst hc
      exact absurd rfl h3
    · rw [Option.some.injEq] at hc
      subst hc
      exact absurd rfl h4

/-- The checks preceding the bounds check pass exactly when `validate` returns
none of their codes. -/
theorem passesChecksBeforeBounds_iff (p : AdaptivityParameters) :
    passesChecksBeforeBounds p ↔
      ((validate p).1 ≠ .returned .VALIDATION_THRESHOLDS_INVALID ∧
       (validate p).1 ≠ .returned .VALIDATION_STRATEGY_FREQUENCY_UNSUPPORTED ∧
       (validate p).1 ≠ .returned .VALIDATION_EC_SENSITIVE_MISSING_GOVERNORS ∧
       (validate p).1 ≠ .returned .VALIDATION_EC_SENSITIVE_WRONG_F_STRATEGY ∧
       (validate p).1 ≠ .returned .VALIDATION_GOVERNOR_UNSUPPORTED ∧
       (validate p).1 ≠ .returned .VALIDATION_STRATEGY_MAPPING_UNSUPPORTED) := by
  constructor
  · intro h
    rw [validate_of_passes p h]
    rcases validateFrequencyBounds_code (domainsAfterStrategies p)
      (parametersAfterStrategies p) with hb | hb | hb <;> rw [hb] <;> simp
  · rintro ⟨h1, h2, h3, h4, h5, h6⟩
    exact passesChecksBeforeBounds_of_code p h1 h2 h3 h4 h5 h6

/-- A call of `validate` that returns `VALIDATION_OK` has passed every check
preceding the bounds check. -/
theorem passesChecksBeforeBounds_of_ok (p : AdaptivityParameters)
    (hok : (validate p).1 = .returned .VALIDATION_OK) : passesChecksBeforeBounds p := by
  apply passesChecksBeforeBounds_of_code <;> rw [hok] <;> simp

theorem sorted_head_le (fs : List Frequency) (a : Frequency) (hs : fs.Sorted (· ≤ ·))
    (ha : fs.head? = some a) : ∀ f ∈ fs, a ≤ f := by
  rcases fs with _ | ⟨b, l⟩
  · simp at ha
  · simp only [List.head?_cons, Option.some.injEq] at ha
    subst ha
    intro f hf
    rcases List.mem_cons.1 hf with rfl | hf
    · exact le_rfl
    · exact List.rel_of_pairwise_cons hs hf

theorem sorted_le_getLast (fs : List Frequency) (a : Frequency) (hs : fs.Sorted (· ≤ ·))
    (ha : fs.getLast? = some a) : ∀ f ∈ fs, f ≤ a := by
  obtain ⟨ys, rfl⟩ := List.getLast?_eq_some_iff.1 ha
  intro f hf
  rcases List.mem_append.1 hf with hf | hf
  · exact (List.pairwise_append.1 hs).2.2 f hf a (by simp)
  · simp only [List.mem_singleton] at hf
    exact hf.le

/-- C10, as stated, fails.  With both bounds absent `validate` returns OK under
strategy OS and leaves the lower bound 0, although the minimum available
frequency is 1.0 GHz; and on the unsorted list [2.0, 1.0] GHz an absent lower
bound becomes 2.0 GHz, the first entry, not the minimum. -/
theorem validate_absent_bounds_counterexample :
    ((validate absentBoundsParameters).1 = .returned .VALIDATION_OK ∧
      absentBoundsParameters.strategyFrequencies = .STRATEGY_FREQUENCY_OS ∧
      absentBoundsParameters.frequencyLowerBound = 0 ∧
      absentBoundsParameters.frequencyUpperBound = 0 ∧
      (firstDomainFrequencies absentBoundsParameters).min? = some 1000000 ∧
      (firstDomainFrequencies absentBoundsParameters).max? = some 2000000 ∧
      (validate absentBoundsParameters).2.frequencyLowerBound = 0 ∧
      (validate absentBoundsParameters).2.frequencyUpperBound = 0) ∧
    ((validate unsortedFrequenciesParameters).1 = .returned .VALIDATION_OK ∧
      unsortedFrequenciesParameters.strategyFrequencies = .STRATEGY_FREQUENCY_OS ∧
      unsortedFrequenciesParameters.frequencyLowerBound = 0 ∧
      (firstDomainFrequencies unsortedFrequenciesParameters).min? = some 1000000 ∧
      (validate unsortedFrequenciesParameters).2.frequencyLowerBound = 2000000) := by
  decide

/-- C10, amended.  When `validate` returns OK under strategy OS and at least one
bound was given, a lower bound given as 0 has been replaced by the first entry of
the first domain's available-frequency list and an upper bound given as 0 by its
last entry; these are the minimum and the maximum of the list when it is sorted
in ascending order. -/
theorem validate_defaults_absent_bounds (p : AdaptivityParameters)
    (hok : (validate p).1 = .returned .VALIDATION_OK)
    (hos : p.strategyFrequencies = .STRATEGY_FREQUENCY_OS)
    (hb : p.frequencyLowerBound ≠ 0 ∨ p.frequencyUpperBound ≠ 0) :
    (p.frequencyLowerBound = 0 →
      (firstDomainFrequencies p).head? = some (validate p).2.frequencyLowerBound ∧
      ((firstDomainFrequencies p).Sorted (· ≤ ·) →
        (validate p).2.frequencyLowerBound ∈ firstDomainFrequencies p ∧
        ∀ f ∈ firstDomainFrequencies p, (validate p).2.frequencyLowerBound ≤ f)) ∧
    (p.frequencyUpperBound = 0 →
      (firstDomainFrequencies p).getLast? = some (validate p).2.frequencyUpperBound ∧
      ((firstDomainFrequencies p).Sorted (· ≤ ·) →
        (validate p).2.frequencyUpperBound ∈ firstDomainFrequencies p ∧
        ∀ f ∈ firstDomainFrequencies p, f ≤ (validate p).2.frequencyUpperBound)) := by
  have hpass := passesChecksBeforeBounds_of_ok p hok
  obtain ⟨hcode, hbounds⟩ := validate_os_bounds p hpass hos hb
  obtain ⟨hl, hu⟩ := hbounds hok
  have hne : firstDomainFrequencies p ≠ [] := by
    intro hfs
    rw [hcode, if_pos (Or.inl hfs)] at hok
    simp at hok
  constructor
  · intro h0
    rw [if_neg (by simp [h0])] at hl
    have hh : (firstDomainFrequencies p).head? = some (validate p).2.frequencyLowerBound := by
      rcases h : (firstDomainFrequencies p).head? with _ | f
      · exact absurd (List.head?_eq_none_iff.1 h) hne
      · rw [hl, h]; rfl
    exact ⟨hh, fun hs => ⟨List.mem_of_mem_head? hh, sorted_head_le _ _ hs hh⟩⟩
  · intro h0
    rw [if_neg (by simp [h0])] at hu
    have hh : (firstDomainFrequencies p).getLast? =
        some (validate p).2.frequencyUpperBound := by
      rcases h : (firstDomainFrequencies p).getLast? with _ | f
      · exact absurd (List.getLast?_eq_none_iff.1 h) hne
      · rw [hu, h]; rfl
    exact ⟨hh, fun hs => ⟨List.mem_of_mem_getLast? hh, sorted_le_getLast _ _ hs hh⟩⟩

/-- Witness for C10 (amended): only the upper bound given, sorted frequencies. -/
theorem validate_defaults_absent_bounds_witness :
    (firstDomainFrequencies upperBoundOnlyParameters).head? =
      some (validate upperBoundOnlyParameters).2.frequencyLowerBound ∧
    (∀ f ∈ firstDomainFrequencies upperBoundOnlyParameters,
      (validate upperBoundOnlyParameters).2.frequencyLowerBound ≤ f) :=
  have h := (validate_defaults_absent_bounds upperBoundOnlyParameters (by decide) rfl
    (by decide)).1 rfl
  ⟨h.1, (h.2 (by decide)).2⟩

/-! ## Theorems on the contract check and the reconfiguration search -/

/-- C2. `isContractViolated` is false exactly on the contract band: in load mode
on [underloadThresholdFarm, overloadThresholdFarm]; in bandwidth mode it is true
exactly when |x - required| > required * maxVariation / 100, hence false exactly
on [req - req*v/100, req + req*v/100]; with req = 1000 and v = 10 (S3), 1100 is
not a violation and 1110 is. -/
theorem isContractViolated_iff (m : AdaptivityManagerFarm) (x : ℚ) :
    (m.p.requiredBandwidth = 0 →
      (isContractViolated m x = false ↔
        m.p.underloadThresholdFarm ≤ x ∧ x ≤ m.p.overloadThresholdFarm)) ∧
    (m.p.requiredBandwidth ≠ 0 →
      (isContractViolated m x = true ↔
        |x - m.p.requiredBandwidth| >
          m.p.requiredBandwidth * m.p.maxBandwidthVariation / 100) ∧
      (isContractViolated m x = false ↔
        m.p.requiredBandwidth - m.p.requiredBandwidth * m.p.maxBandwidthVariation / 100 ≤ x ∧
        x ≤ m.p.requiredBandwidth + m.p.requiredBandwidth * m.p.maxBandwidthVariation / 100)) ∧
    (m.p.requiredBandwidth = 1000 → m.p.maxBandwidthVariation = 10 →
      isContractViolated m 1100 = false ∧ isContractViolated m 1110 = true) := by
  refine ⟨?_, ?_, ?_⟩
  · intro h0
    unfold isContractViolated
    rw [if_neg (by simp [h0])]
    simp only [decide_eq_false_iff_not, not_or, not_lt, gt_iff_lt]
  · intro hne
    unfold isContractViolated
    rw [if_pos hne]
    simp only [decide_eq_true_eq, decide_eq_false_iff_not, not_or, not_lt, gt_iff_lt]
    constructor
    · rw [lt_abs]
      constructor
      · rintro (h | h)
        · right; linarith
        · left; linarith
      · rintro (h | h)
        · right; linarith
        · left; linarith
    · trivial
  · intro hr hv
    unfold isContractViolated
    rw [if_pos (by rw [hr]; norm_num), hr, hv]
    norm_num

/-- Witness for C2: scenario S3. -/
theorem isContractViolated_witness :
    isContractViolated s3Manager 1100 = false ∧ isContractViolated s3Manager 1110 = true :=
  (isContractViolated_iff s3Manager 0).2.2 (by decide) (by decide)

/-- C3, evaluated on the code.  In scenario S3 (validated parameters, two workers
at 2.0 GHz) with a monitored bandwidth of 500 the search examines the pair
(2.0 GHz, 1 worker), whose estimate 1000 satisfies the contract, and
`getNewConfiguration` ends in the exception of `getEstimatedPower` instead of
returning a pair. -/
theorem getNewConfiguration_throws_notImplemented :
    (validate s3Parameters).1 = .returned .VALIDATION_OK ∧
    s3Manager.maxNumWorkers = 2 ∧
    (2000000 : Frequency) ∈ s3Manager.availableFrequencies ∧
    getEstimatedMonitoredValue s3Manager 500 2000000 1 = .returned 1000 ∧
    isContractViolated s3Manager 1000 = false ∧
    getNewConfiguration s3Manager 500 0 0 = .threw .notImplemented := by
  have h1 : s3Manager.currentFrequency = 2000000 := by decide
  have h2 : s3Manager.currentNumWorkers = 2 := by decide
  have h3 : s3Manager.availableFrequencies = [1000000, 1500000, 2000000] := by decide
  have h4 : s3Manager.p.requiredBandwidth = 1000 := by decide
  have h5 : s3Manager.p.maxBandwidthVariation = 10 := by decide
  have h6 : s3Manager.maxNumWorkers = 2 := by decide
  refine ⟨by decide, h6, by rw [h3]; decide, ?_, ?_, ?_⟩
  · norm_num [getEstimatedMonitoredValue, h1, h2, h4]
  · norm_num [isContractViolated, h4, h5]
  · norm_num [getNewConfiguration, searchWorkers, searchFrequencies,
      getEstimatedMonitoredValue, isContractViolated, getEstimatedPower, h1, h2, h3, h4, h5, h6]

/-! ## Theorems on `setUnusedVirtualCores` -/

/-- Indexing a concatenation of blocks of equal length. -/
theorem getElem?_flatMap_uniform {α β : Type} (f : α → List β) (n : Nat) :
    ∀ (l : List α), (∀ x ∈ l, (f x).length = n) → ∀ a b, b < n →
      (l.flatMap f)[a * n + b]? = (l[a]?).bind (fun x => (f x)[b]?)
  | [], _, a, b, _ => by simp
  | x :: l, h, 0, b, hb => by
    have hx : (f x).length = n := h x (by simp)
    simp only [List.flatMap_cons, zero_mul, zero_add, List.getElem?_cons_zero, Option.some_bind]
    rw [List.getElem?_append_left (by rw [hx]; exact hb)]
  | x :: l, h, a + 1, b, hb => by
    have hx : (f x).length = n := h x (by simp)
    have ih := getElem?_flatMap_uniform f n l (fun y hy => h y (by simp [hy])) a b hb
    simp only [List.flatMap_cons, List.getElem?_cons_succ]
    rw [List.getElem?_append_right (by rw [hx]; nlinarith), hx]
    have e : (a + 1) * n + b - n = a * n + b := by
      rw [Nat.add_mul, one_mul]; omega
    rw [e, ih]

theorem length_flatMap_uniform {α β : Type} (f : α → List β) (n : Nat) :
    ∀ (l : List α), (∀ x ∈ l, (f x).length = n) → (l.flatMap f).length = l.length * n
  | [], _ => by simp
  | x :: l, h => by
    have hx : (f x).length = n := h x (by simp)
    have ih := length_flatMap_uniform f n l (fun y hy => h y (by simp [hy]))
    simp only [List.flatMap_cons, List.length_append, List.length_cons, hx, ih]
    rw [Nat.add_mul, one_mul, Nat.add_comm]

theorem getElem?_filterMap_total {α β : Type} (f : α → Option β) :
    ∀ (l : List α), (∀ x ∈ l, (f x).isSome) → ∀ j : Nat,
      (l.filterMap f)[j]? = (l[j]?).bind f
  | [], _, j => by simp
  | x :: l, h, j => by
    obtain ⟨y, hy⟩ := Option.isSome_iff_exists.1 (h x (by simp))
    have ih := getElem?_filterMap_total f l (fun z hz => h z (by simp [hz]))
    rw [List.filterMap_cons_some hy]
    cases j with
    | zero => simp [hy]
    | succ j => simp [ih]

theorem length_filterMap_total {α β : Type} (f : α → Option β) :
    ∀ (l : List α), (∀ x ∈ l, (f x).isSome) → (l.filterMap f).length = l.length
  | [], _ => by simp
  | x :: l, h => by
    obtain ⟨y, hy⟩ := Option.isSome_iff_exists.1 (h x (by simp))
    have ih := length_filterMap_total f l (fun z hz => h z (by simp [hz]))
    rw [List.filterMap_cons_some hy]
    simp [ih]

theorem pushPhysicalCores_eq (k : Nat) :
    ∀ (pcs : List PhysicalCore) (acc : List VirtualCore),
      (∀ pc ∈ pcs, k < pc.virtualCores.length) →
      pushPhysicalCores k pcs acc =
        (.returned (), acc ++ pcs.filterMap (fun pc => pc.virtualCores[k]?))
  | [], acc, _ => by simp [pushPhysicalCores]
  | pc :: pcs, acc, h => by
    have hk : k < pc.virtualCores.length := h pc (by simp)
    have ih := pushPhysicalCores_eq k pcs (acc ++ [pc.virtualCores[k]])
      (fun q hq => h q (by simp [hq]))
    unfold pushPhysicalCores
    simp only [PhysicalCore.getVirtualCores, List.getElem?_eq_getElem hk, ih]
    simp [List.filterMap_cons, List.getElem?_eq_getElem hk]

theorem pushCpus_eq (k : Nat) :
    ∀ (cpus : List Cpu) (acc : List VirtualCore),
      (∀ cpu ∈ cpus, ∀ pc ∈ cpu.physicalCores, k < pc.virtualCores.length) →
      pushCpus k cpus acc =
        (.returned (), acc ++ cpus.flatMap (fun cpu =>
          cpu.physicalCores.filterMap (fun pc => pc.virtualCores[k]?)))
  | [], acc, _ => by simp [pushCpus]
  | cpu :: cpus, acc, h => by
    unfold pushCpus
    rw [Cpu.getPhysicalCores, pushPhysicalCores_eq k _ _ (h cpu (by simp))]
    simp only [andThen]
    rw [pushCpus_eq k cpus _ (fun c hc => h c (by simp [hc]))]
    simp

theorem pushRounds_eq (cpus : List Cpu) (S : Nat)
    (h : ∀ cpu ∈ cpus, ∀ pc ∈ cpu.physicalCores, pc.virtualCores.length = S) :
    ∀ (n k0 : Nat) (acc : List VirtualCore), k0 + n ≤ S →
      pushRounds cpus n k0 acc =
        (.returned (), acc ++ (List.range n).flatMap (fun i => cpus.flatMap (fun cpu =>
          cpu.physicalCores.filterMap (fun pc => pc.virtualCores[k0 + i]?))))
  | 0, k0, acc, _ => by simp [pushRounds]
  | n + 1, k0, acc, hn => by
    unfold pushRounds
    rw [pushCpus_eq k0 cpus acc (fun cpu hc pc hp => by rw [h cpu hc pc hp]; omega)]
    simp only [andThen]
    rw [pushRounds_eq cpus S h n (k0 + 1) _ (by omega)]
    rw [List.range_succ_eq_map]
    have e : ∀ a : Nat, k0 + 1 + a = k0 + (a + 1) := fun a => by omega
    simp only [List.flatMap_cons, List.flatMap_map, Function.comp, add_zero, List.append_assoc, e,
      Nat.succ_eq_add_one]

theorem uniform_counts (t : Topology) (C P S : Nat) (hu : t.Uniform C P S) :
    t.getPhysicalCores.length = C * P ∧ t.getVirtualCores.length = C * P * S := by
  obtain ⟨hC, hcpu⟩ := hu
  have h1 : t.getPhysicalCores.length = C * P := by
    unfold Topology.getPhysicalCores
    rw [length_flatMap_uniform _ P _ (fun cpu hc => (hcpu cpu hc).1), hC]
  refine ⟨h1, ?_⟩
  unfold Topology.getVirtualCores
  rw [length_flatMap_uniform _ S, h1]
  intro pc hpc
  unfold Topology.getPhysicalCores at hpc
  obtain ⟨cpu, hc, hp⟩ := List.mem_flatMap.1 hpc
  exact (hcpu cpu hc).2 pc hp

/-- On a uniform topology the LINEAR and AUTO strategies return normally and
append `linearCandidates` to the unused list. -/
theorem setUnusedVirtualCores_uniform (m : AdaptivityManagerFarm) (C P S : Nat)
    (hmap : m.p.strategyMapping = .STRATEGY_MAPPING_LINEAR ∨
      m.p.strategyMapping = .STRATEGY_MAPPING_AUTO)
    (hu : m.p.topology.Uniform C P S) (hC : 0 < C) (hP : 0 < P) :
    setUnusedVirtualCores m =
      (.returned (), { m with unusedVirtualCores :=
        m.unusedVirtualCores ++ linearCandidates m.p.topology S }) := by
  obtain ⟨hpc, hvc⟩ := uniform_counts _ C P S hu
  have hCP : 0 < C * P := Nat.mul_pos hC hP
  have hdiv : m.p.topology.getVirtualCores.length / (C * P) = S := by
    rw [hvc, Nat.mul_div_cancel_left _ hCP]
  have hrounds := pushRounds_eq m.p.topology.cpus S
    (fun cpu hc pc hp => (hu.2 cpu hc).2 pc hp) S 0 m.unusedVirtualCores (by omega)
  simp only [zero_add] at hrounds
  unfold setUnusedVirtualCores
  rcases hmap with h | h <;>
    simp only [h, hpc, hdiv, Topology.getCpus, hrounds, linearCandidates,
      Nat.ne_of_gt hCP, if_false]

theorem sibling_isSome (t : Topology) (C P S : Nat) (hu : t.Uniform C P S) (c j k : Nat)
    (hc : c < C) (hj : j < P) (hk : k < S) : ∃ v, t.sibling c j k = some v := by
  obtain ⟨hC, hcpu⟩ := hu
  have hc' : c < t.cpus.length := by omega
  have hcpu' := hcpu _ (List.getElem_mem hc')
  have hj' : j < (t.cpus[c]).physicalCores.length := by rw [hcpu'.1]; exact hj
  have hk' : k < ((t.cpus[c]).physicalCores[j]).virtualCores.length := by
    rw [hcpu'.2 _ (List.getElem_mem hj')]; exact hk
  refine ⟨((t.cpus[c]).physicalCores[j]).virtualCores[k], ?_⟩
  unfold Topology.sibling
  rw [List.getElem?_eq_getElem hc']
  simp only [Option.some_bind]
  rw [List.getElem?_eq_getElem hj']
  simp only [Option.some_bind]
  rw [List.getElem?_eq_getElem hk']

theorem sibling_isSome_of_uniform (t : Topology) (C P S : Nat) (hu : t.Uniform C P S)
    (cpu : Cpu) (hcpu : cpu ∈ t.cpus) (k : Nat) (hk : k < S) :
    ∀ pc ∈ cpu.physicalCores, (pc.virtualCores[k]?).isSome := by
  intro pc hp
  have hb : k < pc.virtualCores.length := by rw [(hu.2 cpu hcpu).2 pc hp]; exact hk
  rw [Option.isSome_iff_exists]
  exact ⟨pc.virtualCores[k], List.getElem?_eq_getElem hb⟩

theorem round_length (t : Topology) (C P S : Nat) (hu : t.Uniform C P S) (k : Nat)
    (hk : k < S) :
    (t.cpus.flatMap (fun cpu =>
      cpu.physicalCores.filterMap (fun pc => pc.virtualCores[k]?))).length = C * P := by
  rw [length_flatMap_uniform _ P, hu.1]
  intro cpu hc
  rw [length_filterMap_total _ _ (sibling_isSome_of_uniform t C P S hu cpu hc k hk),
    (hu.2 cpu hc).1]

theorem linearCandidates_length (t : Topology) (C P S : Nat) (hu : t.Uniform C P S) :
    (linearCandidates t S).length = C * P * S := by
  unfold linearCandidates
  rw [length_flatMap_uniform _ (C * P), List.length_range, Nat.mul_comm]
  intro k hk
  exact round_length t C P S hu k (List.mem_range.1 hk)

theorem linearCandidates_getElem? (t : Topology) (C P S : Nat) (hu : t.Uniform C P S)
    (c j k : Nat) (hc : c < C) (hj : j < P) (hk : k < S) :
    (linearCandidates t S)[k * (C * P) + c * P + j]? = t.sibling c j k := by
  unfold linearCandidates
  have hcj : c * P + j < C * P := by
    calc c * P + j < c * P + P := by omega
      _ = (c + 1) * P := by ring
      _ ≤ C * P := Nat.mul_le_mul_right P hc
  have hc' : c < t.cpus.length := by rw [hu.1]; exact hc
  rw [Nat.add_assoc, getElem?_flatMap_uniform _ (C * P) _
      (fun i hi => round_length t C P S hu i (List.mem_range.1 hi)) k (c * P + j) hcj,
    List.getElem?_range hk]
  simp only [Option.some_bind]
  rw [getElem?_flatMap_uniform _ P _ _ c j hj]
  · unfold Topology.sibling
    rw [List.getElem?_eq_getElem hc']
    simp only [Option.some_bind]
    exact getElem?_filterMap_total _ _
      (sibling_isSome_of_uniform t C P S hu _ (List.getElem_mem hc') k hk) j
  · intro cpu hcpu
    rw [length_filterMap_total _ _ (sibling_isSome_of_uniform t C P S hu cpu hcpu k hk),
      (hu.2 cpu hcpu).1]

theorem index_decompose (C P S i : Nat) (hP : 0 < P) (hi : i < C * P * S) :
    ∃ c j k, c < C ∧ j < P ∧ k < S ∧ i = k * (C * P) + c * P + j := by
  have hCP : 0 < C * P := by
    rcases Nat.eq_zero_or_pos (C * P) with h | h
    · rw [h, Nat.zero_mul] at hi
      exact absurd hi (Nat.not_lt_zero _)
    · exact h
  refine ⟨i % (C * P) / P, i % (C * P) % P, i / (C * P), ?_, Nat.mod_lt _ hP, ?_, ?_⟩
  · exact Nat.div_lt_of_lt_mul (lt_of_lt_of_eq (Nat.mod_lt _ hCP) (Nat.mul_comm C P))
  · exact Nat.div_lt_of_lt_mul hi
  · have h1 := Nat.div_add_mod i (C * P)
    have h2 := Nat.div_add_mod (i % (C * P)) P
    rw [Nat.mul_comm (i / (C * P)), Nat.mul_comm (i % (C * P) / P)]
    omega

theorem index_injective (C P : Nat) (c j k c' j' k' : Nat) (hj : j < P) (hj' : j' < P)
    (hc : c < C) (hc' : c' < C)
    (h : k * (C * P) + c * P + j = k' * (C * P) + c' * P + j') :
    c = c' ∧ j = j' ∧ k = k' := by
  have hcj : c * P + j < C * P := by
    calc c * P + j < c * P + P := by omega
      _ = (c + 1) * P := by ring
      _ ≤ C * P := Nat.mul_le_mul_right P hc
  have hcj' : c' * P + j' < C * P := by
    calc c' * P + j' < c' * P + P := by omega
      _ = (c' + 1) * P := by ring
      _ ≤ C * P := Nat.mul_le_mul_right P hc'
  have hk : k = k' := by
    have e1 : (k * (C * P) + (c * P + j)) / (C * P) = k := by
      rw [Nat.mul_comm k, Nat.mul_add_div (by omega), Nat.div_eq_of_lt hcj, Nat.add_zero]
    have e2 : (k' * (C * P) + (c' * P + j')) / (C * P) = k' := by
      rw [Nat.mul_comm k', Nat.mul_add_div (by omega), Nat.div_eq_of_lt hcj', Nat.add_zero]
    rw [← e1, ← e2, ← Nat.add_assoc, ← Nat.add_assoc, h]
  subst hk
  have h' : c * P + j = c' * P + j' := by omega
  have hcc : c = c' := by
    have e1 : (c * P + j) / P = c := by
      rw [Nat.mul_comm c, Nat.mul_add_div (by omega), Nat.div_eq_of_lt hj, Nat.add_zero]
    have e2 : (c' * P + j') / P = c' := by
      rw [Nat.mul_comm c', Nat.mul_add_div (by omega), Nat.div_eq_of_lt hj', Nat.add_zero]
    rw [← e1, ← e2, h']
  subst hcc
  exact ⟨rfl, by omega, rfl⟩

theorem mem_getPhysicalCores (t : Topology) (pc : PhysicalCore)
    (h : pc ∈ t.getPhysicalCores) :
    ∃ c j : Nat, (t.cpus[c]?).bind (fun cpu : Cpu => cpu.physicalCores[j]?) = some pc := by
  unfold Topology.getPhysicalCores at h
  obtain ⟨cpu, hc, hp⟩ := List.mem_flatMap.1 h
  obtain ⟨c, hc⟩ := List.mem_iff_getElem?.1 hc
  obtain ⟨j, hj⟩ := List.mem_iff_getElem?.1 hp
  exact ⟨c, j, by rw [hc]; exact hj⟩

theorem sibling_of_mem (t : Topology) (pc : PhysicalCore) (v : VirtualCore) (c j : Nat)
    (hpc : (t.cpus[c]?).bind (fun cpu : Cpu => cpu.physicalCores[j]?) = some pc)
    (hv : v ∈ pc.virtualCores) : ∃ k, t.sibling c j k = some v := by
  obtain ⟨k, hk⟩ := List.mem_iff_getElem?.1 hv
  refine ⟨k, ?_⟩
  unfold Topology.sibling
  rcases hcpu : t.cpus[c]? with _ | cpu
  · rw [hcpu] at hpc
    simp at hpc
  · rw [hcpu] at hpc
    simp only [Option.some_bind] at hpc ⊢
    rw [hpc]
    exact hk

/-- C6. On a uniform topology of C Cpus x P PhysicalCores x S siblings, the
LINEAR and AUTO strategies of `setUnusedVirtualCores` return a list of exactly
C*P*S VirtualCores whose entry at position k*(C*P) + c*P + j is sibling k of
PhysicalCore j of Cpu c.  Consequently (the VirtualCores of the topology being
pairwise distinct) the list has no duplicates, its first C*P entries lie on
pairwise distinct PhysicalCores, and sibling k+1 of any PhysicalCore comes after
sibling k of every PhysicalCore of every Cpu. -/
theorem setUnusedVirtualCores_linear_order (m : AdaptivityManagerFarm) (C P S : Nat)
    (hmap : m.p.strategyMapping = .STRATEGY_MAPPING_LINEAR ∨
      m.p.strategyMapping = .STRATEGY_MAPPING_AUTO)
    (hu : m.p.topology.Uniform C P S) (hC : 0 < C) (hP : 0 < P)
    (hfresh : m.unusedVirtualCores = []) :
    (setUnusedVirtualCores m).1 = .returned () ∧
    (setUnusedVirtualCores m).2.unusedVirtualCores.length = C * P * S ∧
    (∀ c j k : Nat, c < C → j < P → k < S →
      (∃ v, m.p.topology.sibling c j k = some v) ∧
      (setUnusedVirtualCores m).2.unusedVirtualCores[k * (C * P) + c * P + j]? =
        m.p.topology.sibling c j k) ∧
    (m.p.topology.DistinctCores →
      (setUnusedVirtualCores m).2.unusedVirtualCores.Nodup ∧
      (∀ (i i' : Nat) (v v' : VirtualCore), i < i' → i' < C * P →
        (setUnusedVirtualCores m).2.unusedVirtualCores[i]? = some v →
        (setUnusedVirtualCores m).2.unusedVirtualCores[i']? = some v' →
        ¬ ∃ pc ∈ m.p.topology.getPhysicalCores, v ∈ pc.virtualCores ∧ v' ∈ pc.virtualCores) ∧
      (∀ c j c' j' k i i' : Nat, c < C → j < P → c' < C → j' < P → k + 1 < S →
        (setUnusedVirtualCores m).2.unusedVirtualCores[i]? = m.p.topology.sibling c j (k + 1) →
        (setUnusedVirtualCores m).2.unusedVirtualCores[i']? = m.p.topology.sibling c' j' k →
        i' < i)) := by
  rw [setUnusedVirtualCores_uniform m C P S hmap hu hC hP, hfresh]
  simp only [List.nil_append]
  have hlen := linearCandidates_length m.p.topology C P S hu
  have hidx := linearCandidates_getElem? m.p.topology C P S hu
  have hsome := sibling_isSome m.p.topology C P S hu
  -- every entry of the list is the sibling its index names
  have hentry : ∀ (i : Nat) (v : VirtualCore),
      (linearCandidates m.p.topology S)[i]? = some v →
      ∃ c j k, c < C ∧ j < P ∧ k < S ∧ i = k * (C * P) + c * P + j ∧
        m.p.topology.sibling c j k = some v := by
    intro i v hi
    have hi' : i < C * P * S := by
      rw [← hlen]
      exact (List.getElem?_eq_some.1 hi).1
    obtain ⟨c, j, k, hc, hj, hk, rfl⟩ := index_decompose C P S i hP hi'
    exact ⟨c, j, k, hc, hj, hk, rfl, by rw [← hidx c j k hc hj hk, hi]⟩
  refine ⟨trivial, hlen, fun c j k hc hj hk => ⟨hsome c j k hc hj hk, hidx c j k hc hj hk⟩, ?_⟩
  intro hd
  -- equal entries sit at equal indices
  have hinj : ∀ (i i' : Nat) (v : VirtualCore),
      (linearCandidates m.p.topology S)[i]? = some v →
      (linearCandidates m.p.topology S)[i']? = some v → i = i' := by
    intro i i' v hi hi'
    obtain ⟨c, j, k, hc, hj, -, rfl, hs⟩ := hentry i v hi
    obtain ⟨c', j', k', hc', hj', -, rfl, hs'⟩ := hentry i' v hi'
    obtain ⟨rfl, rfl, rfl⟩ := hd c j k c' j' k' v hs hs'
    rfl
  refine ⟨?_, ?_, ?_⟩
  · rw [List.nodup_iff_getElem?_ne_getElem?]
    intro i i' hlt hi' heq
    have hb : i' < (linearCandidates m.p.topology S).length := hi'
    rw [List.getElem?_eq_getElem hb] at heq
    exact absurd (hinj i i' _ heq (List.getElem?_eq_getElem hb)) (Nat.ne_of_lt hlt)
  · rintro i i' v v' hlt hi' hv hv' ⟨pc, hpc, hvp, hvp'⟩
    obtain ⟨c, j, hcj⟩ := mem_getPhysicalCores _ pc hpc
    obtain ⟨k, hk⟩ := sibling_of_mem _ pc v c j hcj hvp
    obtain ⟨k', hk'⟩ := sibling_of_mem _ pc v' c j hcj hvp'
    obtain ⟨c1, j1, k1, hc1, hj1, -, rfl, hs1⟩ := hentry i v hv
    obtain ⟨c2, j2, k2, hc2, hj2, -, rfl, hs2⟩ := hentry i' v' hv'
    obtain ⟨rfl, rfl, rfl⟩ := hd c1 j1 k1 c j k v hs1 hk
    obtain ⟨rfl, rfl, rfl⟩ := hd c2 j2 k2 c1 j1 k' v' hs2 hk'
    -- both indices are below C * P, so both are in round 0
    have hk1 : k1 = 0 := by
      by_contra hne
      have : C * P ≤ k1 * (C * P) := Nat.le_mul_of_pos_left _ (Nat.pos_of_ne_zero hne)
      omega
    have hk2 : k2 = 0 := by
      by_contra hne
      have : C * P ≤ k2 * (C * P) := Nat.le_mul_of_pos_left _ (Nat.pos_of_ne_zero hne)
      omega
    subst hk1 hk2
    exact Nat.lt_irrefl _ hlt
  · intro c j c' j' k i i' hc hj hc' hj' hk hi hi'
    obtain ⟨v, hv⟩ := hsome c j (k + 1) hc hj hk
    obtain ⟨v', hv'⟩ := hsome c' j' k hc' hj' (by omega)
    rw [hv] at hi
    rw [hv'] at hi'
    have e1 := hinj i _ v hi (by rw [hidx c j (k + 1) hc hj hk, hv])
    have e2 := hinj i' _ v' hi' (by rw [hidx c' j' k hc' hj' (by omega), hv'])
    have hcj' : c' * P + j' < C * P := by
      calc c' * P + j' < c' * P + P := by omega
        _ = (c' + 1) * P := by ring
        _ ≤ C * P := Nat.mul_le_mul_right P hc'
    rw [e1, e2, Nat.add_mul, Nat.one_mul]
    omega

theorem fourCoreTopology_sibling (c j k : Nat) (v : VirtualCore)
    (h : fourCoreTopology.sibling c j k = some v) :
    c = 0 ∧ j < 4 ∧ k < 2 ∧ v.virtualCoreId = j + 4 * k := by
  rcases c with _ | c
  · rcases j with _ | _ | _ | _ | j <;> rcases k with _ | _ | k <;>
      simp [Topology.sibling, fourCoreTopology] at h <;> subst h <;> simp
  · simp [Topology.sibling, fourCoreTopology] at h

theorem fourCoreTopology_distinctCores : fourCoreTopology.DistinctCores := by
  intro c j k c' j' k' v h h'
  obtain ⟨rfl, hj, hk, hv⟩ := fourCoreTopology_sibling c j k v h
  obtain ⟨rfl, hj', hk', hv'⟩ := fourCoreTopology_sibling c' j' k' v h'
  refine ⟨rfl, ?_, ?_⟩ <;> omega

/-- Witness for C6: the topology of scenario S1, one Cpu of four PhysicalCores of
two siblings. -/
theorem setUnusedVirtualCores_linear_order_witness :
    (setUnusedVirtualCores s1Manager).1 = .returned () ∧
    (setUnusedVirtualCores s1Manager).2.unusedVirtualCores.length = 1 * 4 * 2 ∧
    (setUnusedVirtualCores s1Manager).2.unusedVirtualCores.Nodup :=
  have h := setUnusedVirtualCores_linear_order s1Manager 1 4 2 (Or.inl rfl)
    (by unfold Topology.Uniform; decide) (by decide) (by decide) rfl
  ⟨h.1, h.2.1, (h.2.2.2 fourCoreTopology_distinctCores).1⟩

/-! ## Theorems on `mapAndSetFrequencies` -/

theorem sameMapping_refl (m : AdaptivityManagerFarm) : sameMapping m m :=
  ⟨rfl, rfl, rfl, rfl⟩

theorem sameMapping_trans {a b c : AdaptivityManagerFarm} (h1 : sameMapping a b)
    (h2 : sameMapping b c) : sameMapping a c :=
  ⟨h1.1.trans h2.1, h1.2.1.trans h2.2.1, h1.2.2.1.trans h2.2.2.1, h1.2.2.2.trans h2.2.2.2⟩

theorem andThen_sameMapping (r : Completion Unit × AdaptivityManagerFarm)
    (k : AdaptivityManagerFarm → Completion Unit × AdaptivityManagerFarm)
    (hk : ∀ m, sameMapping (k m).2 m) : sameMapping (andThen r k).2 r.2 := by
  rcases r with ⟨_ | e, s⟩
  · exact hk s
  · exact sameMapping_refl s

theorem moveNode_sameMapping (node : AdaptiveNode) (vc : Option VirtualCore)
    (m : AdaptivityManagerFarm) : sameMapping (moveNode node vc m).2 m := by
  unfold moveNode
  split <;> exact ⟨rfl, rfl, rfl, rfl⟩

theorem moveWorkers_sameMapping :
    ∀ (ws : List AdaptiveNode) (i : Nat) (m : AdaptivityManagerFarm),
      sameMapping (moveWorkers ws i m).2 m
  | [], _, m => sameMapping_refl m
  | w :: ws, i, m => by
    unfold moveWorkers
    split
    · split <;> exact sameMapping_refl m
    · exact sameMapping_trans
        (andThen_sameMapping _ _ (moveWorkers_sameMapping ws (i + 1)))
        (moveNode_sameMapping _ _ _)

theorem performMapping_sameMapping (m : AdaptivityManagerFarm) :
    sameMapping (performMapping m).2 m := by
  unfold performMapping
  refine sameMapping_trans (andThen_sameMapping _ _ ?_) ?_
  · intro m1
    refine sameMapping_trans (andThen_sameMapping _ _ (moveWorkers_sameMapping _ _)) ?_
    split
    · exact moveNode_sameMapping _ _ _
    · exact sameMapping_refl _
  · split
    · exact moveNode_sameMapping _ _ _
    · exact sameMapping_refl _

theorem hotUnplugAll_sameMapping :
    ∀ (vcs : List VirtualCore) (m : AdaptivityManagerFarm), sameMapping (hotUnplugAll vcs m) m
  | [], m => sameMapping_refl m
  | vc :: vcs, m => by
    unfold hotUnplugAll
    split
    · exact sameMapping_trans (hotUnplugAll_sameMapping vcs _) ⟨rfl, rfl, rfl, rfl⟩
    · exact hotUnplugAll_sameMapping vcs m

theorem setLowestFrequencyAll_sameMapping :
    ∀ (ds : List Domain) (m : AdaptivityManagerFarm),
      sameMapping (setLowestFrequencyAll ds m).2 m
  | [], m => sameMapping_refl m
  | d :: ds, m => by
    unfold setLowestFrequencyAll
    dsimp only
    split_ifs
    · exact ⟨rfl, rfl, rfl, rfl⟩
    · exact ⟨rfl, rfl, rfl, rfl⟩
    · exact sameMapping_trans (setLowestFrequencyAll_sameMapping ds _) ⟨rfl, rfl, rfl, rfl⟩
    · exact sameMapping_trans (setLowestFrequencyAll_sameMapping ds _) ⟨rfl, rfl, rfl, rfl⟩

theorem treatUnusedVirtualCores_sameMapping (m : AdaptivityManagerFarm) :
    sameMapping (treatUnusedVirtualCores m).2 m := by
  unfold treatUnusedVirtualCores applyUnusedVirtualCoresStrategy
  dsimp only
  split
  · refine sameMapping_trans (hotUnplugAll_sameMapping _ _) ?_
    split_ifs <;> exact ⟨rfl, rfl, rfl, rfl⟩
  · refine sameMapping_trans (setLowestFrequencyAll_sameMapping _ _) ?_
    split_ifs <;> exact ⟨rfl, rfl, rfl, rfl⟩
  · split_ifs <;> exact ⟨rfl, rfl, rfl, rfl⟩

theorem updatePstateDomains_sameMapping (f : Frequency) :
    ∀ (ds : List Domain) (m : AdaptivityManagerFarm),
      sameMapping (updatePstateDomains f ds m).2 m
  | [], m => sameMapping_refl m
  | d :: ds, m => by
    unfold updatePstateDomains
    dsimp only
    split_ifs
    all_goals first
      | exact ⟨rfl, rfl, rfl, rfl⟩
      | exact sameMapping_trans (updatePstateDomains_sameMapping f ds _) ⟨rfl, rfl, rfl, rfl⟩

theorem setInitialPstate_sameMapping (m : AdaptivityManagerFarm) (l : MappingLocals) :
    sameMapping (setInitialPstate m l).2 m := by
  unfold setInitialPstate
  split_ifs
  · split
    · exact sameMapping_refl m
    · dsimp only
      split
      · exact ⟨rfl, rfl, rfl, rfl⟩
      · unfold updatePstate
        exact sameMapping_trans (updatePstateDomains_sameMapping _ _ _) ⟨rfl, rfl, rfl, rfl⟩
  · exact sameMapping_refl m

theorem setUnusedVirtualCores_frame (m : AdaptivityManagerFarm) :
    (setUnusedVirtualCores m).2 =
      { m with unusedVirtualCores := (setUnusedVirtualCores m).2.unusedVirtualCores } := by
  unfold setUnusedVirtualCores
  split
  · split_ifs <;> rfl
  · split_ifs <;> rfl
  · rfl
  · rfl

theorem mapSensitiveStages_of_not_sensitive (m : AdaptivityManagerFarm) (l : MappingLocals)
    (hse : m.p.sensitiveEmitter = false) (hsc : m.p.sensitiveCollector = false) :
    mapSensitiveStages m l = (.returned l, m) := by
  unfold mapSensitiveStages
  rw [if_neg (by simp [hse, hsc])]

theorem mapWorkers_of_le (m : AdaptivityManagerFarm) (l : MappingLocals)
    (h : m.workers.length ≤ m.unusedVirtualCores.length) :
    mapWorkers m l =
      (.returned { l with frequencyScalableVirtualCores :=
          l.frequencyScalableVirtualCores ++ m.unusedVirtualCores.take m.workers.length },
        { m with
          workersVirtualCores :=
            m.workersVirtualCores ++ m.unusedVirtualCores.take m.workers.length
          unusedVirtualCores := m.unusedVirtualCores.drop m.workers.length }) := by
  unfold mapWorkers
  dsimp only
  rw [if_neg (by rw [List.length_take]; omega)]

/-- The workers and collector blocks on an unused list long enough. -/
theorem mapWorkers_mapCollector_state (m : AdaptivityManagerFarm) (l : MappingLocals)
    (hfresh : m.workersVirtualCores = [])
    (hlen : m.workers.length + (if l.collectorMappingRequired then 1 else 0) ≤
      m.unusedVirtualCores.length) :
    (∃ l', (match mapWorkers m l with
        | (.threw e, m) => (Completion.threw e, m)
        | (.returned l, m) => mapCollector m l).1 = .returned l') ∧
    (match mapWorkers m l with
        | (.threw e, m) => (Completion.threw e, m)
        | (.returned l, m) => mapCollector m l).2 =
      { m with
        workersVirtualCores := m.unusedVirtualCores.take m.workers.length
        collectorVirtualCore :=
          if l.collectorMappingRequired then m.unusedVirtualCores[m.workers.length]?
          else m.collectorVirtualCore
        unusedVirtualCores := m.unusedVirtualCores.drop
          (m.workers.length + (if l.collectorMappingRequired then 1 else 0)) } := by
  rcases l with ⟨e, c, fs⟩
  rw [mapWorkers_of_le m _ (by omega)]
  dsimp only
  cases c
  · simp [mapCollector, hfresh]
  · simp only [if_true, mapCollector] at hlen ⊢
    rcases hd : m.unusedVirtualCores.drop m.workers.length with _ | ⟨v, rest⟩
    · have := congrArg List.length hd
      rw [List.length_drop, List.length_nil] at this
      omega
    · have h0 : m.unusedVirtualCores[m.workers.length]? = some v := by
        have := List.getElem?_drop m.unusedVirtualCores m.workers.length 0
        rw [hd] at this
        simpa using this.symm
      have h1 : m.unusedVirtualCores.drop (m.workers.length + 1) = rest := by
        rw [← List.drop_drop, hd]
        rfl
      simp [hfresh, h0, h1]

/-- The EWC assignment on an unused list long enough for the stages still to
map. -/
theorem mapRemainingStages_state (m : AdaptivityManagerFarm) (l : MappingLocals)
    (hfresh : m.workersVirtualCores = [])
    (hlen : (if l.emitterMappingRequired then 1 else 0) + m.workers.length +
      (if l.collectorMappingRequired then 1 else 0) ≤ m.unusedVirtualCores.length) :
    (∃ l', (mapRemainingStages m l).1 = .returned l') ∧
    (mapRemainingStages m l).2.emitterVirtualCore =
      (if l.emitterMappingRequired then m.unusedVirtualCores[0]?
        else m.emitterVirtualCore) ∧
    (mapRemainingStages m l).2.workersVirtualCores =
      (m.unusedVirtualCores.drop (if l.emitterMappingRequired then 1 else 0)).take
        m.workers.length ∧
    (mapRemainingStages m l).2.collectorVirtualCore =
      (if l.collectorMappingRequired then
        m.unusedVirtualCores[(if l.emitterMappingRequired then 1 else 0) + m.workers.length]?
        else m.collectorVirtualCore) ∧
    (mapRemainingStages m l).2.unusedVirtualCores =
      m.unusedVirtualCores.drop ((if l.emitterMappingRequired then 1 else 0) +
        m.workers.length + (if l.collectorMappingRequired then 1 else 0)) := by
  unfold mapRemainingStages
  by_cases he : l.emitterMappingRequired = true
  · rcases hL : m.unusedVirtualCores with _ | ⟨v, rest⟩
    · rw [hL, if_pos he] at hlen
      simp only [List.length_nil] at hlen
      omega
    · rw [hL, if_pos he] at hlen
      simp only [List.length_cons] at hlen
      have hstep : mapEmitter m l =
          (.returned { l with frequencyScalableVirtualCores :=
              l.frequencyScalableVirtualCores ++ [v] },
            { m with emitterVirtualCore := some v, unusedVirtualCores := rest }) := by
        unfold mapEmitter
        rw [if_pos he, hL]
      rw [hstep]
      dsimp only
      obtain ⟨h1, h2⟩ := mapWorkers_mapCollector_state
        { m with emitterVirtualCore := some v, unusedVirtualCores := rest }
        { l with frequencyScalableVirtualCores := l.frequencyScalableVirtualCores ++ [v] }
        hfresh (by dsimp only; omega)
      refine ⟨h1, ?_⟩
      rw [h2]
      simp only [if_pos he, List.getElem?_cons_zero, List.drop_succ_cons, List.drop_zero,
        true_and]
      refine ⟨?_, ?_⟩
      · split_ifs
        · rw [Nat.add_comm 1, List.getElem?_cons_succ]
        · rfl
      · rw [Nat.add_assoc, Nat.add_comm 1, List.drop_succ_cons]
  · have hstep : mapEmitter m l = (.returned l, m) := by
      unfold mapEmitter
      rw [if_neg he]
    rw [if_neg he, Nat.zero_add] at hlen
    rw [hstep]
    dsimp only
    obtain ⟨h1, h2⟩ := mapWorkers_mapCollector_state m l hfresh hlen
    refine ⟨h1, ?_⟩
    rw [h2]
    simp only [if_neg he, Nat.zero_add, List.drop_zero, true_and]

/-- C4, evaluated on the code.  With a sensitive emitter and one worker on two
cores in separate domains (validated parameters), `mapAndSetFrequencies`
completes and leaves VirtualCore 1 both as the emitter core and in the unused
list: the sensitive branch never erases the core it picks from
`_unusedVirtualCores`. -/
theorem mapAndSetFrequencies_sensitive_core_still_unused :
    validate sensitiveEmitterParameters = (.returned .VALIDATION_OK, sensitiveEmitterParameters) ∧
    (mapAndSetFrequencies sensitiveEmitterOneWorker).1 = .returned () ∧
    (mapAndSetFrequencies sensitiveEmitterOneWorker).2.emitterVirtualCore = some (core 1) ∧
    (mapAndSetFrequencies sensitiveEmitterOneWorker).2.collectorVirtualCore = none ∧
    (mapAndSetFrequencies sensitiveEmitterOneWorker).2.workersVirtualCores = [core 0] ∧
    (mapAndSetFrequencies sensitiveEmitterOneWorker).2.unusedVirtualCores = [core 1] ∧
    core 1 ∈ (mapAndSetFrequencies sensitiveEmitterOneWorker).2.unusedVirtualCores := by
  decide

/-- C5, evaluated on the code.  With a sensitive emitter and two workers on two
cores in separate domains (validated parameters, frequency strategy OS), the
scalable prefix holds one VirtualCore only, `getSeparatedDomainPhysicalCores`
yields PhysicalCore 1, and `mapAndSetFrequencies` completes with the emitter on
VirtualCore 1 and the workers on VirtualCores 0 and 1: the frequency domain of
the sensitively placed emitter contains a worker. -/
theorem mapAndSetFrequencies_sensitive_domain_shared :
    validate sensitiveEmitterParameters = (.returned .VALIDATION_OK, sensitiveEmitterParameters) ∧
    scalableVirtualCoresNum
      { sensitiveEmitterTwoWorkers with unusedVirtualCores := [core 0, core 1] }
      { emitterMappingRequired := true, collectorMappingRequired := false,
        frequencyScalableVirtualCores := [] } = 1 ∧
    getSeparatedDomainPhysicalCores sensitiveEmitterTwoWorkers [core 0] =
      [{ physicalCoreId := 1, virtualCores := [core 1] }] ∧
    (mapAndSetFrequencies sensitiveEmitterTwoWorkers).1 = .returned () ∧
    (mapAndSetFrequencies sensitiveEmitterTwoWorkers).2.emitterVirtualCore = some (core 1) ∧
    (mapAndSetFrequencies sensitiveEmitterTwoWorkers).2.workersVirtualCores = [core 0, core 1] ∧
    (sensitiveEmitterParameters.cpufreq.getDomain (core 1)).map Domain.getVirtualCores =
      some [core 1] ∧
    core 1 ∈ (mapAndSetFrequencies sensitiveEmitterTwoWorkers).2.workersVirtualCores := by
  decide


/-! ## Theorems on `validate`: governor, mapping strategy and the record it leaves -/

theorem validateFrequencyUpperBound_frame (fs : List Frequency) (q : AdaptivityParameters) :
    (validateFrequencyUpperBound fs q).2 =
      { q with frequencyUpperBound := (validateFrequencyUpperBound fs q).2.frequencyUpperBound } ∧
    ((validateFrequencyUpperBound fs q).2.frequencyUpperBound = q.frequencyUpperBound ∨
      (q.frequencyUpperBound = 0 ∧
        (validateFrequencyUpperBound fs q).2.frequencyUpperBound ∈ fs)) := by
  unfold validateFrequencyUpperBound
  by_cases h1 : q.frequencyUpperBound ≠ 0
  · rw [if_pos h1]
    split_ifs <;> exact ⟨rfl, Or.inl rfl⟩
  · rw [if_neg h1]
    rcases hf : fs[fs.length - 1]? with _ | f
    · exact ⟨rfl, Or.inl rfl⟩
    · exact ⟨rfl, Or.inr ⟨by simpa using h1, List.mem_iff_getElem?.2 ⟨_, hf⟩⟩⟩

/-- The bounds section changes nothing but the two bounds, and a bound only
when it was 0 under strategy OS. -/
theorem validateFrequencyBounds_frame (ds : List Domain) (q : AdaptivityParameters) :
    (validateFrequencyBounds ds q).2 =
      { q with
        frequencyLowerBound := (validateFrequencyBounds ds q).2.frequencyLowerBound
        frequencyUpperBound := (validateFrequencyBounds ds q).2.frequencyUpperBound } ∧
    ((validateFrequencyBounds ds q).2.frequencyLowerBound = q.frequencyLowerBound ∨
      (q.frequencyLowerBound = 0 ∧ q.strategyFrequencies = .STRATEGY_FREQUENCY_OS ∧
        ∃ d0, ds[0]? = some d0 ∧
          (validateFrequencyBounds ds q).2.frequencyLowerBound ∈ d0.availableFrequencies)) ∧
    ((validateFrequencyBounds ds q).2.frequencyUpperBound = q.frequencyUpperBound ∨
      (q.frequencyUpperBound = 0 ∧ q.strategyFrequencies = .STRATEGY_FREQUENCY_OS ∧
        ∃ d0, ds[0]? = some d0 ∧
          (validateFrequencyBounds ds q).2.frequencyUpperBound ∈ d0.availableFrequencies)) := by
  unfold validateFrequencyBounds
  by_cases h1 : q.frequencyLowerBound ≠ 0 ∨ q.frequencyUpperBound ≠ 0
  swap
  · rw [if_neg h1]
    exact ⟨rfl, Or.inl rfl, Or.inl rfl⟩
  rw [if_pos h1]
  by_cases h2 : q.strategyFrequencies = .STRATEGY_FREQUENCY_OS
  swap
  · rw [if_neg h2]
    exact ⟨rfl, Or.inl rfl, Or.inl rfl⟩
  rw [if_pos h2]
  rcases hd : ds[0]? with _ | d0
  · exact ⟨rfl, Or.inl rfl, Or.inl rfl⟩
  dsimp only
  by_cases h3 : d0.getAvailableFrequencies.length = 0
  · rw [if_pos h3]
    exact ⟨rfl, Or.inl rfl, Or.inl rfl⟩
  rw [if_neg h3]
  by_cases h4 : q.frequencyLowerBound ≠ 0
  · rw [if_pos h4]
    by_cases h5 : (!contains d0.getAvailableFrequencies q.frequencyLowerBound) = true
    · rw [if_pos h5]
      exact ⟨rfl, Or.inl rfl, Or.inl rfl⟩
    · rw [if_neg h5]
      obtain ⟨e1, e2⟩ := validateFrequencyUpperBound_frame d0.getAvailableFrequencies q
      refine ⟨?_, Or.inl (by rw [e1]), ?_⟩
      · rw [e1]
      · rcases e2 with e2 | ⟨e2, e3⟩
        · exact Or.inl e2
        · exact Or.inr ⟨e2, h2, d0, rfl, e3⟩
  · rw [if_neg h4]
    rcases hf : d0.getAvailableFrequencies[0]? with _ | f
    · exact ⟨rfl, Or.inl rfl, Or.inl rfl⟩
    · dsimp only
      obtain ⟨e1, e2⟩ := validateFrequencyUpperBound_frame d0.getAvailableFrequencies
        { q with frequencyLowerBound := f }
      refine ⟨?_, Or.inr ⟨by simpa using h4, h2, d0, rfl, ?_⟩, ?_⟩
      · rw [e1]
      · rw [e1]
        exact List.mem_iff_getElem?.2 ⟨_, hf⟩
      · rcases e2 with e2 | ⟨e2, e3⟩
        · exact Or.inl e2
        · exact Or.inr ⟨e2, h2, d0, rfl, e3⟩

theorem validateFrequencyStrategies_frame (p : AdaptivityParameters) :
    (validateFrequencyStrategies p).2.2 =
      { p with frequencyGovernor := (validateFrequencyStrategies p).2.2.frequencyGovernor } ∧
    ((validateFrequencyStrategies p).2.2.frequencyGovernor = p.frequencyGovernor ∨
      ((validateFrequencyStrategies p).2.2.frequencyGovernor = .GOVERNOR_USERSPACE ∧
        p.strategyFrequencies ≠ .STRATEGY_FREQUENCY_NO ∧
        p.strategyFrequencies ≠ .STRATEGY_FREQUENCY_OS)) ∧
    ((validateFrequencyStrategies p).2.1 = [] ∨
      (validateFrequencyStrategies p).2.1 = p.cpufreq.getDomains) := by
  unfold validateFrequencyStrategies
  dsimp only
  split_ifs with h1 h2 h3 h4 h5 h6 h7
  all_goals first
    | exact ⟨rfl, Or.inl rfl, Or.inr rfl⟩
    | exact ⟨rfl, Or.inl rfl, Or.inl rfl⟩
    | exact ⟨rfl, Or.inr ⟨rfl, h1, h3⟩, Or.inr rfl⟩

/-- The record `validate` leaves differs from the one it received at most in
`frequencyGovernor`, `frequencyLowerBound` and `frequencyUpperBound`. -/
theorem validate_frame (p : AdaptivityParameters) :
    (validate p).2 =
      { p with
        frequencyGovernor := (validate p).2.frequencyGovernor
        frequencyLowerBound := (validate p).2.frequencyLowerBound
        frequencyUpperBound := (validate p).2.frequencyUpperBound } ∧
    ((validate p).2.frequencyGovernor = p.frequencyGovernor ∨
      ((validate p).2.frequencyGovernor = .GOVERNOR_USERSPACE ∧
        p.strategyFrequencies ≠ .STRATEGY_FREQUENCY_NO ∧
        p.strategyFrequencies ≠ .STRATEGY_FREQUENCY_OS)) ∧
    ((validate p).2.frequencyLowerBound = p.frequencyLowerBound ∨
      (p.frequencyLowerBound = 0 ∧ p.strategyFrequencies = .STRATEGY_FREQUENCY_OS ∧
        (validate p).2.frequencyLowerBound ∈ firstDomainFrequencies p)) ∧
    ((validate p).2.frequencyUpperBound = p.frequencyUpperBound ∨
      (p.frequencyUpperBound = 0 ∧ p.strategyFrequencies = .STRATEGY_FREQUENCY_OS ∧
        (validate p).2.frequencyUpperBound ∈ firstDomainFrequencies p)) := by
  by_cases hr : thresholdsRejected p
  · rw [validate_of_thresholdsRejected p hr]
    exact ⟨rfl, Or.inl rfl, Or.inl rfl, Or.inl rfl⟩
  rw [validate_of_not_thresholdsRejected p hr]
  obtain ⟨f1, f2, f3⟩ := validateFrequencyStrategies_frame p
  rcases hs : validateFrequencyStrategies p with ⟨c, ds, q⟩
  rw [hs] at f1 f2 f3
  dsimp only at f1 f2 f3
  have base : q = { p with
      frequencyGovernor := q.frequencyGovernor
      frequencyLowerBound := q.frequencyLowerBound
      frequencyUpperBound := q.frequencyUpperBound } ∧
      (q.frequencyGovernor = p.frequencyGovernor ∨
        (q.frequencyGovernor = .GOVERNOR_USERSPACE ∧
          p.strategyFrequencies ≠ .STRATEGY_FREQUENCY_NO ∧
          p.strategyFrequencies ≠ .STRATEGY_FREQUENCY_OS)) ∧
      (q.frequencyLowerBound = p.frequencyLowerBound ∨
        (p.frequencyLowerBound = 0 ∧ p.strategyFrequencies = .STRATEGY_FREQUENCY_OS ∧
          q.frequencyLowerBound ∈ firstDomainFrequencies p)) ∧
      (q.frequencyUpperBound = p.frequencyUpperBound ∨
        (p.frequencyUpperBound = 0 ∧ p.strategyFrequencies = .STRATEGY_FREQUENCY_OS ∧
          q.frequencyUpperBound ∈ firstDomainFrequencies p)) := by
    have hq1 : q.frequencyLowerBound = p.frequencyLowerBound := by rw [f1]
    have hq2 : q.frequencyUpperBound = p.frequencyUpperBound := by rw [f1]
    refine ⟨?_, f2, Or.inl hq1, Or.inl hq2⟩
    rw [hq1, hq2]
    exact f1
  rcases c with _ | c
  swap
  · exact base
  dsimp only
  split_ifs with h1 h2
  · exact base
  · exact base
  · obtain ⟨g1, g2, g3⟩ := validateFrequencyBounds_frame ds q
    have hq1 : q.frequencyLowerBound = p.frequencyLowerBound := by rw [f1]
    have hq2 : q.frequencyUpperBound = p.frequencyUpperBound := by rw [f1]
    have hq3 : q.strategyFrequencies = p.strategyFrequencies := by rw [f1]
    have hfirst : ∀ d0, ds[0]? = some d0 →
        firstDomainFrequencies p = d0.availableFrequencies := by
      intro d0 hd0
      rcases f3 with f3 | f3
      · rw [f3] at hd0
        simp at hd0
      · rw [f3] at hd0
        unfold firstDomainFrequencies
        rcases hdd : p.cpufreq.getDomains with _ | ⟨d, rest⟩
        · rw [hdd] at hd0
          simp at hd0
        · rw [hdd] at hd0
          simp only [List.getElem?_cons_zero, Option.some.injEq] at hd0
          subst hd0
          rfl
    refine ⟨?_, ?_, ?_, ?_⟩
    · have e1 : (validateFrequencyBounds ds q).2.frequencyGovernor = q.frequencyGovernor := by
        have h := congrArg AdaptivityParameters.frequencyGovernor g1
        exact h
      have e2 : (validateFrequencyBounds ds q).2 = { p with
          frequencyGovernor := q.frequencyGovernor
          frequencyLowerBound := (validateFrequencyBounds ds q).2.frequencyLowerBound
          frequencyUpperBound := (validateFrequencyBounds ds q).2.frequencyUpperBound } := by
        refine g1.trans ?_
        have h := congrArg (fun r : AdaptivityParameters => { r with
          frequencyLowerBound := (validateFrequencyBounds ds q).2.frequencyLowerBound
          frequencyUpperBound := (validateFrequencyBounds ds q).2.frequencyUpperBound }) f1
        exact h
      rw [e1]
      exact e2
    · have e1 : (validateFrequencyBounds ds q).2.frequencyGovernor = q.frequencyGovernor := by
        have h := congrArg AdaptivityParameters.frequencyGovernor g1
        exact h
      rw [e1]
      exact f2
    · rcases g2 with g2 | ⟨g2, g2', d0, hd0, hm⟩
      · exact Or.inl (g2.trans hq1)
      · exact Or.inr ⟨hq1 ▸ g2, hq3 ▸ g2', by rw [hfirst d0 hd0]; exact hm⟩
    · rcases g3 with g3 | ⟨g3, g3', d0, hd0, hm⟩
      · exact Or.inl (g3.trans hq2)
      · exact Or.inr ⟨hq2 ▸ g3, hq3 ▸ g3', by rw [hfirst d0 hd0]; exact hm⟩

/-- With the thresholds and the frequency-strategy section passed, `validate`
continues with the governor test, the mapping test and the bounds section, on the
record left by the frequency-strategy section. -/
theorem validate_after_strategies (p : AdaptivityParameters) (hr : ¬ thresholdsRejected p)
    (hs : passesStrategyChecks p) :
    validate p =
      if isFrequencyGovernorAvailable p (governorAfterStrategies p) = false then
        (.returned .VALIDATION_GOVERNOR_UNSUPPORTED, parametersAfterStrategies p)
      else if p.strategyMapping = .STRATEGY_MAPPING_CACHE_EFFICIENT then
        (.returned .VALIDATION_STRATEGY_MAPPING_UNSUPPORTED, parametersAfterStrategies p)
      else validateFrequencyBounds (domainsAfterStrategies p) (parametersAfterStrategies p) := by
  rw [validate_of_not_thresholdsRejected p hr, validateFrequencyStrategies_of_passes p hs]
  obtain ⟨e1, e2, e3⟩ := parametersAfterStrategies_governor p
  dsimp only
  rw [e1, e2, isFrequencyGovernorAvailable_congr p _ _ e3]
  by_cases hg : isFrequencyGovernorAvailable p (governorAfterStrategies p) = false
  · rw [if_pos hg, if_pos (by simp [hg])]
  · rw [if_neg hg, if_neg (by simpa using hg)]

/-- The governor stored in the record when `validate` returns, once the
thresholds and the frequency-strategy section have passed. -/
theorem validate_governor_stored (p : AdaptivityParameters) (hr : ¬ thresholdsRejected p)
    (hs : passesStrategyChecks p) :
    (validate p).2.frequencyGovernor = governorAfterStrategies p := by
  rw [validate_after_strategies p hr hs]
  obtain ⟨e1, -, -⟩ := parametersAfterStrategies_governor p
  split_ifs
  · exact e1
  · exact e1
  · have h := congrArg AdaptivityParameters.frequencyGovernor
      (validateFrequencyBounds_frame (domainsAfterStrategies p) (parametersAfterStrategies p)).1
    exact h.trans e1

theorem governorOnEveryDomain_eq_true (c : CpuFreq) (g : Governor) :
    governorOnEveryDomain c g = true ↔
      (c.getDomains ≠ [] ∧ ∀ d ∈ c.getDomains, g ∈ d.getAvailableGovernors) := by
  unfold governorOnEveryDomain contains
  by_cases h : c.getDomains = []
  · simp [h]
  · have hl : c.getDomains.length ≠ 0 := fun hl => h (List.length_eq_zero.1 hl)
    simp [h, hl]

/-- C11. `validate` returns OK only if the platform has at least one frequency
domain and the governor stored in the record when `validate` returns is offered
by every domain.  When the threshold test and the tests of the frequency-strategy
section (sensitivity included) pass, `validate` returns
`VALIDATION_GOVERNOR_UNSUPPORTED` exactly when there is no domain or that governor
is missing on some domain. -/
theorem validate_governor_unsupported (p : AdaptivityParameters) :
    ((validate p).1 = .returned .VALIDATION_OK →
      p.cpufreq.getDomains ≠ [] ∧
      ∀ d ∈ p.cpufreq.getDomains,
        (validate p).2.frequencyGovernor ∈ d.getAvailableGovernors) ∧
    (¬ thresholdsRejected p → passesStrategyChecks p →
      ((validate p).1 = .returned .VALIDATION_GOVERNOR_UNSUPPORTED ↔
        (p.cpufreq.getDomains = [] ∨
          ∃ d ∈ p.cpufreq.getDomains,
            (validate p).2.frequencyGovernor ∉ d.getAvailableGovernors))) := by
  constructor
  · intro hok
    obtain ⟨hr, hs, hg, -⟩ := passesChecksBeforeBounds_of_ok p hok
    rw [validate_governor_stored p hr hs]
    rw [isFrequencyGovernorAvailable_eq] at hg
    exact (governorOnEveryDomain_eq_true _ _).1 hg
  · intro hr hs
    rw [validate_governor_stored p hr hs]
    have hiff := governorOnEveryDomain_eq_true p.cpufreq (governorAfterStrategies p)
    rw [← isFrequencyGovernorAvailable_eq] at hiff
    have hrhs : (p.cpufreq.getDomains = [] ∨
        ∃ d ∈ p.cpufreq.getDomains, governorAfterStrategies p ∉ d.getAvailableGovernors) ↔
        isFrequencyGovernorAvailable p (governorAfterStrategies p) = false := by
      rw [← Bool.not_eq_true, hiff]
      constructor
      · rintro (h | ⟨d, hd, hn⟩)
        · exact fun hc => hc.1 h
        · exact fun hc => hn (hc.2 d hd)
      · intro hc
        by_cases hne : p.cpufreq.getDomains = []
        · exact Or.inl hne
        · right
          by_contra hall
          push_neg at hall
          exact hc ⟨hne, hall⟩
    rw [hrhs, validate_after_strategies p hr hs]
    by_cases hg : isFrequencyGovernorAvailable p (governorAfterStrategies p) = false
    · rw [if_pos hg]
      simp [hg]
    · rw [if_neg hg]
      have hne : ∀ q : Completion AdaptivityParametersValidation × AdaptivityParameters,
          (q.1 = .returned .VALIDATION_OK ∨
            q.1 = .returned .VALIDATION_INVALID_FREQUENCY_BOUNDS ∨ q.1 = .threw .outOfRange) →
          q.1 ≠ .returned .VALIDATION_GOVERNOR_UNSUPPORTED := by
        rintro q (h | h | h) <;> rw [h] <;> simp
      split_ifs
      · exact ⟨fun h => by simp at h, fun h => absurd h hg⟩
      · exact ⟨fun h => absurd h (hne _ (validateFrequencyBounds_code _ _)),
          fun h => absurd h hg⟩

/-- Witness for C11: `upperBoundOnlyParameters` is accepted and its governor is
offered by every domain; on `missingGovernorParameters` the second domain lacks
ONDEMAND and the result is `VALIDATION_GOVERNOR_UNSUPPORTED`. -/
theorem validate_governor_unsupported_witness :
    (∀ d ∈ upperBoundOnlyParameters.cpufreq.getDomains,
      (validate upperBoundOnlyParameters).2.frequencyGovernor ∈ d.getAvailableGovernors) ∧
    (validate missingGovernorParameters).1 = .returned .VALIDATION_GOVERNOR_UNSUPPORTED :=
  ⟨((validate_governor_unsupported upperBoundOnlyParameters).1 (by decide)).2,
   ((validate_governor_unsupported missingGovernorParameters).2
      (by unfold thresholdsRejected; decide)
      (by unfold passesStrategyChecks; decide)).2
      (Or.inr ⟨{ exampleDomain with
          domainId := 1
          availableGovernors := [.GOVERNOR_USERSPACE, .GOVERNOR_PERFORMANCE] },
        by decide, by decide⟩)⟩

theorem validate_strategyMapping (p : AdaptivityParameters) :
    (validate p).2.strategyMapping = p.strategyMapping := by
  have h := congrArg AdaptivityParameters.strategyMapping (validate_frame p).1
  exact h

theorem pushPhysicalCores_completion (k : Nat) :
    ∀ (pcs : List PhysicalCore) (l : List VirtualCore),
      (pushPhysicalCores k pcs l).1 = .returned () ∨
        (pushPhysicalCores k pcs l).1 = .threw .outOfRange := by
  intro pcs
  induction pcs with
  | nil => intro l; exact Or.inl rfl
  | cons pc rest ih =>
    intro l
    unfold pushPhysicalCores
    rcases h : pc.getVirtualCores[k]? with _ | v
    · exact Or.inr rfl
    · exact ih _

theorem pushCpus_completion (k : Nat) :
    ∀ (cpus : List Cpu) (l : List VirtualCore),
      (pushCpus k cpus l).1 = .returned () ∨ (pushCpus k cpus l).1 = .threw .outOfRange := by
  intro cpus
  induction cpus with
  | nil => intro l; exact Or.inl rfl
  | cons cpu rest ih =>
    intro l
    unfold pushCpus
    rcases h : pushPhysicalCores k cpu.getPhysicalCores l with ⟨c, l2⟩
    have hc := pushPhysicalCores_completion k cpu.getPhysicalCores l
    rw [h] at hc
    rcases c with u | e
    · exact ih _
    · rcases hc with hc | hc
      · simp at hc
      · exact Or.inr hc

theorem pushRounds_completion (cpus : List Cpu) :
    ∀ (n k : Nat) (l : List VirtualCore),
      (pushRounds cpus n k l).1 = .returned () ∨
        (pushRounds cpus n k l).1 = .threw .outOfRange := by
  intro n
  induction n with
  | zero => intro k l; exact Or.inl rfl
  | succ n ih =>
    intro k l
    unfold pushRounds
    rcases h : pushCpus k cpus l with ⟨c, l2⟩
    have hc := pushCpus_completion k cpus l
    rw [h] at hc
    rcases c with u | e
    · exact ih _ _
    · rcases hc with hc | hc
      · simp at hc
      · exact Or.inr hc

/-- The call `setUnusedVirtualCores` ends in "Not yet supported." exactly under
the mapping strategy CACHE_EFFICIENT. -/
theorem setUnusedVirtualCores_notYetSupported_iff (m : AdaptivityManagerFarm) :
    (setUnusedVirtualCores m).1 = .threw .notYetSupported ↔
      m.p.strategyMapping = .STRATEGY_MAPPING_CACHE_EFFICIENT := by
  have key : ∀ r : Completion Unit × List VirtualCore,
      (r.1 = .returned () ∨ r.1 = .threw .outOfRange) → r.1 ≠ .threw .notYetSupported := by
    rintro r (h | h) <;> rw [h] <;> simp
  unfold setUnusedVirtualCores
  rcases hm : m.p.strategyMapping
  all_goals dsimp only
  all_goals try simp
  all_goals
    split_ifs
    · simp
    · exact key _ (pushRounds_completion _ _ _ _)

/-- C12. For every parameter set whose mapping strategy is CACHE_EFFICIENT,
`validate` does not return OK, and it returns
`VALIDATION_STRATEGY_MAPPING_UNSUPPORTED` whenever the threshold test, the tests of
the frequency-strategy section (sensitivity included) and the governor test pass.
Hence on a manager whose parameters are a record accepted by `validate`,
`setUnusedVirtualCores` never ends in the "Not yet supported." failure, which it
raises exactly under CACHE_EFFICIENT. -/
theorem validate_rejects_cache_efficient (p : AdaptivityParameters) :
    (p.strategyMapping = .STRATEGY_MAPPING_CACHE_EFFICIENT →
      (validate p).1 ≠ .returned .VALIDATION_OK ∧
      (¬ thresholdsRejected p → passesStrategyChecks p →
        isFrequencyGovernorAvailable p (governorAfterStrategies p) = true →
        (validate p).1 = .returned .VALIDATION_STRATEGY_MAPPING_UNSUPPORTED)) ∧
    ((validate p).1 = .returned .VALIDATION_OK →
      ∀ m : AdaptivityManagerFarm, m.p = (validate p).2 →
        (setUnusedVirtualCores m).1 ≠ .threw .notYetSupported) ∧
    (∀ m : AdaptivityManagerFarm, (setUnusedVirtualCores m).1 = .threw .notYetSupported ↔
      m.p.strategyMapping = .STRATEGY_MAPPING_CACHE_EFFICIENT) := by
  have hno : p.strategyMapping = .STRATEGY_MAPPING_CACHE_EFFICIENT →
      (validate p).1 ≠ .returned .VALIDATION_OK :=
    fun hce hok => (passesChecksBeforeBounds_of_ok p hok).2.2.2 hce
  refine ⟨fun hce => ⟨hno hce, ?_⟩, ?_, setUnusedVirtualCores_notYetSupported_iff⟩
  · intro hr hs hg
    rw [validate_after_strategies p hr hs, if_neg (by simp [hg]), if_pos hce]
  · intro hok m hm hthrow
    have hce := (setUnusedVirtualCores_notYetSupported_iff m).1 hthrow
    rw [hm, validate_strategyMapping] at hce
    exact hno hce hok

/-- Witness for C12: `cacheEfficientParameters` is rejected with
`VALIDATION_STRATEGY_MAPPING_UNSUPPORTED`, and the manager of scenario S1, whose
parameters `validate` accepts unchanged, does not raise "Not yet supported.". -/
theorem validate_rejects_cache_efficient_witness :
    (validate cacheEfficientParameters).1 =
        .returned .VALIDATION_STRATEGY_MAPPING_UNSUPPORTED ∧
    (setUnusedVirtualCores s1Manager).1 ≠ .threw .notYetSupported :=
  ⟨((validate_rejects_cache_efficient cacheEfficientParameters).1 rfl).2
      (by unfold thresholdsRejected; decide)
      (by unfold passesStrategyChecks; decide)
      (by decide),
   (validate_rejects_cache_efficient s1Manager.p).2.1 (by decide) s1Manager (by decide)⟩

/-- C13, as stated, fails.  Under the POWER_CONSERVATIVE strategy `validate`
returns OK and has replaced the governor ONDEMAND by USERSPACE; under strategy OS
with only the upper bound given it returns OK and has replaced the lower bound 0
by 1.0 GHz, and with only the lower bound given it has replaced the upper bound 0
by 2.0 GHz. -/
theorem validate_not_pure_counterexample :
    ((validate ondemandConservativeParameters).1 = .returned .VALIDATION_OK ∧
      ondemandConservativeParameters.frequencyGovernor = .GOVERNOR_ONDEMAND ∧
      (validate ondemandConservativeParameters).2.frequencyGovernor = .GOVERNOR_USERSPACE) ∧
    ((validate upperBoundOnlyParameters).1 = .returned .VALIDATION_OK ∧
      upperBoundOnlyParameters.frequencyLowerBound = 0 ∧
      (validate upperBoundOnlyParameters).2.frequencyLowerBound = 1000000) ∧
    ((validate lowerBoundOnlyParameters).1 = .returned .VALIDATION_OK ∧
      lowerBoundOnlyParameters.frequencyUpperBound = 0 ∧
      (validate lowerBoundOnlyParameters).2.frequencyUpperBound = 2000000) := by
  decide

/-- C13, amended.  A call of `validate` leaves every field of the parameter
record other than `frequencyGovernor`, `frequencyLowerBound` and
`frequencyUpperBound` equal to its value before the call.  The governor is either
unchanged or USERSPACE, the latter only under a frequency strategy other than NO
and OS; each bound is either unchanged or, when it was 0 under strategy OS, an
available frequency of the first domain.  The record is left unchanged under
strategy NO, and under strategy OS when both bounds are given. -/
theorem validate_frame_effect (p : AdaptivityParameters) :
    (validate p).2 =
      { p with
        frequencyGovernor := (validate p).2.frequencyGovernor
        frequencyLowerBound := (validate p).2.frequencyLowerBound
        frequencyUpperBound := (validate p).2.frequencyUpperBound } ∧
    ((validate p).2.frequencyGovernor = p.frequencyGovernor ∨
      ((validate p).2.frequencyGovernor = .GOVERNOR_USERSPACE ∧
        p.strategyFrequencies ≠ .STRATEGY_FREQUENCY_NO ∧
        p.strategyFrequencies ≠ .STRATEGY_FREQUENCY_OS)) ∧
    ((validate p).2.frequencyLowerBound = p.frequencyLowerBound ∨
      (p.frequencyLowerBound = 0 ∧ p.strategyFrequencies = .STRATEGY_FREQUENCY_OS ∧
        (validate p).2.frequencyLowerBound ∈ firstDomainFrequencies p)) ∧
    ((validate p).2.frequencyUpperBound = p.frequencyUpperBound ∨
      (p.frequencyUpperBound = 0 ∧ p.strategyFrequencies = .STRATEGY_FREQUENCY_OS ∧
        (validate p).2.frequencyUpperBound ∈ firstDomainFrequencies p)) ∧
    (p.strategyFrequencies = .STRATEGY_FREQUENCY_NO → (validate p).2 = p) ∧
    (p.strategyFrequencies = .STRATEGY_FREQUENCY_OS → p.frequencyLowerBound ≠ 0 →
      p.frequencyUpperBound ≠ 0 → (validate p).2 = p) := by
  obtain ⟨h1, h2, h3, h4⟩ := validate_frame p
  refine ⟨h1, h2, h3, h4, ?_, ?_⟩
  · intro hno
    have g : (validate p).2.frequencyGovernor = p.frequencyGovernor := by
      rcases h2 with h | ⟨-, h, -⟩
      · exact h
      · exact absurd hno h
    have l : (validate p).2.frequencyLowerBound = p.frequencyLowerBound := by
      rcases h3 with h | ⟨-, h, -⟩
      · exact h
      · rw [hno] at h
        exact absurd h (by decide)
    have u : (validate p).2.frequencyUpperBound = p.frequencyUpperBound := by
      rcases h4 with h | ⟨-, h, -⟩
      · exact h
      · rw [hno] at h
        exact absurd h (by decide)
    rw [g, l, u] at h1
    exact h1
  · intro hos hl hu
    have g : (validate p).2.frequencyGovernor = p.frequencyGovernor := by
      rcases h2 with h | ⟨-, -, h⟩
      · exact h
      · exact absurd hos h
    have l : (validate p).2.frequencyLowerBound = p.frequencyLowerBound := by
      rcases h3 with h | ⟨h, -, -⟩
      · exact h
      · exact absurd h hl
    have u : (validate p).2.frequencyUpperBound = p.frequencyUpperBound := by
      rcases h4 with h | ⟨h, -, -⟩
      · exact h
      · exact absurd h hu
    rw [g, l, u] at h1
    exact h1

/-- Witness for C13 (amended): the constructor defaults (strategy NO) are left
unchanged by `validate`. -/
theorem validate_frame_effect_witness :
    (validate (defaultParameters ⟨[exampleDomain]⟩ ⟨[]⟩)).2 =
      defaultParameters ⟨[exampleDomain]⟩ ⟨[]⟩ :=
  (validate_frame_effect (defaultParameters ⟨[exampleDomain]⟩ ⟨[]⟩)).2.2.2.2.1 rfl

/-! ## Theorems on the OS mapping -/

/-- The sensitive section, with the scalable prefix of lines 283-285 named. -/
theorem mapSensitiveStages_scalableVirtualCores (m : AdaptivityManagerFarm)
    (l : MappingLocals) :
    mapSensitiveStages m l =
      if m.p.strategyFrequencies ≠ .STRATEGY_FREQUENCY_NO ∧
          (m.p.sensitiveEmitter || m.p.sensitiveCollector) then
        let performancePhysicalCores :=
          getSeparatedDomainPhysicalCores m (scalableVirtualCores m l)
        if performancePhysicalCores.length ≠ 0 then
          match mapSensitiveEmitter m l performancePhysicalCores 0 with
          | (.threw e, m, _, _) => (.threw e, m)
          | (.returned _, m, l, index) =>
            match mapSensitiveCollector m l performancePhysicalCores index with
            | (.threw e, m, _, _) => (.threw e, m)
            | (.returned _, m, l, _) => (.returned l, m)
        else (.returned l, m)
      else (.returned l, m) := rfl

theorem setVirtualCoreToHighestFrequency_workers (m : AdaptivityManagerFarm)
    (vc : Option VirtualCore) :
    (setVirtualCoreToHighestFrequency m vc).2.unusedVirtualCores = m.unusedVirtualCores ∧
    (setVirtualCoreToHighestFrequency m vc).2.workers = m.workers := by
  unfold setVirtualCoreToHighestFrequency
  split
  · exact ⟨rfl, rfl⟩
  · dsimp only
    split_ifs <;> exact ⟨rfl, rfl⟩

theorem placeSensitiveStage_workers (m : AdaptivityManagerFarm)
    (pcs : List PhysicalCore) (index : Nat) :
    (placeSensitiveStage m pcs index).2.unusedVirtualCores = m.unusedVirtualCores ∧
    (placeSensitiveStage m pcs index).2.workers = m.workers := by
  unfold placeSensitiveStage
  split
  · exact ⟨rfl, rfl⟩
  · dsimp only
    have h := setVirtualCoreToHighestFrequency_workers m
      (PhysicalCore.getVirtualCore ‹PhysicalCore›)
    split
    · rename_i heq
      rw [heq] at h
      exact h
    · rename_i heq
      rw [heq] at h
      exact h

theorem mapSensitiveEmitter_workers (m : AdaptivityManagerFarm) (l : MappingLocals)
    (pcs : List PhysicalCore) (index : Nat) :
    (mapSensitiveEmitter m l pcs index).2.1.unusedVirtualCores = m.unusedVirtualCores ∧
    (mapSensitiveEmitter m l pcs index).2.1.workers = m.workers := by
  unfold mapSensitiveEmitter
  split_ifs
  · have h := placeSensitiveStage_workers m pcs index
    split
    · rename_i heq
      rw [heq] at h
      exact h
    · rename_i heq
      rw [heq] at h
      exact h
  · exact ⟨rfl, rfl⟩

theorem mapSensitiveCollector_workers (m : AdaptivityManagerFarm) (l : MappingLocals)
    (pcs : List PhysicalCore) (index : Nat) :
    (mapSensitiveCollector m l pcs index).2.1.unusedVirtualCores = m.unusedVirtualCores ∧
    (mapSensitiveCollector m l pcs index).2.1.workers = m.workers := by
  unfold mapSensitiveCollector
  split_ifs
  · have h := placeSensitiveStage_workers m pcs index
    split
    · rename_i heq
      rw [heq] at h
      exact h
    · rename_i heq
      rw [heq] at h
      exact h
  · exact ⟨rfl, rfl⟩

/-- The sensitive section leaves the candidate list and the workers as they
are. -/
theorem mapSensitiveStages_workers (m : AdaptivityManagerFarm) (l : MappingLocals) :
    (mapSensitiveStages m l).2.unusedVirtualCores = m.unusedVirtualCores ∧
    (mapSensitiveStages m l).2.workers = m.workers := by
  rw [mapSensitiveStages_scalableVirtualCores]
  dsimp only
  split_ifs
  · have h1 := mapSensitiveEmitter_workers m l
      (getSeparatedDomainPhysicalCores m (scalableVirtualCores m l)) 0
    split
    · rename_i heq
      rw [heq] at h1
      exact h1
    · rename_i m1 l1 index heq
      rw [heq] at h1
      have h2 := mapSensitiveCollector_workers m1 l1
        (getSeparatedDomainPhysicalCores m (scalableVirtualCores m l)) index
      split
      · rename_i heq2
        rw [heq2] at h2
        exact ⟨h2.1.trans h1.1, h2.2.trans h1.2⟩
      · rename_i heq2
        rw [heq2] at h2
        exact ⟨h2.1.trans h1.1, h2.2.trans h1.2⟩
  · exact ⟨rfl, rfl⟩
  · exact ⟨rfl, rfl⟩

/-- Under the OS mapping a fresh manager of a farm with at least one worker
never completes `mapAndSetFrequencies`: the candidate list stays empty and the
EWC assignment fails on it. -/
theorem mapAndSetFrequencies_os_not_returned (m : AdaptivityManagerFarm)
    (hos : m.p.strategyMapping = .STRATEGY_MAPPING_OS)
    (hun : m.unusedVirtualCores = []) (hw : m.workers ≠ []) :
    (mapAndSetFrequencies m).1 ≠ .returned () := by
  have h1 : setUnusedVirtualCores m = (.returned (), m) := by
    unfold setUnusedVirtualCores
    rw [hos]
  unfold mapAndSetFrequencies
  rw [if_neg (by rw [hos]; decide), h1]
  simp only [andThen]
  have f2 := mapSensitiveStages_workers m (initialLocals m)
  unfold initialLocals at f2
  rcases h2 : mapSensitiveStages m
      { emitterMappingRequired := m.farm.getEmitter.isSome
        collectorMappingRequired := m.farm.getCollector.isSome
        frequencyScalableVirtualCores := [] } with ⟨la | e, mb⟩
  swap
  · simp
  rw [h2] at f2
  dsimp only at f2 ⊢
  obtain ⟨fu, fw⟩ := f2
  rw [hun] at fu
  have hlen : 0 < mb.workers.length := by
    rw [fw]
    exact List.length_pos.2 hw
  have h3 : ∃ e, (mapRemainingStages mb la).1 = .threw e := by
    unfold mapRemainingStages mapEmitter
    by_cases he : la.emitterMappingRequired = true
    · rw [if_pos he, fu]
      exact ⟨_, rfl⟩
    · rw [if_neg he]
      dsimp only
      unfold mapWorkers
      dsimp only
      rw [fu]
      rw [if_pos (by simpa using hlen)]
      exact ⟨_, rfl⟩
  obtain ⟨e, he⟩ := h3
  rcases h4 : mapRemainingStages mb la with ⟨lb | e2, mc⟩
  · rw [h4] at he
    simp at he
  · simp

/-- C14 fails on the code.  The constructor defaults (mapping OS) are accepted by
`validate`, unchanged; on a farm of two workers `mapAndSetFrequencies` then ends
in `std::out_of_range` (`_unusedVirtualCores.at(0)` on the empty list) before any
platform call, and on a farm of an emitter alone it reads `front()` of the empty
list.  Under the mapping strategy NO the same farm completes with no call. -/
theorem mapAndSetFrequencies_os_mapping_fails :
    validate osMappingParameters = (.returned .VALIDATION_OK, osMappingParameters) ∧
    osMappingParameters.strategyMapping = .STRATEGY_MAPPING_OS ∧
    (setUnusedVirtualCores osMappingWorkers).2.unusedVirtualCores = [] ∧
    (mapAndSetFrequencies osMappingWorkers).1 = .threw .outOfRange ∧
    (mapAndSetFrequencies osMappingWorkers).2.calls = [] ∧
    (mapAndSetFrequencies osMappingEmitter).1 = .threw .undefinedBehaviour ∧
    (mapAndSetFrequencies osMappingEmitter).2.calls = [] ∧
    mapAndSetFrequencies noMappingWorkers = (.returned (), noMappingWorkers) := by
  decide

/-! ## Theorems on the thread handler of an adaptive node -/

theorem initMammutModules_thread (node : AdaptiveNode) (communicator : Option Nat)
    (remote : Nat → Option Nat) (localTasksManager : Option Nat) :
    (node.initMammutModules communicator remote localTasksManager).thread = node.thread ∧
    (node.initMammutModules communicator remote localTasksManager).threadCreated =
      node.threadCreated := by
  unfold AdaptiveNode.initMammutModules
  cases communicator <;> exact ⟨rfl, rfl⟩

theorem initMammutModulesRuns_thread :
    ∀ (cs : List (Option Nat × Option Nat × Option Nat)) (node : AdaptiveNode),
      (initMammutModulesRuns node cs).thread = node.thread ∧
      (initMammutModulesRuns node cs).threadCreated = node.threadCreated := by
  intro cs
  induction cs with
  | nil => intro node; exact ⟨rfl, rfl⟩
  | cons c rest ih =>
    intro node
    obtain ⟨communicator, remote, localTasksManager⟩ := c
    unfold initMammutModulesRuns
    obtain ⟨h1, h2⟩ := ih (node.initMammutModules communicator (fun _ => remote) localTasksManager)
    obtain ⟨e1, e2⟩ := initMammutModules_thread node communicator (fun _ => remote)
      localTasksManager
    exact ⟨h1.trans e1, h2.trans e2⟩

theorem svc_init_of_threadCreated (node : AdaptiveNode) (handler : Nat) (hook : Int)
    (h : node.threadCreated = true) :
    node.svc_init handler hook = (.returned hook, node, []) := by
  unfold AdaptiveNode.svc_init
  rw [if_neg (by simp [h])]

theorem svcInitRuns_of_threadCreated :
    ∀ (later : List (Nat × Int)) (node : AdaptiveNode), node.threadCreated = true →
      svcInitRuns node later = (node, [], true) := by
  intro later
  induction later with
  | nil => intro node _; rfl
  | cons c rest ih =>
    intro node h
    obtain ⟨handler, hook⟩ := c
    unfold svcInitRuns
    rw [svc_init_of_threadCreated node handler hook h]
    dsimp only
    rw [ih node h]
    simp

/-- C15. `getThreadHandler` fails with "Thread not initialized." exactly when
the thread handler of the node is unset, and it is unset on every node on which
`svc_init` has never run (a constructed node, after any calls of
`initMammutModules`); a `svc_init` without tasks manager throws and leaves it
unset.  A first `svc_init` with the tasks manager attached returns the value of
the hook, acquires the handler and fires the signal once; after it
`getThreadHandler` returns that handler, and every run of later `svc_init` calls
leaves the node as it is, acquires no handler, fires no signal, and returns the
value of the hook. -/
theorem svc_init_thread_handler (node : AdaptiveNode) :
    (node.getThreadHandler = .threw .threadNotInitialized ↔ node.thread = none) ∧
    (∀ thread : Nat, node.getThreadHandler = .returned thread ↔ node.thread = some thread) ∧
    (∀ cs, (initMammutModulesRuns AdaptiveNode.construct cs).getThreadHandler =
      .threw .threadNotInitialized) ∧
    (∀ (handler : Nat) (hook : Int), node.threadCreated = false → node.tasksManager = none →
      node.svc_init handler hook = (.threw .tasksManagerNotInitialized, node, [])) ∧
    (∀ (handler : Nat) (hook : Int), node.threadCreated = false → node.tasksManager ≠ none →
      (node.svc_init handler hook).1 = .returned hook ∧
      (node.svc_init handler hook).2.2 = [.handlerAcquired handler, .threadCreatedNotified] ∧
      (node.svc_init handler hook).2.1.getThreadHandler = .returned handler ∧
      ∀ later : List (Nat × Int),
        svcInitRuns (node.svc_init handler hook).2.1 later =
          ((node.svc_init handler hook).2.1, [], true) ∧
        (svcInitRuns (node.svc_init handler hook).2.1 later).1.getThreadHandler =
          .returned handler) := by
  have hget : ∀ n : AdaptiveNode,
      (n.getThreadHandler = .threw .threadNotInitialized ↔ n.thread = none) := by
    intro n
    unfold AdaptiveNode.getThreadHandler
    rcases n.thread with _ | t <;> simp
  refine ⟨hget node, ?_, ?_, ?_, ?_⟩
  · intro thread
    unfold AdaptiveNode.getThreadHandler
    rcases node.thread with _ | t <;> simp
  · intro cs
    rw [hget, (initMammutModulesRuns_thread cs AdaptiveNode.construct).1]
    rfl
  · intro handler hook hc ht
    unfold AdaptiveNode.svc_init
    rw [if_pos (by simp [hc]), ht]
  · intro handler hook hc ht
    rcases htm : node.tasksManager with _ | tm
    · exact absurd htm ht
    have hs : node.svc_init handler hook =
        (.returned hook,
          { node with thread := some handler, threadCreated := true },
          [.handlerAcquired handler, .threadCreatedNotified]) := by
      unfold AdaptiveNode.svc_init Monitor.notifyOne
      rw [if_pos (by simp [hc]), htm]
    rw [hs]
    refine ⟨rfl, rfl, rfl, ?_⟩
    intro later
    have hr := svcInitRuns_of_threadCreated later
      { node with thread := some handler, threadCreated := true } rfl
    dsimp only
    rw [hr]
    exact ⟨rfl, rfl⟩

/-- Witness for C15: a constructed node with the tasks manager 0 attached runs
`svc_init` with handler 7 and then twice more, with other handlers on offer. -/
theorem svc_init_thread_handler_witness :
    (((AdaptiveNode.construct.initMammutModules none (fun _ => none) (some 0)).svc_init
        7 0).2.1.getThreadHandler = .returned 7) ∧
    (svcInitRuns ((AdaptiveNode.construct.initMammutModules none (fun _ => none)
        (some 0)).svc_init 7 0).2.1 [(8, 0), (9, 0)]).1.getThreadHandler = .returned 7 ∧
    (svcInitRuns ((AdaptiveNode.construct.initMammutModules none (fun _ => none)
        (some 0)).svc_init 7 0).2.1 [(8, 0), (9, 0)]).2.1 = [] :=
  have h := (svc_init_thread_handler
    (AdaptiveNode.construct.initMammutModules none (fun _ => none) (some 0))).2.2.2.2 7 0
    rfl (by decide)
  ⟨h.2.2.1, (h.2.2.2 [(8, 0), (9, 0)]).2,
    congrArg (fun r => r.2.1) (h.2.2.2 [(8, 0), (9, 0)]).1⟩

/-! ## Theorems on the unused VirtualCores -/

theorem hotUnplugAll_of_hotPluggable :
    ∀ (vcs : List VirtualCore) (m : AdaptivityManagerFarm),
      (∀ vc ∈ vcs, vc.isHotPluggable = true) →
      hotUnplugAll vcs m = { m with calls := m.calls ++ vcs.map .hotUnplug } := by
  intro vcs
  induction vcs with
  | nil => intro m _; simp [hotUnplugAll]
  | cons vc rest ih =>
    intro m h
    unfold hotUnplugAll
    rw [if_pos (h vc (List.mem_cons_self _ _)),
      ih _ (fun v hv => h v (List.mem_cons_of_mem _ hv))]
    simp

/-- C16. `computeAutoUnusedVCStrategy` returns OFF exactly when some VirtualCore
of the list is hot-pluggable; otherwise LOWEST_FREQUENCY exactly when the
POWERSAVE or the USERSPACE governor is available; otherwise NONE; never AUTO.
When the strategy is AUTO and the unused list is not empty and holds only
hot-pluggable VirtualCores (S6), lines 345-349 of `mapAndSetFrequencies` store
OFF and issue `hotUnplug` on every unused VirtualCore, in order, and nothing
else. -/
theorem computeAutoUnusedVCStrategy_spec (m : AdaptivityManagerFarm)
    (virtualCores : List VirtualCore) :
    (computeAutoUnusedVCStrategy m virtualCores = .STRATEGY_UNUSED_VC_OFF ↔
      ∃ vc ∈ virtualCores, vc.isHotPluggable = true) ∧
    (computeAutoUnusedVCStrategy m virtualCores = .STRATEGY_UNUSED_VC_LOWEST_FREQUENCY ↔
      (¬ ∃ vc ∈ virtualCores, vc.isHotPluggable = true) ∧
      (m.p.cpufreq.isGovernorAvailable .GOVERNOR_POWERSAVE = true ∨
        m.p.cpufreq.isGovernorAvailable .GOVERNOR_USERSPACE = true)) ∧
    (computeAutoUnusedVCStrategy m virtualCores = .STRATEGY_UNUSED_VC_NONE ↔
      (¬ ∃ vc ∈ virtualCores, vc.isHotPluggable = true) ∧
      ¬ (m.p.cpufreq.isGovernorAvailable .GOVERNOR_POWERSAVE = true ∨
        m.p.cpufreq.isGovernorAvailable .GOVERNOR_USERSPACE = true)) ∧
    computeAutoUnusedVCStrategy m virtualCores ≠ .STRATEGY_UNUSED_VC_AUTO ∧
    (m.p.strategyNeverUsedVirtualCores = .STRATEGY_UNUSED_VC_AUTO →
      m.unusedVirtualCores ≠ [] →
      (∀ vc ∈ m.unusedVirtualCores, vc.isHotPluggable = true) →
      computeAutoUnusedVCStrategy m m.unusedVirtualCores = .STRATEGY_UNUSED_VC_OFF ∧
      (treatUnusedVirtualCores m).1 = .returned () ∧
      (treatUnusedVirtualCores m).2.p.strategyNeverUsedVirtualCores =
        .STRATEGY_UNUSED_VC_OFF ∧
      (treatUnusedVirtualCores m).2.calls =
        m.calls ++ m.unusedVirtualCores.map .hotUnplug) := by
  have hany : ∀ vcs : List VirtualCore,
      (vcs.any (fun vc => vc.isHotPluggable) = true ↔ ∃ vc ∈ vcs, vc.isHotPluggable = true) := by
    intro vcs
    simp
  have hoff : ∀ vcs : List VirtualCore, (∃ vc ∈ vcs, vc.isHotPluggable = true) →
      computeAutoUnusedVCStrategy m vcs = .STRATEGY_UNUSED_VC_OFF := by
    intro vcs h
    unfold computeAutoUnusedVCStrategy
    rw [if_pos ((hany vcs).2 h)]
  refine ⟨?_, ?_, ?_, ?_, ?_⟩
  · unfold computeAutoUnusedVCStrategy
    rw [← hany]
    split_ifs with h1 h2 <;> simp [h1]
  · unfold computeAutoUnusedVCStrategy
    rw [← hany]
    split_ifs with h1 h2
    · simp [h1]
    · simp only [Bool.or_eq_true] at h2
      simp [h1, h2]
    · simp only [Bool.or_eq_true] at h2
      simp [h1, h2]
  · unfold computeAutoUnusedVCStrategy
    rw [← hany]
    split_ifs with h1 h2
    · simp [h1]
    · simp only [Bool.or_eq_true] at h2
      simp [h1, h2]
    · simp only [Bool.or_eq_true] at h2
      simp [h1, h2]
  · unfold computeAutoUnusedVCStrategy
    split_ifs <;> simp
  · intro hauto hne hall
    have hex : ∃ vc ∈ m.unusedVirtualCores, vc.isHotPluggable = true := by
      rcases hl : m.unusedVirtualCores with _ | ⟨vc, rest⟩
      · exact absurd hl hne
      · exact ⟨vc, List.mem_cons_self _ _, hall vc (by rw [hl]; exact List.mem_cons_self _ _)⟩
    have hc := hoff m.unusedVirtualCores hex
    have ht : treatUnusedVirtualCores m =
        (.returned (), hotUnplugAll m.unusedVirtualCores
          { m with p := { m.p with strategyNeverUsedVirtualCores := .STRATEGY_UNUSED_VC_OFF } }) := by
      unfold treatUnusedVirtualCores
      dsimp only
      rw [if_pos hauto, hc]
      rfl
    rw [ht, hotUnplugAll_of_hotPluggable _ _ hall]
    exact ⟨hc, rfl, rfl, rfl⟩

/-- Witness for C16: scenario S6.  The section "Perform mapping" leaves `s6Start`
in the state `s6Manager`; the VirtualCores 2 and 3 are then unplugged. -/
theorem computeAutoUnusedVCStrategy_spec_witness :
    (mapAndSetFrequencies s6Start).2.unusedVirtualCores = s6Manager.unusedVirtualCores ∧
    (treatUnusedVirtualCores s6Manager).2.p.strategyNeverUsedVirtualCores =
      .STRATEGY_UNUSED_VC_OFF ∧
    (treatUnusedVirtualCores s6Manager).2.calls =
      [.move 1 (some (hotPluggableCore 0)), .move 2 (some (hotPluggableCore 1)),
        .hotUnplug (hotPluggableCore 2), .hotUnplug (hotPluggableCore 3)] ∧
    (mapAndSetFrequencies s6Start).2.calls = (treatUnusedVirtualCores s6Manager).2.calls :=
  have h := (computeAutoUnusedVCStrategy_spec s6Manager s6Manager.unusedVirtualCores).2.2.2.2
    rfl (by decide) (by decide)
  ⟨by decide, h.2.2.1, h.2.2.2, by decide⟩

/-! ## Theorems on the estimates -/

/-- C17 fails on the code.  In scenario S3 (bandwidth contract, two workers at
2.0 GHz) the estimate for the pair (2.0 GHz, 1 worker) at a monitored bandwidth
of 500 is 1000 where the formula of the claim gives 250; for (1.5 GHz, 1 worker)
it is 0 where the formula gives 375/2; and for the current pair (2.0 GHz, 2
workers) it is 2000, not 500. -/
theorem getEstimatedMonitoredValue_bandwidth_diverges :
    (validate s3Parameters).1 = .returned .VALIDATION_OK ∧
    s3Manager.p.requiredBandwidth ≠ 0 ∧
    s3Manager.currentFrequency = 2000000 ∧
    s3Manager.currentNumWorkers = 2 ∧
    getEstimatedMonitoredValue s3Manager 500 2000000 1 = .returned 1000 ∧
    (500 : ℚ) * (2000000 * 1) / (2000000 * 2) = 250 ∧
    getEstimatedMonitoredValue s3Manager 500 1500000 1 = .returned 0 ∧
    (500 : ℚ) * (1500000 * 1) / (2000000 * 2) = 375 / 2 ∧
    getEstimatedMonitoredValue s3Manager 500 2000000 2 = .returned 2000 ∧
    (500 : ℚ) * (2000000 * 2) / (2000000 * 2) = 500 := by
  have h1 : s3Manager.currentFrequency = 2000000 := by decide
  have h2 : s3Manager.currentNumWorkers = 2 := by decide
  have h4 : s3Manager.p.requiredBandwidth = 1000 := by decide
  refine ⟨by decide, by rw [h4]; norm_num, h1, h2, ?_, by norm_num, ?_, by norm_num, ?_,
    by norm_num⟩
  · norm_num [getEstimatedMonitoredValue, h1, h2, h4]
  · norm_num [getEstimatedMonitoredValue, h1, h2, h4]
  · norm_num [getEstimatedMonitoredValue, h1, h2, h4]

/-- C18 fails on the code.  Under a load contract with two workers at 2.0 GHz
the estimate for the pair (1.5 GHz, 1 worker) at a monitored load of 85 is
85 * 2 = 170, the quotient 4000000 / 1500000 being taken on integers, where the
exact value is 680/3. -/
theorem getEstimatedMonitoredValue_load_rounds :
    (validate loadParameters).1 = .returned .VALIDATION_OK ∧
    loadManager.p.requiredBandwidth = 0 ∧
    loadManager.currentFrequency = 2000000 ∧
    loadManager.currentNumWorkers = 2 ∧
    getEstimatedMonitoredValue loadManager 85 1500000 1 = .returned 170 ∧
    (85 : ℚ) * (2000000 * 2) / (1500000 * 1) = 680 / 3 := by
  have h1 : loadManager.currentFrequency = 2000000 := by decide
  have h2 : loadManager.currentNumWorkers = 2 := by decide
  have h4 : loadManager.p.requiredBandwidth = 0 := by decide
  refine ⟨by decide, h4, h1, h2, ?_, by norm_num⟩
  norm_num [getEstimatedMonitoredValue, h1, h2, h4]

/-! ## Theorems on the scalable candidates -/

/-- The count computed at lines 279-281 never exceeds 1. -/
theorem scalableVirtualCoresNum_le_one (m : AdaptivityManagerFarm) (l : MappingLocals) :
    scalableVirtualCoresNum m l ≤ 1 := by
  unfold scalableVirtualCoresNum
  split_ifs <;> omega

/-- C19 fails on the code.  With a sensitive emitter and two workers on two
candidate VirtualCores the sensitive branch is entered, the count of the claim is
min(2, 2 + 0 + 0) = 2, and the code computes 1 and takes the prefix of length
1. -/
theorem scalableVirtualCores_too_short :
    (validate sensitiveEmitterParameters).1 = .returned .VALIDATION_OK ∧
    (sensitiveEmitterTwoWorkers.p.strategyFrequencies ≠ .STRATEGY_FREQUENCY_NO ∧
      sensitiveEmitterTwoWorkers.p.sensitiveEmitter = true) ∧
    (setUnusedVirtualCores sensitiveEmitterTwoWorkers).2.unusedVirtualCores =
      [core 0, core 1] ∧
    scalableCandidatesCount (setUnusedVirtualCores sensitiveEmitterTwoWorkers).2
      (initialLocals (setUnusedVirtualCores sensitiveEmitterTwoWorkers).2) = 2 ∧
    scalableVirtualCoresNum (setUnusedVirtualCores sensitiveEmitterTwoWorkers).2
      (initialLocals (setUnusedVirtualCores sensitiveEmitterTwoWorkers).2) = 1 ∧
    scalableVirtualCores (setUnusedVirtualCores sensitiveEmitterTwoWorkers).2
      (initialLocals (setUnusedVirtualCores sensitiveEmitterTwoWorkers).2) = [core 0] := by
  decide

/-! ## Theorems on the initial P-state -/

theorem sameFrequencyState_refl (m : AdaptivityManagerFarm) : sameFrequencyState m m :=
  ⟨rfl, rfl, rfl, rfl⟩

theorem sameFrequencyState_trans {a b c : AdaptivityManagerFarm}
    (h1 : sameFrequencyState a b) (h2 : sameFrequencyState b c) : sameFrequencyState a c :=
  ⟨h1.1.trans h2.1, h1.2.1.trans h2.2.1, h1.2.2.1.trans h2.2.2.1, h1.2.2.2.trans h2.2.2.2⟩

theorem andThen_sameFrequencyState (r : Completion Unit × AdaptivityManagerFarm)
    (k : AdaptivityManagerFarm → Completion Unit × AdaptivityManagerFarm)
    (hk : ∀ m, sameFrequencyState (k m).2 m) : sameFrequencyState (andThen r k).2 r.2 := by
  rcases r with ⟨_ | e, s⟩
  · exact hk s
  · exact sameFrequencyState_refl s

theorem setUnusedVirtualCores_sameFrequencyState (m : AdaptivityManagerFarm) :
    sameFrequencyState (setUnusedVirtualCores m).2 m := by
  rw [setUnusedVirtualCores_frame m]
  exact ⟨rfl, rfl, rfl, rfl⟩

theorem setVirtualCoreToHighestFrequency_sameFrequencyState (m : AdaptivityManagerFarm)
    (vc : Option VirtualCore) :
    sameFrequencyState (setVirtualCoreToHighestFrequency m vc).2 m := by
  unfold setVirtualCoreToHighestFrequency
  split
  · exact sameFrequencyState_refl m
  · dsimp only
    split_ifs <;> exact ⟨rfl, rfl, rfl, rfl⟩

theorem placeSensitiveStage_sameFrequencyState (m : AdaptivityManagerFarm)
    (pcs : List PhysicalCore) (index : Nat) :
    sameFrequencyState (placeSensitiveStage m pcs index).2 m := by
  unfold placeSensitiveStage
  split
  · exact sameFrequencyState_refl m
  · dsimp only
    have h := setVirtualCoreToHighestFrequency_sameFrequencyState m
      (PhysicalCore.getVirtualCore ‹PhysicalCore›)
    split
    · rename_i heq
      rw [heq] at h
      exact h
    · rename_i heq
      rw [heq] at h
      exact h

theorem mapSensitiveEmitter_sameFrequencyState (m : AdaptivityManagerFarm) (l : MappingLocals)
    (pcs : List PhysicalCore) (index : Nat) :
    sameFrequencyState (mapSensitiveEmitter m l pcs index).2.1 m := by
  unfold mapSensitiveEmitter
  split_ifs
  · have h := placeSensitiveStage_sameFrequencyState m pcs index
    split
    · rename_i heq
      rw [heq] at h
      exact h
    · rename_i heq
      rw [heq] at h
      exact sameFrequencyState_trans ⟨rfl, rfl, rfl, rfl⟩ h
  · exact sameFrequencyState_refl m

theorem mapSensitiveCollector_sameFrequencyState (m : AdaptivityManagerFarm)
    (l : MappingLocals) (pcs : List PhysicalCore) (index : Nat) :
    sameFrequencyState (mapSensitiveCollector m l pcs index).2.1 m := by
  unfold mapSensitiveCollector
  split_ifs
  · have h := placeSensitiveStage_sameFrequencyState m pcs index
    split
    · rename_i heq
      rw [heq] at h
      exact h
    · rename_i heq
      rw [heq] at h
      exact sameFrequencyState_trans ⟨rfl, rfl, rfl, rfl⟩ h
  · exact sameFrequencyState_refl m

theorem mapSensitiveStages_sameFrequencyState (m : AdaptivityManagerFarm) (l : MappingLocals) :
    sameFrequencyState (mapSensitiveStages m l).2 m := by
  unfold mapSensitiveStages
  dsimp only
  split_ifs
  · have h1 := mapSensitiveEmitter_sameFrequencyState m l
      (getSeparatedDomainPhysicalCores m (List.take (scalableVirtualCoresNum m l)
        m.unusedVirtualCores)) 0
    split
    · rename_i heq
      rw [heq] at h1
      exact h1
    · rename_i m1 l1 index heq
      rw [heq] at h1
      have h2 := mapSensitiveCollector_sameFrequencyState m1 l1
        (getSeparatedDomainPhysicalCores m (List.take (scalableVirtualCoresNum m l)
          m.unusedVirtualCores)) index
      split
      · rename_i heq2
        rw [heq2] at h2
        exact sameFrequencyState_trans h2 h1
      · rename_i heq2
        rw [heq2] at h2
        exact sameFrequencyState_trans h2 h1
  · exact sameFrequencyState_refl m
  · have h1 := mapSensitiveEmitter_sameFrequencyState m l
      (getSeparatedDomainPhysicalCores m m.unusedVirtualCores) 0
    split
    · rename_i heq
      rw [heq] at h1
      exact h1
    · rename_i m1 l1 index heq
      rw [heq] at h1
      have h2 := mapSensitiveCollector_sameFrequencyState m1 l1
        (getSeparatedDomainPhysicalCores m m.unusedVirtualCores) index
      split
      · rename_i heq2
        rw [heq2] at h2
        exact sameFrequencyState_trans h2 h1
      · rename_i heq2
        rw [heq2] at h2
        exact sameFrequencyState_trans h2 h1
  · exact sameFrequencyState_refl m
  · exact sameFrequencyState_refl m

theorem mapEmitter_sameFrequencyState (m : AdaptivityManagerFarm) (l : MappingLocals) :
    sameFrequencyState (mapEmitter m l).2 m := by
  unfold mapEmitter
  split_ifs
  · split <;> exact ⟨rfl, rfl, rfl, rfl⟩
  · exact sameFrequencyState_refl m

theorem mapWorkers_sameFrequencyState (m : AdaptivityManagerFarm) (l : MappingLocals) :
    sameFrequencyState (mapWorkers m l).2 m := by
  unfold mapWorkers
  dsimp only
  split_ifs <;> exact ⟨rfl, rfl, rfl, rfl⟩

theorem mapCollector_sameFrequencyState (m : AdaptivityManagerFarm) (l : MappingLocals) :
    sameFrequencyState (mapCollector m l).2 m := by
  unfold mapCollector
  split_ifs
  · split <;> exact ⟨rfl, rfl, rfl, rfl⟩
  · exact sameFrequencyState_refl m

theorem mapRemainingStages_sameFrequencyState (m : AdaptivityManagerFarm)
    (l : MappingLocals) : sameFrequencyState (mapRemainingStages m l).2 m := by
  unfold mapRemainingStages
  have h1 := mapEmitter_sameFrequencyState m l
  split
  · rename_i heq
    rw [heq] at h1
    exact h1
  · rename_i l1 m1 heq
    rw [heq] at h1
    have h2 := mapWorkers_sameFrequencyState m1 l1
    split
    · rename_i heq2
      rw [heq2] at h2
      exact sameFrequencyState_trans h2 h1
    · rename_i l2 m2 heq2
      rw [heq2] at h2
      exact sameFrequencyState_trans (mapCollector_sameFrequencyState m2 l2)
        (sameFrequencyState_trans h2 h1)

theorem moveNode_sameFrequencyState (node : AdaptiveNode) (vc : Option VirtualCore)
    (m : AdaptivityManagerFarm) : sameFrequencyState (moveNode node vc m).2 m := by
  unfold moveNode
  split <;> exact ⟨rfl, rfl, rfl, rfl⟩

theorem moveWorkers_sameFrequencyState :
    ∀ (ws : List AdaptiveNode) (i : Nat) (m : AdaptivityManagerFarm),
      sameFrequencyState (moveWorkers ws i m).2 m
  | [], _, m => sameFrequencyState_refl m
  | w :: ws, i, m => by
    unfold moveWorkers
    split
    · split <;> exact sameFrequencyState_refl m
    · exact sameFrequencyState_trans
        (andThen_sameFrequencyState _ _ (moveWorkers_sameFrequencyState ws (i + 1)))
        (moveNode_sameFrequencyState _ _ _)

theorem performMapping_sameFrequencyState (m : AdaptivityManagerFarm) :
    sameFrequencyState (performMapping m).2 m := by
  unfold performMapping
  refine sameFrequencyState_trans (andThen_sameFrequencyState _ _ ?_) ?_
  · intro m1
    refine sameFrequencyState_trans
      (andThen_sameFrequencyState _ _ (moveWorkers_sameFrequencyState _ _)) ?_
    split
    · exact moveNode_sameFrequencyState _ _ _
    · exact sameFrequencyState_refl _
  · split
    · exact moveNode_sameFrequencyState _ _ _
    · exact sameFrequencyState_refl _

theorem hotUnplugAll_sameFrequencyState :
    ∀ (vcs : List VirtualCore) (m : AdaptivityManagerFarm),
      sameFrequencyState (hotUnplugAll vcs m) m
  | [], m => sameFrequencyState_refl m
  | vc :: vcs, m => by
    unfold hotUnplugAll
    split
    · exact sameFrequencyState_trans (hotUnplugAll_sameFrequencyState vcs _)
        ⟨rfl, rfl, rfl, rfl⟩
    · exact hotUnplugAll_sameFrequencyState vcs m

theorem setLowestFrequencyAll_sameFrequencyState :
    ∀ (ds : List Domain) (m : AdaptivityManagerFarm),
      sameFrequencyState (setLowestFrequencyAll ds m).2 m
  | [], m => sameFrequencyState_refl m
  | d :: ds, m => by
    unfold setLowestFrequencyAll
    dsimp only
    split_ifs
    · exact ⟨rfl, rfl, rfl, rfl⟩
    · exact ⟨rfl, rfl, rfl, rfl⟩
    · exact sameFrequencyState_trans (setLowestFrequencyAll_sameFrequencyState ds _)
        ⟨rfl, rfl, rfl, rfl⟩
    · exact sameFrequencyState_trans (setLowestFrequencyAll_sameFrequencyState ds _)
        ⟨rfl, rfl, rfl, rfl⟩

theorem treatUnusedVirtualCores_sameFrequencyState (m : AdaptivityManagerFarm) :
    sameFrequencyState (treatUnusedVirtualCores m).2 m := by
  unfold treatUnusedVirtualCores applyUnusedVirtualCoresStrategy
  dsimp only
  split
  · refine sameFrequencyState_trans (hotUnplugAll_sameFrequencyState _ _) ?_
    split_ifs <;> exact ⟨rfl, rfl, rfl, rfl⟩
  · refine sameFrequencyState_trans (setLowestFrequencyAll_sameFrequencyState _ _) ?_
    split_ifs <;> exact ⟨rfl, rfl, rfl, rfl⟩
  · split_ifs <;> exact ⟨rfl, rfl, rfl, rfl⟩

theorem updatePstateDomains_sameFrequencyState (f : Frequency) :
    ∀ (ds : List Domain) (m : AdaptivityManagerFarm),
      sameFrequencyState (updatePstateDomains f ds m).2 m
  | [], m => sameFrequencyState_refl m
  | d :: ds, m => by
    unfold updatePstateDomains
    dsimp only
    split_ifs
    all_goals first
      | exact ⟨rfl, rfl, rfl, rfl⟩
      | exact sameFrequencyState_trans (updatePstateDomains_sameFrequencyState f ds _)
          ⟨rfl, rfl, rfl, rfl⟩

theorem updatePstate_sameFrequencyState (m : AdaptivityManagerFarm)
    (vcs : List VirtualCore) (f : Frequency) :
    sameFrequencyState (updatePstate m vcs f).2 m := by
  unfold updatePstate
  exact updatePstateDomains_sameFrequencyState _ _ _

/-- The section of lines 351-356 under a frequency strategy other than NO and OS:
it stores the first domain's list, takes its last entry as current frequency and
hands that entry to `updatePstate`. -/
theorem setInitialPstate_eq (m : AdaptivityManagerFarm) (l : MappingLocals)
    (hno : m.p.strategyFrequencies ≠ .STRATEGY_FREQUENCY_NO)
    (hos : m.p.strategyFrequencies ≠ .STRATEGY_FREQUENCY_OS)
    (hret : (setInitialPstate m l).1 = .returned ()) :
    ∃ domain0 highest,
      m.p.cpufreq.getDomains[0]? = some domain0 ∧
      domain0.getAvailableFrequencies.getLast? = some highest ∧
      setInitialPstate m l =
        updatePstate
          { m with availableFrequencies := domain0.getAvailableFrequencies
                   currentFrequency := highest }
          l.frequencyScalableVirtualCores highest ∧
      (setInitialPstate m l).2.availableFrequencies = domain0.getAvailableFrequencies ∧
      (setInitialPstate m l).2.currentFrequency = highest := by
  unfold setInitialPstate at hret ⊢
  rw [if_pos ⟨hno, hos⟩] at hret ⊢
  rcases hd : m.p.cpufreq.getDomains[0]? with _ | domain0
  · rw [hd] at hret
    simp at hret
  rw [hd] at hret
  dsimp only at hret ⊢
  rcases hl : domain0.getAvailableFrequencies.getLast? with _ | highest
  · rw [hl] at hret
    simp at hret
  refine ⟨domain0, highest, rfl, hl, rfl, ?_, ?_⟩
  · exact (updatePstate_sameFrequencyState _ _ _).2.2.2
  · exact (updatePstate_sameFrequencyState _ _ _).2.2.1

/-- A call of `mapAndSetFrequencies` that completes under a mapping strategy
other than NO has run lines 351-356 on a state that agrees with the initial one
on what those lines read. -/
theorem mapAndSetFrequencies_reaches_setInitialPstate (m : AdaptivityManagerFarm)
    (hmap : m.p.strategyMapping ≠ .STRATEGY_MAPPING_NO)
    (hret : (mapAndSetFrequencies m).1 = .returned ()) :
    ∃ (m1 : AdaptivityManagerFarm) (l1 : MappingLocals),
      sameFrequencyState m1 m ∧ mapAndSetFrequencies m = setInitialPstate m1 l1 := by
  unfold mapAndSetFrequencies at hret ⊢
  rw [if_neg hmap] at hret ⊢
  have f1 := setUnusedVirtualCores_sameFrequencyState m
  rcases h1 : setUnusedVirtualCores m with ⟨_ | e, ma⟩
  swap
  · rw [h1] at hret
    simp [andThen] at hret
  rw [h1] at hret f1
  simp only [andThen] at hret ⊢
  have f2 := mapSensitiveStages_sameFrequencyState ma (initialLocals ma)
  unfold initialLocals at f2
  rcases h2 : mapSensitiveStages ma
      { emitterMappingRequired := ma.farm.getEmitter.isSome
        collectorMappingRequired := ma.farm.getCollector.isSome
        frequencyScalableVirtualCores := [] } with ⟨la | e, mb⟩
  swap
  · rw [h2] at hret
    simp at hret
  rw [h2] at hret f2
  dsimp only at hret f2 ⊢
  have f3 := mapRemainingStages_sameFrequencyState mb la
  rcases h3 : mapRemainingStages mb la with ⟨lb | e, mc⟩
  swap
  · rw [h3] at hret
    simp at hret
  rw [h3] at hret f3
  dsimp only at hret f3 ⊢
  have f4 := performMapping_sameFrequencyState mc
  rcases h4 : performMapping mc with ⟨_ | e, md⟩
  swap
  · rw [h4] at hret
    simp at hret
  rw [h4] at hret f4
  dsimp only at hret f4 ⊢
  have f5 := treatUnusedVirtualCores_sameFrequencyState md
  rcases h5 : treatUnusedVirtualCores md with ⟨_ | e, me⟩
  swap
  · rw [h5] at hret
    simp at hret
  rw [h5] at f5
  dsimp only at f5 ⊢
  exact ⟨me, lb, sameFrequencyState_trans f5 (sameFrequencyState_trans f4
    (sameFrequencyState_trans f3 (sameFrequencyState_trans f2 f1))), rfl⟩

/-- C20, as stated, fails.  Under the POWER_CONSERVATIVE strategy with the
mapping strategy NO, `mapAndSetFrequencies` returns at line 263: the current
frequency stays 0 and no list is stored, while the first domain offers up to 2.0
GHz.  On a domain whose list is 2.0 GHz, 1.0 GHz in this order the call completes
with current frequency 1.0 GHz, the last entry, and programs that value. -/
theorem mapAndSetFrequencies_initial_pstate_counterexample :
    ((validate noMappingConservativeParameters).1 = .returned .VALIDATION_OK ∧
      noMappingConservative.p.strategyFrequencies =
        .STRATEGY_FREQUENCY_POWER_CONSERVATIVE ∧
      (mapAndSetFrequencies noMappingConservative).1 = .returned () ∧
      (mapAndSetFrequencies noMappingConservative).2.currentFrequency = 0 ∧
      (mapAndSetFrequencies noMappingConservative).2.availableFrequencies = [] ∧
      (firstDomainFrequencies noMappingConservative.p).max? = some 2000000) ∧
    ((validate unsortedConservativeParameters).1 = .returned .VALIDATION_OK ∧
      unsortedConservative.p.strategyFrequencies =
        .STRATEGY_FREQUENCY_POWER_CONSERVATIVE ∧
      (mapAndSetFrequencies unsortedConservative).1 = .returned () ∧
      (mapAndSetFrequencies unsortedConservative).2.availableFrequencies =
        [2000000, 1000000] ∧
      (mapAndSetFrequencies unsortedConservative).2.currentFrequency = 1000000 ∧
      (mapAndSetFrequencies unsortedConservative).2.availableFrequencies.max? =
        some 2000000 ∧
      PlatformCall.setFrequencyUserspace 0 1000000 ∈
        (mapAndSetFrequencies unsortedConservative).2.calls) := by
  decide

/-! ## Theorems on repeated and total validation -/

/-- The section "Validate frequency strategies" under a strategy other than NO
and OS on a platform with a domain: lines 154-163 run on the record with the
governor USERSPACE. -/
theorem validateFrequencyStrategies_userspace (r : AdaptivityParameters)
    (h1 : r.strategyFrequencies ≠ .STRATEGY_FREQUENCY_NO)
    (h2 : r.cpufreq.getDomains.length ≠ 0)
    (h3 : r.strategyFrequencies ≠ .STRATEGY_FREQUENCY_OS) :
    validateFrequencyStrategies r =
      if !isFrequencyGovernorAvailable r .GOVERNOR_USERSPACE then
        (some .VALIDATION_STRATEGY_FREQUENCY_UNSUPPORTED, r.cpufreq.getDomains,
          { r with frequencyGovernor := .GOVERNOR_USERSPACE })
      else if (r.sensitiveEmitter || r.sensitiveCollector) &&
          !isFrequencyGovernorAvailable r .GOVERNOR_PERFORMANCE &&
          !isFrequencyGovernorAvailable r .GOVERNOR_USERSPACE then
        (some .VALIDATION_EC_SENSITIVE_MISSING_GOVERNORS, r.cpufreq.getDomains,
          { r with frequencyGovernor := .GOVERNOR_USERSPACE })
      else (none, r.cpufreq.getDomains, { r with frequencyGovernor := .GOVERNOR_USERSPACE }) := by
  unfold validateFrequencyStrategies
  rw [if_pos h1]
  dsimp only
  rw [if_neg h2, if_pos h3]
  rfl

theorem validateFrequencyStrategies_unchanged (r : AdaptivityParameters)
    (h : r.strategyFrequencies = .STRATEGY_FREQUENCY_NO ∨
      r.cpufreq.getDomains.length = 0 ∨ r.strategyFrequencies = .STRATEGY_FREQUENCY_OS) :
    (validateFrequencyStrategies r).2.2 = r := by
  unfold validateFrequencyStrategies
  dsimp only
  by_cases h1 : r.strategyFrequencies = .STRATEGY_FREQUENCY_NO
  · rw [if_neg (by simp [h1])]
    split_ifs <;> rfl
  · rw [if_pos h1]
    by_cases h2 : r.cpufreq.getDomains.length = 0
    · rw [if_pos h2]
    · rw [if_neg h2]
      have h3 : r.strategyFrequencies = .STRATEGY_FREQUENCY_OS := by tauto
      rw [if_neg (by simp [h3])]
      split_ifs <;> rfl

theorem validateFrequencyStrategies_idem (p : AdaptivityParameters) :
    validateFrequencyStrategies (validateFrequencyStrategies p).2.2 =
      validateFrequencyStrategies p := by
  by_cases h : p.strategyFrequencies = .STRATEGY_FREQUENCY_NO ∨
      p.cpufreq.getDomains.length = 0 ∨ p.strategyFrequencies = .STRATEGY_FREQUENCY_OS
  · rw [validateFrequencyStrategies_unchanged p h]
  · push_neg at h
    obtain ⟨h1, h2, h3⟩ := h
    have e := validateFrequencyStrategies_userspace p h1 h2 h3
    have e2 := validateFrequencyStrategies_userspace
      { p with frequencyGovernor := .GOVERNOR_USERSPACE } h1 h2 h3
    have hq : (validateFrequencyStrategies p).2.2 =
        { p with frequencyGovernor := .GOVERNOR_USERSPACE } := by
      rw [e]
      split_ifs <;> rfl
    rw [hq, e2, e]
    rfl

/-- The section "Validate frequency strategies" does not read the bounds. -/
theorem validateFrequencyStrategies_bounds (p : AdaptivityParameters) (a b : Frequency) :
    validateFrequencyStrategies { p with frequencyLowerBound := a, frequencyUpperBound := b } =
      ((validateFrequencyStrategies p).1, (validateFrequencyStrategies p).2.1,
        { (validateFrequencyStrategies p).2.2 with
          frequencyLowerBound := a, frequencyUpperBound := b }) := by
  unfold validateFrequencyStrategies
  simp only [isFrequencyGovernorAvailable_eq]
  dsimp only
  split_ifs <;> rfl

theorem validateFrequencyUpperBound_idem (fs : List Frequency) (q : AdaptivityParameters) :
    validateFrequencyUpperBound fs (validateFrequencyUpperBound fs q).2 =
      validateFrequencyUpperBound fs q := by
  by_cases hu : q.frequencyUpperBound ≠ 0
  · have h : (validateFrequencyUpperBound fs q).2 = q := by
      unfold validateFrequencyUpperBound
      rw [if_pos hu]
      split_ifs <;> rfl
    rw [h]
  · have hu0 : q.frequencyUpperBound = 0 := by simpa using hu
    rcases hl : fs[fs.length - 1]? with _ | f
    · have h : (validateFrequencyUpperBound fs q).2 = q := by
        unfold validateFrequencyUpperBound
        rw [if_neg hu, hl]
      rw [h]
    · have h : validateFrequencyUpperBound fs q =
          (.returned .VALIDATION_OK, { q with frequencyUpperBound := f }) := by
        unfold validateFrequencyUpperBound
        rw [if_neg hu, hl]
      rw [h]
      unfold validateFrequencyUpperBound
      dsimp only
      by_cases hf : f ≠ 0
      · have hm : f ∈ fs := List.mem_iff_getElem?.2 ⟨_, hl⟩
        rw [if_pos hf, if_neg (by simp [contains, hm])]
      · rw [if_neg hf, hl]

theorem validateFrequencyUpperBound_lower (fs : List Frequency) (q : AdaptivityParameters) :
    (validateFrequencyUpperBound fs q).2.frequencyLowerBound = q.frequencyLowerBound ∧
    (validateFrequencyUpperBound fs q).2.strategyFrequencies = q.strategyFrequencies ∧
    (q.frequencyUpperBound ≠ 0 → (validateFrequencyUpperBound fs q).2 = q) := by
  unfold validateFrequencyUpperBound
  by_cases hu : q.frequencyUpperBound ≠ 0
  · rw [if_pos hu]
    split_ifs <;> exact ⟨rfl, rfl, fun _ => rfl⟩
  · rw [if_neg hu]
    split <;> exact ⟨rfl, rfl, fun h => absurd h hu⟩

/-- The bounds section under strategy OS with a lower bound that is given and
available. -/
theorem validateFrequencyBounds_lower_given (ds : List Domain) (q : AdaptivityParameters)
    (domain0 : Domain) (hos : q.strategyFrequencies = .STRATEGY_FREQUENCY_OS)
    (hd : ds[0]? = some domain0) (hne : domain0.getAvailableFrequencies.length ≠ 0)
    (hl : q.frequencyLowerBound ≠ 0)
    (hc : q.frequencyLowerBound ∈ domain0.getAvailableFrequencies) :
    validateFrequencyBounds ds q =
      validateFrequencyUpperBound domain0.getAvailableFrequencies q := by
  unfold validateFrequencyBounds
  rw [if_pos (Or.inl hl), if_pos hos, hd]
  dsimp only
  rw [if_neg hne, if_pos hl, if_neg (by simp [contains, hc])]

/-- The bounds section under strategy OS with an absent lower bound and a given
upper bound. -/
theorem validateFrequencyBounds_lower_absent (ds : List Domain) (q : AdaptivityParameters)
    (domain0 : Domain) (f : Frequency) (hos : q.strategyFrequencies = .STRATEGY_FREQUENCY_OS)
    (hd : ds[0]? = some domain0) (hf : domain0.getAvailableFrequencies[0]? = some f)
    (hl : q.frequencyLowerBound = 0) (hu : q.frequencyUpperBound ≠ 0) :
    validateFrequencyBounds ds q =
      validateFrequencyUpperBound domain0.getAvailableFrequencies
        { q with frequencyLowerBound := f } := by
  have hne : domain0.getAvailableFrequencies.length ≠ 0 := by
    intro h0
    rw [List.length_eq_zero.1 h0] at hf
    simp at hf
  unfold validateFrequencyBounds
  rw [if_pos (Or.inr hu), if_pos hos, hd]
  dsimp only
  rw [if_neg hne, if_neg (by simp [hl]), hf]

theorem validateFrequencyBounds_idem (ds : List Domain) (q : AdaptivityParameters) :
    validateFrequencyBounds ds (validateFrequencyBounds ds q).2 =
      validateFrequencyBounds ds q := by
  have triv : (validateFrequencyBounds ds q).2 = q →
      validateFrequencyBounds ds (validateFrequencyBounds ds q).2 =
        validateFrequencyBounds ds q := by
    intro h
    rw [h]
  by_cases hb : q.frequencyLowerBound ≠ 0 ∨ q.frequencyUpperBound ≠ 0
  swap
  · apply triv
    unfold validateFrequencyBounds
    rw [if_neg hb]
  by_cases hos : q.strategyFrequencies = .STRATEGY_FREQUENCY_OS
  swap
  · apply triv
    unfold validateFrequencyBounds
    rw [if_pos hb, if_neg hos]
  rcases hd : ds[0]? with _ | domain0
  · apply triv
    unfold validateFrequencyBounds
    rw [if_pos hb, if_pos hos, hd]
  by_cases hne : domain0.getAvailableFrequencies.length = 0
  · apply triv
    unfold validateFrequencyBounds
    rw [if_pos hb, if_pos hos, hd]
    dsimp only
    rw [if_pos hne]
  by_cases hl : q.frequencyLowerBound ≠ 0
  · by_cases hc : q.frequencyLowerBound ∈ domain0.getAvailableFrequencies
    · rw [validateFrequencyBounds_lower_given ds q domain0 hos hd hne hl hc]
      obtain ⟨e1, e2, -⟩ :=
        validateFrequencyUpperBound_lower domain0.getAvailableFrequencies q
      rw [validateFrequencyBounds_lower_given ds _ domain0 (e2.trans hos) hd hne
        (by rw [e1]; exact hl) (by rw [e1]; exact hc)]
      exact validateFrequencyUpperBound_idem _ _
    · apply triv
      unfold validateFrequencyBounds
      rw [if_pos hb, if_pos hos, hd]
      dsimp only
      rw [if_neg hne, if_pos hl, if_pos (by simp [contains, hc])]
  · have hl0 : q.frequencyLowerBound = 0 := by simpa using hl
    have hu : q.frequencyUpperBound ≠ 0 := by
      rcases hb with h | h
      · exact absurd h hl
      · exact h
    rcases hf : domain0.getAvailableFrequencies[0]? with _ | f
    · rw [List.getElem?_eq_none_iff] at hf
      omega
    rw [validateFrequencyBounds_lower_absent ds q domain0 f hos hd hf hl0 hu]
    generalize hq1 : ({ q with frequencyLowerBound := f } : AdaptivityParameters) = q1
    have h1 : q1.strategyFrequencies = .STRATEGY_FREQUENCY_OS := by rw [← hq1]; exact hos
    have h2 : q1.frequencyUpperBound ≠ 0 := by rw [← hq1]; exact hu
    have h3 : q1.frequencyLowerBound = f := by rw [← hq1]
    have h4 : ({ q1 with frequencyLowerBound := f } : AdaptivityParameters) = q1 := by
      rw [← hq1]
    rw [(validateFrequencyUpperBound_lower domain0.getAvailableFrequencies q1).2.2 h2]
    by_cases hf0 : f = 0
    · rw [validateFrequencyBounds_lower_absent ds q1 domain0 f h1 hd hf (h3.trans hf0) h2, h4]
    · rw [validateFrequencyBounds_lower_given ds q1 domain0 h1 hd hne (by rw [h3]; exact hf0)
        (by rw [h3]; exact List.mem_iff_getElem?.2 ⟨_, hf⟩)]

theorem thresholdsRejected_validate (p : AdaptivityParameters) :
    thresholdsRejected (validate p).2 ↔ thresholdsRejected p := by
  have h := (validate_frame p).1
  unfold thresholdsRejected
  rw [h]

/-- The governor test, the mapping test and the bounds section of `validate`
(lines 171-209), run on the record and the domains left by the section "Validate
frequency strategies". -/
theorem validate_tail_idem (ds : List Domain) (q : AdaptivityParameters) :
    (if !isFrequencyGovernorAvailable (validateFrequencyBounds ds q).2
          (validateFrequencyBounds ds q).2.frequencyGovernor then
        (Completion.returned AdaptivityParametersValidation.VALIDATION_GOVERNOR_UNSUPPORTED,
          (validateFrequencyBounds ds q).2)
      else if (validateFrequencyBounds ds q).2.strategyMapping =
          .STRATEGY_MAPPING_CACHE_EFFICIENT then
        (.returned .VALIDATION_STRATEGY_MAPPING_UNSUPPORTED, (validateFrequencyBounds ds q).2)
      else validateFrequencyBounds ds (validateFrequencyBounds ds q).2) =
    (if !isFrequencyGovernorAvailable q q.frequencyGovernor then
        (.returned .VALIDATION_GOVERNOR_UNSUPPORTED, (validateFrequencyBounds ds q).2)
      else if q.strategyMapping = .STRATEGY_MAPPING_CACHE_EFFICIENT then
        (.returned .VALIDATION_STRATEGY_MAPPING_UNSUPPORTED, (validateFrequencyBounds ds q).2)
      else validateFrequencyBounds ds q) := by
  have hf := (validateFrequencyBounds_frame ds q).1
  have e1 : (validateFrequencyBounds ds q).2.frequencyGovernor = q.frequencyGovernor := by
    have h := congrArg AdaptivityParameters.frequencyGovernor hf
    exact h
  have e2 : (validateFrequencyBounds ds q).2.strategyMapping = q.strategyMapping := by
    have h := congrArg AdaptivityParameters.strategyMapping hf
    exact h
  have e3 : (validateFrequencyBounds ds q).2.cpufreq = q.cpufreq := by
    have h := congrArg AdaptivityParameters.cpufreq hf
    exact h
  rw [e1, e2, isFrequencyGovernorAvailable_congr q _ _ e3, validateFrequencyBounds_idem]

/-- C21. Running `validate` on the record a first run has left returns the
code of the first run and leaves the record as the first run left it, for every
parameter set on every platform. -/
theorem validate_idempotent (p : AdaptivityParameters) :
    (validate (validate p).2).1 = (validate p).1 ∧
    (validate (validate p).2).2 = (validate p).2 := by
  suffices h : validate (validate p).2 = validate p by rw [h]; exact ⟨rfl, rfl⟩
  by_cases hr : thresholdsRejected p
  · rw [validate_of_thresholdsRejected p hr]
    exact validate_of_thresholdsRejected p hr
  have hr2 : ¬ thresholdsRejected (validate p).2 := fun h =>
    hr ((thresholdsRejected_validate p).1 h)
  rw [validate_of_not_thresholdsRejected _ hr2]
  rw [validate_of_not_thresholdsRejected p hr]
  have hidem := validateFrequencyStrategies_idem p
  rcases hs : validateFrequencyStrategies p with ⟨_ | code, ds, q⟩
  · rw [hs] at hidem
    dsimp only at hidem ⊢
    by_cases hg : (!isFrequencyGovernorAvailable q q.frequencyGovernor) = true
    · rw [if_pos hg, hidem]
      dsimp only
      rw [if_pos hg]
    rw [if_neg hg]
    by_cases hm : q.strategyMapping = .STRATEGY_MAPPING_CACHE_EFFICIENT
    · rw [if_pos hm, hidem]
      dsimp only
      rw [if_neg hg, if_pos hm]
    rw [if_neg hm]
    have hb := validateFrequencyStrategies_bounds q
      (validateFrequencyBounds ds q).2.frequencyLowerBound
      (validateFrequencyBounds ds q).2.frequencyUpperBound
    rw [← (validateFrequencyBounds_frame ds q).1, hidem] at hb
    dsimp only at hb
    rw [← (validateFrequencyBounds_frame ds q).1] at hb
    rw [hb]
    dsimp only
    rw [validate_tail_idem ds q, if_neg hg, if_neg hm]
  · rw [hs] at hidem
    dsimp only at hidem ⊢
    rw [hidem]

theorem validateFrequencyUpperBound_returns (fs : List Frequency) (q : AdaptivityParameters)
    (hne : fs.length ≠ 0) : ∃ code, (validateFrequencyUpperBound fs q).1 = .returned code := by
  unfold validateFrequencyUpperBound
  split_ifs
  · exact ⟨_, rfl⟩
  · exact ⟨_, rfl⟩
  · rcases hl : fs[fs.length - 1]? with _ | f
    · rw [List.getElem?_eq_none_iff] at hl
      omega
    · exact ⟨_, rfl⟩

theorem validateFrequencyBounds_returns (ds : List Domain) (q : AdaptivityParameters)
    (hds : q.strategyFrequencies = .STRATEGY_FREQUENCY_OS → ds ≠ []) :
    ∃ code, (validateFrequencyBounds ds q).1 = .returned code := by
  unfold validateFrequencyBounds
  by_cases hb : q.frequencyLowerBound ≠ 0 ∨ q.frequencyUpperBound ≠ 0
  swap
  · rw [if_neg hb]
    exact ⟨_, rfl⟩
  rw [if_pos hb]
  by_cases hos : q.strategyFrequencies = .STRATEGY_FREQUENCY_OS
  swap
  · rw [if_neg hos]
    exact ⟨_, rfl⟩
  rw [if_pos hos]
  rcases hd : ds[0]? with _ | domain0
  · rw [List.getElem?_eq_none_iff] at hd
    exact absurd (List.length_eq_zero.1 (by omega)) (hds hos)
  dsimp only
  by_cases hne : domain0.getAvailableFrequencies.length = 0
  · rw [if_pos hne]
    exact ⟨_, rfl⟩
  rw [if_neg hne]
  by_cases hl : q.frequencyLowerBound ≠ 0
  · rw [if_pos hl]
    split_ifs
    · exact ⟨_, rfl⟩
    · exact validateFrequencyUpperBound_returns _ _ hne
  · rw [if_neg hl]
    rcases hf : domain0.getAvailableFrequencies[0]? with _ | f
    · rw [List.getElem?_eq_none_iff] at hf
      omega
    · exact validateFrequencyUpperBound_returns _ _ hne

/-- C22. On every parameter set and every platform, also one without frequency
domain or with a domain whose frequency list is empty, `validate` returns a
validation code: no access of the bounds section is out of range, and the call
never ends in an exception. -/
theorem validate_returns (p : AdaptivityParameters) :
    (∃ code, (validate p).1 = .returned code) ∧ (∀ e, (validate p).1 ≠ .threw e) := by
  have key : ∃ code, (validate p).1 = .returned code := by
    by_cases hr : thresholdsRejected p
    · rw [validate_of_thresholdsRejected p hr]
      exact ⟨_, rfl⟩
    rcases hc : (validateFrequencyStrategies p).1 with _ | code
    · have hs := validateFrequencyStrategies_none p hc
      rw [validate_after_strategies p hr hs]
      split_ifs
      · exact ⟨_, rfl⟩
      · exact ⟨_, rfl⟩
      · apply validateFrequencyBounds_returns
        intro hos
        have h1 : (parametersAfterStrategies p).strategyFrequencies = p.strategyFrequencies := by
          unfold parametersAfterStrategies
          split_ifs <;> rfl
        rw [h1] at hos
        unfold domainsAfterStrategies
        rw [if_pos (by rw [hos]; decide)]
        exact (hs.1 (by rw [hos]; decide)).1
    · rw [validate_of_not_thresholdsRejected p hr]
      rcases hs : validateFrequencyStrategies p with ⟨c, ds, q⟩
      rw [hs] at hc
      dsimp only at hc
      subst hc
      exact ⟨_, rfl⟩
  obtain ⟨code, hcode⟩ := key
  exact ⟨⟨code, hcode⟩, fun e he => by rw [hcode] at he; exact absurd he (by simp)⟩

/-! ## Theorems on the shape of validated parameters -/

/-- With the governor USERSPACE under a strategy other than OS, the loop of
`updatePstate` issues only `setGovernor` with USERSPACE and the explicit
setpoint, one pair of calls per domain when it completes. -/
theorem updatePstateDomains_userspace (f : Frequency) :
    ∀ (ds : List Domain) (m : AdaptivityManagerFarm),
      m.p.frequencyGovernor = .GOVERNOR_USERSPACE →
      m.p.strategyFrequencies ≠ .STRATEGY_FREQUENCY_OS →
      (updatePstateDomains f ds m).1 ≠ .threw .governorBoundsFailed ∧
      ∃ new : List PlatformCall,
        (updatePstateDomains f ds m).2.calls = m.calls ++ new ∧
        (∀ c ∈ new, (∃ id, c = .setGovernor id .GOVERNOR_USERSPACE) ∨
          (∃ id, c = .setFrequencyUserspace id f)) ∧
        ((updatePstateDomains f ds m).1 = .returned () →
          new = ds.flatMap (fun d =>
            [.setGovernor d.domainId .GOVERNOR_USERSPACE,
              .setFrequencyUserspace d.domainId f])) := by
  intro ds
  induction ds with
  | nil =>
    intro m _ _
    exact ⟨by simp [updatePstateDomains], [], by simp [updatePstateDomains], by simp,
      fun _ => rfl⟩
  | cons d rest ih =>
    intro m hg hs
    unfold updatePstateDomains
    dsimp only
    rw [hg]
    by_cases h1 : (!d.setGovernor .GOVERNOR_USERSPACE) = true
    · rw [if_pos h1]
      refine ⟨by simp, [.setGovernor d.domainId .GOVERNOR_USERSPACE], rfl, ?_, ?_⟩
      · intro c hc
        rw [List.mem_singleton] at hc
        exact Or.inl ⟨_, hc⟩
      · intro h
        simp at h
    rw [if_neg h1, if_neg (by simp), if_pos hs]
    by_cases h2 : (!d.setFrequencyUserspaceOk) = true
    · rw [if_pos h2]
      refine ⟨by simp, [.setGovernor d.domainId .GOVERNOR_USERSPACE,
        .setFrequencyUserspace d.domainId f], by simp, ?_, ?_⟩
      · intro c hc
        simp only [List.mem_cons, List.mem_singleton, List.not_mem_nil, or_false] at hc
        rcases hc with hc | hc
        · exact Or.inl ⟨_, hc⟩
        · exact Or.inr ⟨_, hc⟩
      · intro h
        simp at h
    rw [if_neg h2]
    obtain ⟨e0, new, e1, e2, e3⟩ := ih
      { m with calls := m.calls ++ [.setGovernor d.domainId .GOVERNOR_USERSPACE] ++
          [.setFrequencyUserspace d.domainId f] } hg hs
    refine ⟨e0, [.setGovernor d.domainId .GOVERNOR_USERSPACE,
      .setFrequencyUserspace d.domainId f] ++ new, ?_, ?_, ?_⟩
    · rw [e1]
      simp
    · intro c hc
      simp only [List.cons_append, List.nil_append, List.mem_cons] at hc
      rcases hc with hc | hc | hc
      · exact Or.inl ⟨_, hc⟩
      · exact Or.inr ⟨_, hc⟩
      · exact e2 c hc
    · intro h
      rw [e3 h]
      simp

/-- C23. When `validate` returns OK under a frequency strategy other than OS,
both bounds are 0, as given and as stored.  When it returns OK under a strategy
that is neither NO nor OS, the stored governor is USERSPACE, and `updatePstate`
on a manager holding the validated record issues, besides `setGovernor` with
USERSPACE, only the explicit setpoint, never governor bounds: one pair of calls
per used domain when it completes. -/
theorem validate_ok_shape (p : AdaptivityParameters)
    (hok : (validate p).1 = .returned .VALIDATION_OK) :
    (p.strategyFrequencies ≠ .STRATEGY_FREQUENCY_OS →
      (validate p).2.frequencyLowerBound = 0 ∧ (validate p).2.frequencyUpperBound = 0 ∧
      p.frequencyLowerBound = 0 ∧ p.frequencyUpperBound = 0) ∧
    (p.strategyFrequencies ≠ .STRATEGY_FREQUENCY_NO →
      p.strategyFrequencies ≠ .STRATEGY_FREQUENCY_OS →
      (validate p).2.frequencyGovernor = .GOVERNOR_USERSPACE ∧
      ∀ (m : AdaptivityManagerFarm) (virtualCores : List VirtualCore) (f : Frequency),
        m.p = (validate p).2 →
        (updatePstate m virtualCores f).1 ≠ .threw .governorBoundsFailed ∧
        ∃ new : List PlatformCall,
          (updatePstate m virtualCores f).2.calls = m.calls ++ new ∧
          (∀ c ∈ new, (∃ id, c = .setGovernor id .GOVERNOR_USERSPACE) ∨
            (∃ id, c = .setFrequencyUserspace id f)) ∧
          ((updatePstate m virtualCores f).1 = .returned () →
            new = (m.p.cpufreq.getDomainsCovering virtualCores).flatMap (fun d =>
              [.setGovernor d.domainId .GOVERNOR_USERSPACE,
                .setFrequencyUserspace d.domainId f]))) := by
  have hpass := passesChecksBeforeBounds_of_ok p hok
  have hsf : (validate p).2.strategyFrequencies = p.strategyFrequencies := by
    have h := congrArg AdaptivityParameters.strategyFrequencies (validate_frame p).1
    exact h
  constructor
  · intro hos
    obtain ⟨-, -, h3, h4⟩ := validate_frame p
    have hl : (validate p).2.frequencyLowerBound = p.frequencyLowerBound := by
      rcases h3 with h | ⟨-, h, -⟩
      · exact h
      · exact absurd h hos
    have hu : (validate p).2.frequencyUpperBound = p.frequencyUpperBound := by
      rcases h4 with h | ⟨-, h, -⟩
      · exact h
      · exact absurd h hos
    have hz : ¬ (p.frequencyLowerBound ≠ 0 ∨ p.frequencyUpperBound ≠ 0) := by
      intro hb
      rw [validate_of_passes p hpass] at hok
      obtain ⟨e1, e2, e3⟩ := parametersAfterStrategies_bounds p
      unfold validateFrequencyBounds at hok
      rw [e1, e2, e3, if_pos hb, if_neg hos] at hok
      simp at hok
    push_neg at hz
    exact ⟨hl.trans hz.1, hu.trans hz.2, hz.1, hz.2⟩
  · intro hno hos
    have hg : (validate p).2.frequencyGovernor = .GOVERNOR_USERSPACE := by
      rw [validate_governor_stored p hpass.1 hpass.2.1]
      unfold governorAfterStrategies
      rw [if_pos ⟨hno, hos⟩]
    refine ⟨hg, ?_⟩
    intro m virtualCores f hm
    have hmg : m.p.frequencyGovernor = .GOVERNOR_USERSPACE := by rw [hm]; exact hg
    have hms : m.p.strategyFrequencies ≠ .STRATEGY_FREQUENCY_OS := by
      rw [hm, hsf]
      exact hos
    unfold updatePstate
    exact updatePstateDomains_userspace f (m.p.cpufreq.getDomainsCovering virtualCores) m
      hmg hms

/-- Witness for C23: the governor ONDEMAND given under POWER_CONSERVATIVE is
stored as USERSPACE, and `updatePstate` at 2.0 GHz on the validated record
programs the domain of VirtualCore 0 with the explicit setpoint. -/
theorem validate_ok_shape_witness :
    ((validate ondemandS3Parameters).2.frequencyLowerBound = 0 ∧
      (validate ondemandS3Parameters).2.frequencyUpperBound = 0) ∧
    (validate ondemandS3Parameters).2.frequencyGovernor = .GOVERNOR_USERSPACE ∧
    (updatePstate validatedConservative [core 0] 2000000).1 ≠ .threw .governorBoundsFailed ∧
    (updatePstate validatedConservative [core 0] 2000000).2.calls =
      [.setGovernor 0 .GOVERNOR_USERSPACE, .setFrequencyUserspace 0 2000000] :=
  have h := validate_ok_shape ondemandS3Parameters (by decide)
  ⟨⟨(h.1 (by decide)).1, (h.1 (by decide)).2.1⟩, (h.2 (by decide) (by decide)).1,
    ((h.2 (by decide) (by decide)).2 validatedConservative [core 0] 2000000 rfl).1,
    by decide⟩

/-! ## Theorems on the farm wrapper -/

theorem initAdaptiveWorkers_frame (communicator : Option Nat) (remote : Nat → Option Nat)
    (localTasksManager : Option Nat) :
    ∀ (ws : List Nat) (i : Nat) (farm : AdaptiveFarmObject),
      (initAdaptiveWorkers communicator remote localTasksManager ws i farm).2.firstRun =
        farm.firstRun ∧
      (initAdaptiveWorkers communicator remote localTasksManager ws i farm).2.started =
        farm.started ∧
      (initAdaptiveWorkers communicator remote localTasksManager ws i farm).2.workers =
        farm.workers := by
  intro ws
  induction ws with
  | nil => intro i farm; exact ⟨rfl, rfl, rfl⟩
  | cons w rest ih =>
    intro i farm
    unfold initAdaptiveWorkers
    dsimp only
    split
    · exact ⟨rfl, rfl, rfl⟩
    · exact ih _ _

/-- The loop over the workers appends every worker of the farm, in farm order,
to the list it finds. -/
theorem initAdaptiveWorkers_adaptiveWorkers (communicator : Option Nat)
    (remote : Nat → Option Nat) (localTasksManager : Option Nat) :
    ∀ (ws : List Nat) (i : Nat) (farm : AdaptiveFarmObject),
      i ≤ farm.adaptiveWorkers.length →
      (initAdaptiveWorkers communicator remote localTasksManager ws i farm).1 =
        .returned () ∧
      (initAdaptiveWorkers communicator remote localTasksManager ws i farm).2.adaptiveWorkers =
        farm.adaptiveWorkers ++ ws := by
  intro ws
  induction ws with
  | nil => intro i farm _; exact ⟨rfl, by simp [initAdaptiveWorkers]⟩
  | cons w rest ih =>
    intro i farm hi
    unfold initAdaptiveWorkers
    dsimp only
    rcases hn : (farm.adaptiveWorkers ++ [w])[i]? with _ | node
    · rw [List.getElem?_eq_none_iff, List.length_append, List.length_singleton] at hn
      omega
    · dsimp only
      have h := ih (i + 1)
        (AdaptiveFarmObject.initNode { farm with adaptiveWorkers := farm.adaptiveWorkers ++ [w] }
          node communicator remote localTasksManager)
        (by
          show i + 1 ≤ (farm.adaptiveWorkers ++ [w]).length
          rw [List.length_append, List.length_singleton]
          omega)
      refine ⟨h.1, h.2.trans ?_⟩
      show (farm.adaptiveWorkers ++ [w]) ++ rest = farm.adaptiveWorkers ++ w :: rest
      simp

theorem initStages_frame (farm : AdaptiveFarmObject) (communicator : Option Nat)
    (remote : Nat → Option Nat) (localTasksManager : Option Nat) :
    (farm.initStages communicator remote localTasksManager).1 = .returned () ∧
    (farm.initStages communicator remote localTasksManager).2.firstRun = farm.firstRun ∧
    (farm.initStages communicator remote localTasksManager).2.started = farm.started ∧
    (farm.initStages communicator remote localTasksManager).2.workers = farm.workers ∧
    (farm.initStages communicator remote localTasksManager).2.adaptiveWorkers =
      farm.adaptiveWorkers ++ farm.workers := by
  obtain ⟨f1, f2, f3⟩ :=
    initAdaptiveWorkers_frame communicator remote localTasksManager farm.workers 0 farm
  obtain ⟨g1, g2⟩ :=
    initAdaptiveWorkers_adaptiveWorkers communicator remote localTasksManager farm.workers 0
      farm (Nat.zero_le _)
  unfold AdaptiveFarmObject.initStages
  rcases h : initAdaptiveWorkers communicator remote localTasksManager farm.workers 0 farm
    with ⟨_ | e, farm1⟩
  · rw [h] at f1 f2 f3 g2
    dsimp only at f1 f2 f3 g2 ⊢
    refine ⟨rfl, ?_, ?_, ?_, ?_⟩
    · rw [← f1]
      split <;> split <;> rfl
    · rw [← f2]
      split <;> split <;> rfl
    · rw [← f3]
      split <;> split <;> rfl
    · rw [← g2]
      split <;> split <;> rfl
  · rw [h] at g1
    simp at g1

/-- One call of `run`: while `_firstRun` is set it appends every worker of the
farm to the list of adaptive workers, whether the underlying run succeeds or
not; it starts a manager only when `_firstRun` is set and the underlying run
succeeds, and it then clears `_firstRun`. -/
theorem run_step (farm : AdaptiveFarmObject) (communicator : Option Nat)
    (remote : Nat → Option Nat) (localTasksManager : Option Nat) (skip : Bool) (r : Int) :
    (farm.run communicator remote localTasksManager skip r).1 = .returned r ∧
    (farm.run communicator remote localTasksManager skip r).2.workers = farm.workers ∧
    (farm.run communicator remote localTasksManager skip r).2.adaptiveWorkers =
      (if farm.firstRun then farm.adaptiveWorkers ++ farm.workers
        else farm.adaptiveWorkers) ∧
    (farm.run communicator remote localTasksManager skip r).2.firstRun =
      (farm.firstRun && decide (r ≠ 0)) ∧
    (farm.run communicator remote localTasksManager skip r).2.started.length =
      (if farm.firstRun = true ∧ r = 0 then farm.started.length + 1
        else farm.started.length) := by
  unfold AdaptiveFarmObject.run
  by_cases hf : farm.firstRun = true
  · obtain ⟨i1, i2, i3, i4, i5⟩ := initStages_frame farm communicator remote localTasksManager
    rw [if_pos hf]
    rcases h : farm.initStages communicator remote localTasksManager with ⟨_ | e, farm1⟩
    · rw [h] at i2 i3 i4 i5
      dsimp only at i2 i3 i4 i5 ⊢
      by_cases hr : r ≠ 0
      · rw [if_pos hr]
        refine ⟨rfl, i4, ?_, ?_, ?_⟩
        · rw [if_pos hf]
          exact i5
        · rw [i2, hf]
          simp [hr]
        · rw [if_neg (by tauto), i3]
      · rw [if_neg hr, if_pos (i2.trans hf)]
        have hr0 : r = 0 := by simpa using hr
        refine ⟨rfl, i4, ?_, ?_, ?_⟩
        · rw [if_pos hf]
          exact i5
        · simp [hr0]
        · rw [if_pos ⟨hf, hr0⟩, List.length_append, i3]
          rfl
    · rw [h] at i1
      simp at i1
  · rw [if_neg hf]
    dsimp only
    have hff : farm.firstRun = false := by simpa using hf
    by_cases hr : r ≠ 0
    · rw [if_pos hr]
      refine ⟨rfl, rfl, ?_, ?_, ?_⟩
      · rw [if_neg hf]
      · simp [hff]
      · rw [if_neg (by tauto)]
    · rw [if_neg hr, if_neg hf]
      refine ⟨rfl, rfl, ?_, ?_, ?_⟩
      · rw [if_neg hf]
      · simp [hff]
      · rw [if_neg (by tauto)]

/-- At most one manager is ever started, and none before an underlying run
succeeds: this part of the invariant holds for every sequence of runs of a farm
that has started none while `_firstRun` is set. -/
theorem runs_started (rs : List Int) :
    ∀ farm : AdaptiveFarmObject,
      (farm.firstRun = true → farm.started = []) → farm.started.length ≤ 1 →
      ((farm.runs rs).firstRun = true → (farm.runs rs).started = []) ∧
      (farm.runs rs).started.length ≤ 1 ∧
      ((farm.runs rs).started.length ≠ farm.started.length → (0 : Int) ∈ rs) := by
  induction rs with
  | nil =>
    intro farm h1 h2
    exact ⟨h1, h2, fun h => absurd rfl h⟩
  | cons r rest ih =>
    intro farm h1 h2
    unfold AdaptiveFarmObject.runs
    obtain ⟨-, -, -, s4, s5⟩ := run_step farm none (fun _ => none) (some 0) false r
    have k1 : (farm.run none (fun _ => none) (some 0) false r).2.firstRun = true →
        (farm.run none (fun _ => none) (some 0) false r).2.started = [] := by
      intro hf
      rw [s4] at hf
      simp only [Bool.and_eq_true, decide_eq_true_eq] at hf
      rw [if_neg (by tauto)] at s5
      rw [h1 hf.1] at s5
      exact List.length_eq_zero.1 s5
    have k2 : (farm.run none (fun _ => none) (some 0) false r).2.started.length ≤ 1 := by
      rw [s5]
      split_ifs with hc
      · rw [h1 hc.1]
        simp
      · exact h2
    obtain ⟨j1, j2, j3⟩ := ih _ k1 k2
    refine ⟨j1, j2, ?_⟩
    intro hne
    by_cases hc : farm.firstRun = true ∧ r = 0
    · rw [hc.2]
      exact List.mem_cons_self _ _
    · rw [if_neg hc] at s5
      rw [← s5] at hne
      exact List.mem_cons_of_mem _ (j3 hne)

/-- C24 fails on the code.  On a farm of two workers a run whose underlying run
fails leaves `_firstRun` set, so the next run pushes the workers a second time:
after a failed and a successful run the list of adaptive workers holds four
entries for two workers, and the one manager started has been constructed on
four workers.  After a first run that succeeds the list holds the two workers. -/
theorem run_after_failed_run_duplicates :
    (AdaptiveFarmObject.construct (fun _ => AdaptiveNode.construct) [10, 11] none none
      osMappingParameters).1 = .returned () ∧
    twoWorkerFarm.workers = [10, 11] ∧
    twoWorkerFarm.adaptiveWorkers = [] ∧
    (twoWorkerFarm.run none (fun _ => none) (some 0) false (-1)).1 = .returned (-1) ∧
    (twoWorkerFarm.runs [-1]).adaptiveWorkers = [10, 11] ∧
    (twoWorkerFarm.runs [-1]).firstRun = true ∧
    (twoWorkerFarm.runs [-1]).started = [] ∧
    (twoWorkerFarm.runs [-1, 0]).workers = [10, 11] ∧
    (twoWorkerFarm.runs [-1, 0]).adaptiveWorkers = [10, 11, 10, 11] ∧
    (twoWorkerFarm.runs [-1, 0]).started.map (fun m => m.maxNumWorkers) = [4] ∧
    (twoWorkerFarm.runs [0]).adaptiveWorkers = [10, 11] ∧
    (twoWorkerFarm.runs [0]).started.map (fun m => m.maxNumWorkers) = [2] := by
  decide

/-! ## Theorems on the divisors of the estimates -/

/-- Under a load contract the estimate for no worker divides by zero, whatever
the frequency. -/
theorem getEstimatedMonitoredValue_load_no_worker (m : AdaptivityManagerFarm)
    (h : m.p.requiredBandwidth = 0) (monitoredValue : ℚ) (frequency : Frequency) :
    getEstimatedMonitoredValue m monitoredValue frequency 0 = .threw .undefinedBehaviour := by
  unfold getEstimatedMonitoredValue
  rw [if_neg (by simp [h]), if_pos (by simp)]

/-- Under a load contract the search divides by zero at the first pair it
examines, as soon as there is a worker and a frequency to examine. -/
theorem getNewConfiguration_load_undefined (m : AdaptivityManagerFarm)
    (h : m.p.requiredBandwidth = 0) (hw : m.maxNumWorkers ≠ 0)
    (hf : m.availableFrequencies ≠ []) (monitoredValue : ℚ) (frequency : Frequency)
    (numWorkers : Nat) :
    getNewConfiguration m monitoredValue frequency numWorkers = .threw .undefinedBehaviour := by
  unfold getNewConfiguration
  rcases hn : m.maxNumWorkers with _ | k
  · exact absurd hn hw
  rcases hl : m.availableFrequencies with _ | ⟨f0, rest⟩
  · exact absurd hl hf
  unfold searchWorkers searchFrequencies
  rw [hl]
  dsimp only
  rw [show (0 % 2 ^ 32 : Nat) = 0 from rfl, getEstimatedMonitoredValue_load_no_worker m h]

/-- C25 fails on the code.  Under a load contract with two workers the first
pair the search examines is (1.0 GHz, 0 workers): the divisor `frequency *
numWorkers` is 0, the integer division is undefined, and `getNewConfiguration`
does not get past it. -/
theorem getNewConfiguration_zero_divisor :
    (validate loadParameters).1 = .returned .VALIDATION_OK ∧
    loadManager.p.requiredBandwidth = 0 ∧
    loadManager.maxNumWorkers = 2 ∧
    loadManager.availableFrequencies = [1000000, 1500000, 2000000] ∧
    (1000000 * 0) % 2 ^ 32 = 0 ∧
    getEstimatedMonitoredValue loadManager 85 1000000 0 = .threw .undefinedBehaviour ∧
    getNewConfiguration loadManager 85 0 0 = .threw .undefinedBehaviour := by
  have h3 : loadManager.availableFrequencies = [1000000, 1500000, 2000000] := by decide
  have h4 : loadManager.p.requiredBandwidth = 0 := by decide
  have h6 : loadManager.maxNumWorkers = 2 := by decide
  refine ⟨by decide, h4, h6, h3, by decide, ?_, ?_⟩
  · norm_num [getEstimatedMonitoredValue, h4]
  · norm_num [getNewConfiguration, searchWorkers, searchFrequencies,
      getEstimatedMonitoredValue, h3, h4, h6]


/-! ## Theorems on the pinning of the stages -/

theorem mapEmitter_frame (m : AdaptivityManagerFarm) (l : MappingLocals) :
    (mapEmitter m l).2.farm = m.farm ∧ (mapEmitter m l).2.workers = m.workers ∧
    (mapEmitter m l).2.p = m.p ∧ (mapEmitter m l).2.calls = m.calls := by
  unfold mapEmitter
  split_ifs
  · split <;> exact ⟨rfl, rfl, rfl, rfl⟩
  · exact ⟨rfl, rfl, rfl, rfl⟩

theorem mapWorkers_frame (m : AdaptivityManagerFarm) (l : MappingLocals) :
    (mapWorkers m l).2.farm = m.farm ∧ (mapWorkers m l).2.workers = m.workers ∧
    (mapWorkers m l).2.p = m.p ∧ (mapWorkers m l).2.calls = m.calls := by
  unfold mapWorkers
  dsimp only
  split_ifs <;> exact ⟨rfl, rfl, rfl, rfl⟩

theorem mapCollector_frame (m : AdaptivityManagerFarm) (l : MappingLocals) :
    (mapCollector m l).2.farm = m.farm ∧ (mapCollector m l).2.workers = m.workers ∧
    (mapCollector m l).2.p = m.p ∧ (mapCollector m l).2.calls = m.calls := by
  unfold mapCollector
  split_ifs
  · split <;> exact ⟨rfl, rfl, rfl, rfl⟩
  · exact ⟨rfl, rfl, rfl, rfl⟩

/-- The EWC assignment changes the mapping only: the farm, the workers, the
parameters and the calls issued so far are as before. -/
theorem mapRemainingStages_frame (m : AdaptivityManagerFarm) (l : MappingLocals) :
    (mapRemainingStages m l).2.farm = m.farm ∧
    (mapRemainingStages m l).2.workers = m.workers ∧
    (mapRemainingStages m l).2.p = m.p ∧
    (mapRemainingStages m l).2.calls = m.calls := by
  have trans1 : ∀ (a b c : AdaptivityManagerFarm),
      (a.farm = b.farm ∧ a.workers = b.workers ∧ a.p = b.p ∧ a.calls = b.calls) →
      (b.farm = c.farm ∧ b.workers = c.workers ∧ b.p = c.p ∧ b.calls = c.calls) →
      (a.farm = c.farm ∧ a.workers = c.workers ∧ a.p = c.p ∧ a.calls = c.calls) :=
    fun a b c h1 h2 =>
      ⟨h1.1.trans h2.1, h1.2.1.trans h2.2.1, h1.2.2.1.trans h2.2.2.1, h1.2.2.2.trans h2.2.2.2⟩
  have fe := mapEmitter_frame m l
  unfold mapRemainingStages
  rcases h1 : mapEmitter m l with ⟨l1 | e, m1⟩
  · rw [h1] at fe
    dsimp only at fe ⊢
    have fw := mapWorkers_frame m1 l1
    rcases h2 : mapWorkers m1 l1 with ⟨l2 | e, m2⟩
    · rw [h2] at fw
      dsimp only at fw ⊢
      exact trans1 _ _ _ (mapCollector_frame m2 l2) (trans1 _ _ _ fw fe)
    · rw [h2] at fw
      exact trans1 _ _ _ fw fe
  · rw [h1] at fe
    exact fe

theorem moveNode_of_thread (node : AdaptiveNode) (vc : Option VirtualCore)
    (m : AdaptivityManagerFarm) (thread : Nat) (h : node.thread = some thread) :
    moveNode node vc m = (.returned (), { m with calls := m.calls ++ [.move thread vc] }) := by
  unfold moveNode AdaptiveNode.getThreadHandler
  rw [h]

/-- The loop of lines 341-343 on workers whose threads have started, with a
VirtualCore stored for each of them: worker `i` is moved to
`_workersVirtualCores[i]`, in order. -/
theorem moveWorkers_calls :
    ∀ (ws : List AdaptiveNode) (threads : List Nat) (i : Nat) (m : AdaptivityManagerFarm),
      ws.map (fun node => node.thread) = threads.map some →
      i + ws.length ≤ m.workersVirtualCores.length →
      moveWorkers ws i m =
        (.returned (),
          { m with calls := m.calls ++
              (List.zipWith (fun thread vc => PlatformCall.move thread (some vc)) threads
                (m.workersVirtualCores.drop i)) }) := by
  intro ws
  induction ws with
  | nil =>
    intro threads i m ht _
    have : threads = [] := by
      rcases threads with _ | ⟨t, ts⟩
      · rfl
      · simp at ht
    subst this
    simp [moveWorkers]
  | cons w rest ih =>
    intro threads i m ht hlen
    rcases threads with _ | ⟨t, ts⟩
    · simp at ht
    simp only [List.map_cons, List.cons.injEq] at ht
    obtain ⟨hw, hrest⟩ := ht
    simp only [List.length_cons] at hlen
    unfold moveWorkers
    rcases hv : m.workersVirtualCores[i]? with _ | vc
    · rw [List.getElem?_eq_none_iff] at hv
      omega
    dsimp only
    rw [moveNode_of_thread w (some vc) m t hw]
    simp only [andThen]
    rw [ih ts (i + 1) _ hrest (by dsimp only; omega)]
    have hd : m.workersVirtualCores.drop i = vc :: m.workersVirtualCores.drop (i + 1) := by
      rw [List.drop_eq_getElem?_toList_append, hv]
      rfl
    rw [hd]
    simp

/-- The section "Perform mapping" on stages whose threads have started: the
emitter is moved to `_emitterVirtualCore`, the collector to
`_collectorVirtualCore`, and worker `i` to `_workersVirtualCores[i]`, in this
order. -/
theorem performMapping_calls (m : AdaptivityManagerFarm) (te tc : Option Nat)
    (tw : List Nat)
    (hte : m.farm.getAdaptiveEmitter.map (fun node => node.thread) = te.map some)
    (htc : m.farm.getAdaptiveCollector.map (fun node => node.thread) = tc.map some)
    (htw : m.workers.map (fun node => node.thread) = tw.map some)
    (hlen : m.workers.length ≤ m.workersVirtualCores.length) :
    performMapping m =
      (.returned (),
        { m with calls := m.calls ++
            (te.toList.map (fun thread => PlatformCall.move thread m.emitterVirtualCore) ++
              tc.toList.map (fun thread => PlatformCall.move thread m.collectorVirtualCore) ++
              List.zipWith (fun thread vc => PlatformCall.move thread (some vc)) tw
                m.workersVirtualCores) }) := by
  unfold performMapping
  rcases he : m.farm.getAdaptiveEmitter with _ | nodeE
  · rw [he] at hte
    rcases te with _ | t1
    swap
    · simp at hte
    simp only [andThen]
    rcases hc : m.farm.getAdaptiveCollector with _ | nodeC
    · rw [hc] at htc
      rcases tc with _ | t2
      swap
      · simp at htc
      dsimp only
      refine Eq.trans (moveWorkers_calls m.workers tw 0 _ htw ?_) ?_
      · dsimp only
        omega
      · simp
    · rw [hc] at htc
      rcases tc with _ | t2
      · simp at htc
      simp only [Option.map_some', Option.some.injEq] at htc
      dsimp only
      rw [moveNode_of_thread nodeC _ _ t2 htc]
      dsimp only
      refine Eq.trans (moveWorkers_calls m.workers tw 0 _ htw ?_) ?_
      · dsimp only
        omega
      · simp
  · rw [he] at hte
    rcases te with _ | t1
    · simp at hte
    simp only [Option.map_some', Option.some.injEq] at hte
    dsimp only
    rw [moveNode_of_thread nodeE _ _ t1 hte]
    simp only [andThen]
    rcases hc : m.farm.getAdaptiveCollector with _ | nodeC
    · rw [hc] at htc
      rcases tc with _ | t2
      swap
      · simp at htc
      dsimp only
      refine Eq.trans (moveWorkers_calls m.workers tw 0 _ htw ?_) ?_
      · dsimp only
        omega
      · simp
    · rw [hc] at htc
      rcases tc with _ | t2
      · simp at htc
      simp only [Option.map_some', Option.some.injEq] at htc
      dsimp only
      rw [moveNode_of_thread nodeC _ _ t2 htc]
      dsimp only
      refine Eq.trans (moveWorkers_calls m.workers tw 0 _ htw ?_) ?_
      · dsimp only
        omega
      · simp

theorem hotUnplugAll_calls :
    ∀ (vcs : List VirtualCore) (m : AdaptivityManagerFarm),
      ∃ later, (hotUnplugAll vcs m).calls = m.calls ++ later
  | [], m => ⟨[], by simp [hotUnplugAll]⟩
  | vc :: vcs, m => by
    unfold hotUnplugAll
    split
    · obtain ⟨later, h⟩ := hotUnplugAll_calls vcs { m with calls := m.calls ++ [.hotUnplug vc] }
      exact ⟨[.hotUnplug vc] ++ later, by rw [h]; simp⟩
    · exact hotUnplugAll_calls vcs m

theorem setLowestFrequencyAll_calls :
    ∀ (ds : List Domain) (m : AdaptivityManagerFarm),
      ∃ later, (setLowestFrequencyAll ds m).2.calls = m.calls ++ later
  | [], m => ⟨[], by simp [setLowestFrequencyAll]⟩
  | d :: ds, m => by
    unfold setLowestFrequencyAll
    dsimp only
    split_ifs
    · exact ⟨_, by simp only [List.append_assoc]; rfl⟩
    · exact ⟨_, by simp only [List.append_assoc]; rfl⟩
    · obtain ⟨later, h⟩ := setLowestFrequencyAll_calls ds
        { m with calls := m.calls ++ [.setGovernor d.domainId .GOVERNOR_POWERSAVE] ++
          [.setGovernor d.domainId .GOVERNOR_USERSPACE] ++
          [.setLowestFrequencyUserspace d.domainId] }
      exact ⟨_, by rw [h]; simp only [List.append_assoc]; rfl⟩
    · obtain ⟨later, h⟩ := setLowestFrequencyAll_calls ds
        { m with calls := m.calls ++ [.setGovernor d.domainId .GOVERNOR_POWERSAVE] }
      exact ⟨_, by rw [h]; simp only [List.append_assoc]; rfl⟩

theorem treatUnusedVirtualCores_calls (m : AdaptivityManagerFarm) :
    ∃ later, (treatUnusedVirtualCores m).2.calls = m.calls ++ later := by
  unfold treatUnusedVirtualCores applyUnusedVirtualCoresStrategy
  dsimp only
  split
  · obtain ⟨later, h⟩ := hotUnplugAll_calls
      (if m.p.strategyNeverUsedVirtualCores = .STRATEGY_UNUSED_VC_AUTO then
        ({ m with p := { m.p with strategyNeverUsedVirtualCores :=
            computeAutoUnusedVCStrategy m m.unusedVirtualCores } } : AdaptivityManagerFarm)
        else m).unusedVirtualCores
      (if m.p.strategyNeverUsedVirtualCores = .STRATEGY_UNUSED_VC_AUTO then
        ({ m with p := { m.p with strategyNeverUsedVirtualCores :=
            computeAutoUnusedVCStrategy m m.unusedVirtualCores } } : AdaptivityManagerFarm)
        else m)
    refine ⟨later, h.trans ?_⟩
    split_ifs <;> rfl
  · obtain ⟨later, h⟩ := setLowestFrequencyAll_calls
      ((if m.p.strategyNeverUsedVirtualCores = .STRATEGY_UNUSED_VC_AUTO then
        ({ m with p := { m.p with strategyNeverUsedVirtualCores :=
            computeAutoUnusedVCStrategy m m.unusedVirtualCores } } : AdaptivityManagerFarm)
        else m).p.cpufreq.getDomainsComplete
        (if m.p.strategyNeverUsedVirtualCores = .STRATEGY_UNUSED_VC_AUTO then
        ({ m with p := { m.p with strategyNeverUsedVirtualCores :=
            computeAutoUnusedVCStrategy m m.unusedVirtualCores } } : AdaptivityManagerFarm)
        else m).unusedVirtualCores)
      (if m.p.strategyNeverUsedVirtualCores = .STRATEGY_UNUSED_VC_AUTO then
        ({ m with p := { m.p with strategyNeverUsedVirtualCores :=
            computeAutoUnusedVCStrategy m m.unusedVirtualCores } } : AdaptivityManagerFarm)
        else m)
    refine ⟨later, h.trans ?_⟩
    split_ifs <;> rfl
  · refine ⟨[], ?_⟩
    split_ifs <;> simp

theorem updatePstateDomains_calls (f : Frequency) :
    ∀ (ds : List Domain) (m : AdaptivityManagerFarm),
      ∃ later, (updatePstateDomains f ds m).2.calls = m.calls ++ later
  | [], m => ⟨[], by simp [updatePstateDomains]⟩
  | d :: ds, m => by
    unfold updatePstateDomains
    dsimp only
    split_ifs
    · exact ⟨_, rfl⟩
    · exact ⟨_, by simp only [List.append_assoc]; rfl⟩
    · obtain ⟨later, h⟩ := updatePstateDomains_calls f ds
        { m with calls := m.calls ++ [.setGovernor d.domainId m.p.frequencyGovernor] ++
          [.setGovernorBounds d.domainId m.p.frequencyLowerBound m.p.frequencyUpperBound] }
      exact ⟨_, by rw [h]; simp only [List.append_assoc]; rfl⟩
    · exact ⟨_, by simp only [List.append_assoc]; rfl⟩
    · obtain ⟨later, h⟩ := updatePstateDomains_calls f ds
        { m with calls := m.calls ++ [.setGovernor d.domainId m.p.frequencyGovernor] ++
          [.setFrequencyUserspace d.domainId f] }
      exact ⟨_, by rw [h]; simp only [List.append_assoc]; rfl⟩
    · obtain ⟨later, h⟩ := updatePstateDomains_calls f ds
        { m with calls := m.calls ++ [.setGovernor d.domainId m.p.frequencyGovernor] }
      exact ⟨_, by rw [h]; simp only [List.append_assoc]; rfl⟩

theorem setInitialPstate_calls (m : AdaptivityManagerFarm) (l : MappingLocals) :
    ∃ later, (setInitialPstate m l).2.calls = m.calls ++ later := by
  unfold setInitialPstate
  split_ifs
  · split
    · exact ⟨[], by simp⟩
    · dsimp only
      split
      · exact ⟨[], by simp⟩
      · unfold updatePstate
        exact updatePstateDomains_calls _ _ _
  · exact ⟨[], by simp⟩

/-! ## Completion of the sections that program the platform -/

theorem hotUnplugAll_p :
    ∀ (vcs : List VirtualCore) (m : AdaptivityManagerFarm), (hotUnplugAll vcs m).p = m.p
  | [], _ => rfl
  | vc :: vcs, m => by
    unfold hotUnplugAll
    split
    · exact hotUnplugAll_p vcs _
    · exact hotUnplugAll_p vcs m

theorem setLowestFrequencyAll_p :
    ∀ (ds : List Domain) (m : AdaptivityManagerFarm), (setLowestFrequencyAll ds m).2.p = m.p
  | [], _ => rfl
  | d :: ds, m => by
    unfold setLowestFrequencyAll
    dsimp only
    split_ifs
    · rfl
    · rfl
    · exact setLowestFrequencyAll_p ds _
    · exact setLowestFrequencyAll_p ds _

/-- The treatment of the unused VirtualCores rewrites at most the field
`strategyNeverUsedVirtualCores` of the parameters. -/
theorem treatUnusedVirtualCores_p (m : AdaptivityManagerFarm) :
    (treatUnusedVirtualCores m).2.p =
      { m.p with strategyNeverUsedVirtualCores :=
          (treatUnusedVirtualCores m).2.p.strategyNeverUsedVirtualCores } := by
  unfold treatUnusedVirtualCores applyUnusedVirtualCoresStrategy
  dsimp only
  split
  · rw [hotUnplugAll_p]
    split_ifs <;> rfl
  · rw [setLowestFrequencyAll_p]
    split_ifs <;> rfl
  · split_ifs <;> rfl

theorem setLowestFrequencyAll_returns :
    ∀ (ds : List Domain) (m : AdaptivityManagerFarm),
      (∀ d ∈ ds, d.setGovernor .GOVERNOR_POWERSAVE = true) →
      (setLowestFrequencyAll ds m).1 = .returned ()
  | [], _, _ => rfl
  | d :: ds, m, h => by
    unfold setLowestFrequencyAll
    dsimp only
    rw [if_neg (by simp [h d (List.mem_cons_self _ _)])]
    exact setLowestFrequencyAll_returns ds _ (fun d1 hd1 => h d1 (List.mem_cons_of_mem _ hd1))

theorem treatUnusedVirtualCores_returns (m : AdaptivityManagerFarm)
    (h : ∀ d ∈ m.p.cpufreq.getDomains, d.setGovernor .GOVERNOR_POWERSAVE = true) :
    (treatUnusedVirtualCores m).1 = .returned () := by
  unfold treatUnusedVirtualCores applyUnusedVirtualCoresStrategy
  dsimp only
  split
  · rfl
  · apply setLowestFrequencyAll_returns
    intro d hd
    apply h
    unfold CpuFreq.getDomainsComplete at hd
    have hd2 := (List.mem_filter.1 hd).1
    revert hd2
    split_ifs <;> exact fun hd2 => hd2
  · rfl

theorem updatePstateDomains_returns (f : Frequency) :
    ∀ (ds : List Domain) (m : AdaptivityManagerFarm),
      (∀ d ∈ ds, d.setGovernor m.p.frequencyGovernor = true ∧
        d.setGovernorBoundsOk = true ∧ d.setFrequencyUserspaceOk = true) →
      (updatePstateDomains f ds m).1 = .returned ()
  | [], _, _ => rfl
  | d :: ds, m, h => by
    obtain ⟨h1, h2, h3⟩ := h d (List.mem_cons_self _ _)
    have hrest : ∀ d1 ∈ ds, d1.setGovernor m.p.frequencyGovernor = true ∧
        d1.setGovernorBoundsOk = true ∧ d1.setFrequencyUserspaceOk = true :=
      fun d1 hd1 => h d1 (List.mem_cons_of_mem _ hd1)
    unfold updatePstateDomains
    dsimp only
    rw [if_neg (by simp [h1])]
    split_ifs
    · simp [h2] at *
    · exact updatePstateDomains_returns f ds _ hrest
    · simp [h3] at *
    · exact updatePstateDomains_returns f ds _ hrest
    · exact updatePstateDomains_returns f ds _ hrest

theorem setInitialPstate_returns (m : AdaptivityManagerFarm) (l : MappingLocals)
    (h : ∀ d ∈ m.p.cpufreq.getDomains, d.setGovernor m.p.frequencyGovernor = true ∧
      d.setGovernorBoundsOk = true ∧ d.setFrequencyUserspaceOk = true)
    (hf : m.p.strategyFrequencies ≠ .STRATEGY_FREQUENCY_NO →
      m.p.strategyFrequencies ≠ .STRATEGY_FREQUENCY_OS → firstDomainFrequencies m.p ≠ []) :
    (setInitialPstate m l).1 = .returned () := by
  unfold setInitialPstate
  split_ifs with hs
  · have hne := hf hs.1 hs.2
    unfold firstDomainFrequencies at hne
    rcases hd : m.p.cpufreq.getDomains with _ | ⟨domain0, rest⟩
    · rw [hd] at hne
      exact absurd rfl hne
    rw [hd] at hne
    dsimp only at hne
    simp only [List.getElem?_cons_zero]
    rcases hl : domain0.getAvailableFrequencies.getLast? with _ | highest
    · exact absurd (List.getLast?_eq_none_iff.1 hl) hne
    dsimp only
    unfold updatePstate
    apply updatePstateDomains_returns
    intro d hdm
    apply h
    unfold CpuFreq.getDomainsCovering at hdm
    dsimp only at hdm
    exact (List.mem_filter.1 hdm).1
  · rfl

/-- The treatment of the unused VirtualCores and the initial P-state (lines
345-356) complete when the platform accepts what they program and, under a
frequency strategy other than NO and OS, the first domain offers a frequency. -/
theorem treatUnused_setInitialPstate_returns (m : AdaptivityManagerFarm) (l : MappingLocals)
    (h : ∀ d ∈ m.p.cpufreq.getDomains, d.setGovernor .GOVERNOR_POWERSAVE = true ∧
      d.setGovernor m.p.frequencyGovernor = true ∧
      d.setGovernorBoundsOk = true ∧ d.setFrequencyUserspaceOk = true)
    (hf : m.p.strategyFrequencies ≠ .STRATEGY_FREQUENCY_NO →
      m.p.strategyFrequencies ≠ .STRATEGY_FREQUENCY_OS → firstDomainFrequencies m.p ≠ []) :
    (andThen (treatUnusedVirtualCores m) (fun m1 => setInitialPstate m1 l)).1 =
      .returned () := by
  have hr := treatUnusedVirtualCores_returns m (fun d hd => (h d hd).1)
  have hp := treatUnusedVirtualCores_p m
  rcases ht : treatUnusedVirtualCores m with ⟨_ | e, m1⟩
  · rw [ht] at hp
    dsimp only at hp
    simp only [andThen]
    have e1 : m1.p.cpufreq = m.p.cpufreq := by rw [hp]
    have e2 : m1.p.frequencyGovernor = m.p.frequencyGovernor := by rw [hp]
    have e3 : m1.p.strategyFrequencies = m.p.strategyFrequencies := by rw [hp]
    apply setInitialPstate_returns
    · intro d hd
      rw [e1] at hd
      rw [e2]
      exact (h d hd).2
    · intro h1 h2
      rw [e3] at h1 h2
      have e4 : firstDomainFrequencies m1.p = firstDomainFrequencies m.p := by
        unfold firstDomainFrequencies
        rw [e1]
      rw [e4]
      exact hf h1 h2
  · rw [ht] at hr
    simp at hr

/-! ## The parameters through the sections of `mapAndSetFrequencies` -/

theorem andThen_p (r : Completion Unit × AdaptivityManagerFarm)
    (k : AdaptivityManagerFarm → Completion Unit × AdaptivityManagerFarm)
    (hk : ∀ m, (k m).2.p = m.p) : (andThen r k).2.p = r.2.p := by
  rcases r with ⟨_ | e, s⟩
  · exact hk s
  · rfl

theorem setVirtualCoreToHighestFrequency_p (m : AdaptivityManagerFarm)
    (vc : Option VirtualCore) :
    (setVirtualCoreToHighestFrequency m vc).2.p = m.p := by
  unfold setVirtualCoreToHighestFrequency
  split
  · exact rfl
  · dsimp only
    split_ifs <;> exact rfl

theorem placeSensitiveStage_p (m : AdaptivityManagerFarm)
    (pcs : List PhysicalCore) (index : Nat) :
    (placeSensitiveStage m pcs index).2.p = m.p := by
  unfold placeSensitiveStage
  split
  · exact rfl
  · dsimp only
    have h := setVirtualCoreToHighestFrequency_p m
      (PhysicalCore.getVirtualCore ‹PhysicalCore›)
    split
    · rename_i heq
      rw [heq] at h
      exact h
    · rename_i heq
      rw [heq] at h
      exact h

theorem mapSensitiveEmitter_p (m : AdaptivityManagerFarm) (l : MappingLocals)
    (pcs : List PhysicalCore) (index : Nat) :
    (mapSensitiveEmitter m l pcs index).2.1.p = m.p := by
  unfold mapSensitiveEmitter
  split_ifs
  · have h := placeSensitiveStage_p m pcs index
    split
    · rename_i heq
      rw [heq] at h
      exact h
    · rename_i heq
      rw [heq] at h
      exact Eq.trans rfl h
  · exact rfl

theorem mapSensitiveCollector_p (m : AdaptivityManagerFarm)
    (l : MappingLocals) (pcs : List PhysicalCore) (index : Nat) :
    (mapSensitiveCollector m l pcs index).2.1.p = m.p := by
  unfold mapSensitiveCollector
  split_ifs
  · have h := placeSensitiveStage_p m pcs index
    split
    · rename_i heq
      rw [heq] at h
      exact h
    · rename_i heq
      rw [heq] at h
      exact Eq.trans rfl h
  · exact rfl

theorem mapSensitiveStages_p (m : AdaptivityManagerFarm) (l : MappingLocals) :
    (mapSensitiveStages m l).2.p = m.p := by
  unfold mapSensitiveStages
  dsimp only
  split_ifs
  · have h1 := mapSensitiveEmitter_p m l
      (getSeparatedDomainPhysicalCores m (List.take (scalableVirtualCoresNum m l)
        m.unusedVirtualCores)) 0
    split
    · rename_i heq
      rw [heq] at h1
      exact h1
    · rename_i m1 l1 index heq
      rw [heq] at h1
      have h2 := mapSensitiveCollector_p m1 l1
        (getSeparatedDomainPhysicalCores m (List.take (scalableVirtualCoresNum m l)
          m.unusedVirtualCores)) index
      split
      · rename_i heq2
        rw [heq2] at h2
        exact Eq.trans h2 h1
      · rename_i heq2
        rw [heq2] at h2
        exact Eq.trans h2 h1
  · exact rfl
  · have h1 := mapSensitiveEmitter_p m l
      (getSeparatedDomainPhysicalCores m m.unusedVirtualCores) 0
    split
    · rename_i heq
      rw [heq] at h1
      exact h1
    · rename_i m1 l1 index heq
      rw [heq] at h1
      have h2 := mapSensitiveCollector_p m1 l1
        (getSeparatedDomainPhysicalCores m m.unusedVirtualCores) index
      split
      · rename_i heq2
        rw [heq2] at h2
        exact Eq.trans h2 h1
      · rename_i heq2
        rw [heq2] at h2
        exact Eq.trans h2 h1
  · exact rfl
  · exact rfl

theorem moveNode_p (node : AdaptiveNode) (vc : Option VirtualCore)
    (m : AdaptivityManagerFarm) : (moveNode node vc m).2.p = m.p := by
  unfold moveNode
  split <;> exact rfl

theorem moveWorkers_p :
    ∀ (ws : List AdaptiveNode) (i : Nat) (m : AdaptivityManagerFarm),
      (moveWorkers ws i m).2.p = m.p
  | [], _, m => rfl
  | w :: ws, i, m => by
    unfold moveWorkers
    split
    · split <;> exact rfl
    · exact Eq.trans
        (andThen_p _ _ (moveWorkers_p ws (i + 1)))
        (moveNode_p _ _ _)

theorem performMapping_p (m : AdaptivityManagerFarm) :
    (performMapping m).2.p = m.p := by
  unfold performMapping
  refine Eq.trans (andThen_p _ _ ?_) ?_
  · intro m1
    refine Eq.trans
      (andThen_p _ _ (moveWorkers_p _ _)) ?_
    split
    · exact moveNode_p _ _ _
    · exact rfl
  · split
    · exact moveNode_p _ _ _
    · exact rfl

theorem treatUnusedVirtualCores_none (m : AdaptivityManagerFarm)
    (h : m.p.strategyNeverUsedVirtualCores = .STRATEGY_UNUSED_VC_NONE) :
    treatUnusedVirtualCores m = (.returned (), m) := by
  unfold treatUnusedVirtualCores applyUnusedVirtualCoresStrategy
  dsimp only
  rw [if_neg (by rw [h]; decide), h]

theorem setInitialPstate_no_os (m : AdaptivityManagerFarm) (l : MappingLocals)
    (h : m.p.strategyFrequencies = .STRATEGY_FREQUENCY_NO ∨
      m.p.strategyFrequencies = .STRATEGY_FREQUENCY_OS) :
    setInitialPstate m l = (.returned (), m) := by
  unfold setInitialPstate
  rw [if_neg (by tauto)]

/-- C7. With no sensitive stage and a candidate list `L` long enough for the
stages, `mapAndSetFrequencies` assigns `L[0]` to the emitter (if present), the
next entries in order to the workers, the following entry to the collector (if
present), and leaves the remaining suffix of `L` as the unused list.  When the
threads of the stages have started, the EWC assignment and the section "Perform
mapping" complete and pin every stage to the VirtualCore assigned to it, with
`move` on the emitter, the collector and the workers in turn; the call then runs
the treatment of the unused VirtualCores and the initial P-state, whose calls
follow the moves; it completes with the moves as its only calls when the unused
VirtualCores are left alone (NONE) and the frequency strategy is NO or OS, and it
completes under every strategy when the domains accept what is programmed on
them and, for the initial P-state, the first domain offers a frequency.
On one Cpu of four PhysicalCores of two siblings this gives S1 (workers on the
first siblings of PhysicalCores 0 and 1) and S2 (emitter on PC0/s0, workers on
PC1..PC3/s0 and PC0/s1, collector on PC1/s1, unused PC2/s1 and PC3/s1). -/
theorem mapAndSetFrequencies_ewc (m : AdaptivityManagerFarm) (L : List VirtualCore)
    (hmap : m.p.strategyMapping ≠ .STRATEGY_MAPPING_NO)
    (hse : m.p.sensitiveEmitter = false) (hsc : m.p.sensitiveCollector = false)
    (hset : setUnusedVirtualCores m = (.returned (), { m with unusedVirtualCores := L }))
    (hfresh : m.workersVirtualCores = [])
    (hlen : (if m.farm.getEmitter.isSome then 1 else 0) + m.workers.length +
      (if m.farm.getCollector.isSome then 1 else 0) ≤ L.length) :
    ((mapAndSetFrequencies m).2.emitterVirtualCore =
        (if m.farm.getEmitter.isSome then L[0]? else m.emitterVirtualCore) ∧
      (mapAndSetFrequencies m).2.workersVirtualCores =
        (L.drop (if m.farm.getEmitter.isSome then 1 else 0)).take m.workers.length ∧
      (mapAndSetFrequencies m).2.collectorVirtualCore =
        (if m.farm.getCollector.isSome then
          L[(if m.farm.getEmitter.isSome then 1 else 0) + m.workers.length]?
          else m.collectorVirtualCore) ∧
      (mapAndSetFrequencies m).2.unusedVirtualCores =
        L.drop ((if m.farm.getEmitter.isSome then 1 else 0) + m.workers.length +
          (if m.farm.getCollector.isSome then 1 else 0))) ∧
    (∀ (te tc : Option Nat) (tw : List Nat),
      m.farm.getAdaptiveEmitter.map (fun node => node.thread) = te.map some →
      m.farm.getAdaptiveCollector.map (fun node => node.thread) = tc.map some →
      m.workers.map (fun node => node.thread) = tw.map some →
      (∃ (lb : MappingLocals) (mc md : AdaptivityManagerFarm),
        mapRemainingStages { m with unusedVirtualCores := L }
          { emitterMappingRequired := m.farm.getEmitter.isSome
            collectorMappingRequired := m.farm.getCollector.isSome
            frequencyScalableVirtualCores := [] } = (.returned lb, mc) ∧
        performMapping mc = (.returned (), md) ∧
        md.calls = m.calls ++
          (te.toList.map (fun thread =>
              PlatformCall.move thread (mapAndSetFrequencies m).2.emitterVirtualCore) ++
            tc.toList.map (fun thread =>
              PlatformCall.move thread (mapAndSetFrequencies m).2.collectorVirtualCore) ++
            List.zipWith (fun thread vc => PlatformCall.move thread (some vc)) tw
              (mapAndSetFrequencies m).2.workersVirtualCores) ∧
        mapAndSetFrequencies m =
          andThen (treatUnusedVirtualCores md) (fun m1 => setInitialPstate m1 lb)) ∧
      (∃ later : List PlatformCall,
        (mapAndSetFrequencies m).2.calls = m.calls ++
          (te.toList.map (fun thread =>
              PlatformCall.move thread (mapAndSetFrequencies m).2.emitterVirtualCore) ++
            tc.toList.map (fun thread =>
              PlatformCall.move thread (mapAndSetFrequencies m).2.collectorVirtualCore) ++
            List.zipWith (fun thread vc => PlatformCall.move thread (some vc)) tw
              (mapAndSetFrequencies m).2.workersVirtualCores) ++ later) ∧
      (m.p.strategyNeverUsedVirtualCores = .STRATEGY_UNUSED_VC_NONE →
        (m.p.strategyFrequencies = .STRATEGY_FREQUENCY_NO ∨
          m.p.strategyFrequencies = .STRATEGY_FREQUENCY_OS) →
        (mapAndSetFrequencies m).1 = .returned () ∧
        (mapAndSetFrequencies m).2.calls = m.calls ++
          (te.toList.map (fun thread =>
              PlatformCall.move thread (mapAndSetFrequencies m).2.emitterVirtualCore) ++
            tc.toList.map (fun thread =>
              PlatformCall.move thread (mapAndSetFrequencies m).2.collectorVirtualCore) ++
            List.zipWith (fun thread vc => PlatformCall.move thread (some vc)) tw
              (mapAndSetFrequencies m).2.workersVirtualCores)) ∧
      ((∀ d ∈ m.p.cpufreq.getDomains, d.setGovernor .GOVERNOR_POWERSAVE = true ∧
          d.setGovernor m.p.frequencyGovernor = true ∧
          d.setGovernorBoundsOk = true ∧ d.setFrequencyUserspaceOk = true) →
        (m.p.strategyFrequencies ≠ .STRATEGY_FREQUENCY_NO →
          m.p.strategyFrequencies ≠ .STRATEGY_FREQUENCY_OS →
          firstDomainFrequencies m.p ≠ []) →
        (mapAndSetFrequencies m).1 = .returned ())) ∧
    ((mapAndSetFrequencies s1Manager).1 = .returned () ∧
      (mapAndSetFrequencies s1Manager).2.workersVirtualCores.map some =
        [s1Topology.sibling 0 0 0, s1Topology.sibling 0 1 0] ∧
      (mapAndSetFrequencies s1Manager).2.calls =
        [.move 1 (s1Topology.sibling 0 0 0), .move 2 (s1Topology.sibling 0 1 0)]) ∧
    ((mapAndSetFrequencies s2Manager).1 = .returned () ∧
      (mapAndSetFrequencies s2Manager).2.emitterVirtualCore = s1Topology.sibling 0 0 0 ∧
      (mapAndSetFrequencies s2Manager).2.workersVirtualCores.map some =
        [s1Topology.sibling 0 1 0, s1Topology.sibling 0 2 0, s1Topology.sibling 0 3 0,
          s1Topology.sibling 0 0 1] ∧
      (mapAndSetFrequencies s2Manager).2.collectorVirtualCore = s1Topology.sibling 0 1 1 ∧
      (mapAndSetFrequencies s2Manager).2.unusedVirtualCores.map some =
        [s1Topology.sibling 0 2 1, s1Topology.sibling 0 3 1] ∧
      (mapAndSetFrequencies s2Manager).2.calls =
        [.move 0 (s1Topology.sibling 0 0 0), .move 5 (s1Topology.sibling 0 1 1),
          .move 1 (s1Topology.sibling 0 1 0), .move 2 (s1Topology.sibling 0 2 0),
          .move 3 (s1Topology.sibling 0 3 0), .move 4 (s1Topology.sibling 0 0 1)]) := by
  obtain ⟨⟨l', hl'⟩, h1, h2, h3, h4⟩ := mapRemainingStages_state
    { m with unusedVirtualCores := L }
    { emitterMappingRequired := m.farm.getEmitter.isSome
      collectorMappingRequired := m.farm.getCollector.isSome
      frequencyScalableVirtualCores := [] } hfresh hlen
  obtain ⟨f1, f2, f3, f4⟩ := mapRemainingStages_frame
    { m with unusedVirtualCores := L }
    { emitterMappingRequired := m.farm.getEmitter.isSome
      collectorMappingRequired := m.farm.getCollector.isSome
      frequencyScalableVirtualCores := [] }
  rcases hr : mapRemainingStages { m with unusedVirtualCores := L }
    { emitterMappingRequired := m.farm.getEmitter.isSome
      collectorMappingRequired := m.farm.getCollector.isSome
      frequencyScalableVirtualCores := [] } with ⟨c, mc⟩
  rw [hr] at hl' h1 h2 h3 h4 f1 f2 f3 f4
  dsimp only at hl' h1 h2 h3 h4 f1 f2 f3 f4
  subst hl'
  have hrun : mapAndSetFrequencies m =
      andThen (performMapping mc) (fun m1 =>
        andThen (treatUnusedVirtualCores m1) (fun m2 => setInitialPstate m2 l')) := by
    unfold mapAndSetFrequencies
    rw [if_neg hmap, hset]
    simp only [andThen]
    rw [mapSensitiveStages_of_not_sensitive { m with unusedVirtualCores := L } _ hse hsc]
    dsimp only
    rw [hr]
  have hsame : sameMapping (mapAndSetFrequencies m).2 mc := by
    rw [hrun]
    refine sameMapping_trans (andThen_sameMapping _ _ ?_) (performMapping_sameMapping _)
    intro m3
    exact sameMapping_trans (andThen_sameMapping _ _ (fun m4 => setInitialPstate_sameMapping m4 l'))
      (treatUnusedVirtualCores_sameMapping m3)
  obtain ⟨s1, s2, s3, s4⟩ := hsame
  refine ⟨⟨s1.trans h1, s3.trans h2, s2.trans h3, s4.trans h4⟩, ?_, by decide, by decide⟩
  intro te tc tw hte htc htw
  have hwlen : mc.workers.length ≤ mc.workersVirtualCores.length := by
    rw [f2, h2, List.length_take, List.length_drop]
    split_ifs at hlen ⊢ <;> omega
  have hp := performMapping_calls mc te tc tw (by rw [f1]; exact hte) (by rw [f1]; exact htc)
    (by rw [f2]; exact htw) hwlen
  rw [s1, s2, s3]
  have hrun2 : mapAndSetFrequencies m =
      andThen (treatUnusedVirtualCores
        { mc with calls := mc.calls ++
          (te.toList.map (fun thread => PlatformCall.move thread mc.emitterVirtualCore) ++
            tc.toList.map (fun thread => PlatformCall.move thread mc.collectorVirtualCore) ++
            List.zipWith (fun thread vc => PlatformCall.move thread (some vc)) tw
              mc.workersVirtualCores) })
        (fun m1 => setInitialPstate m1 l') := by
    rw [hrun, hp]
    rfl
  refine ⟨⟨l', mc, _, rfl, hp, by dsimp only; rw [f4], hrun2⟩, ?_, ?_, ?_⟩
  · rw [hrun2]
    obtain ⟨later1, e1⟩ := treatUnusedVirtualCores_calls
      { mc with calls := mc.calls ++
        (te.toList.map (fun thread => PlatformCall.move thread mc.emitterVirtualCore) ++
          tc.toList.map (fun thread => PlatformCall.move thread mc.collectorVirtualCore) ++
          List.zipWith (fun thread vc => PlatformCall.move thread (some vc)) tw
            mc.workersVirtualCores) }
    rcases ht : treatUnusedVirtualCores
      { mc with calls := mc.calls ++
        (te.toList.map (fun thread => PlatformCall.move thread mc.emitterVirtualCore) ++
          tc.toList.map (fun thread => PlatformCall.move thread mc.collectorVirtualCore) ++
          List.zipWith (fun thread vc => PlatformCall.move thread (some vc)) tw
            mc.workersVirtualCores) } with ⟨_ | e, m5⟩
    · rw [ht] at e1
      dsimp only at e1
      simp only [andThen]
      obtain ⟨later2, e2⟩ := setInitialPstate_calls m5 l'
      refine ⟨later1 ++ later2, ?_⟩
      rw [e2, e1, f4]
      simp only [List.append_assoc]
    · rw [ht] at e1
      dsimp only at e1
      simp only [andThen]
      refine ⟨later1, ?_⟩
      rw [e1, f4]
  · intro hnone hnoos
    rw [hrun2, treatUnusedVirtualCores_none _ (by dsimp only; rw [f3]; exact hnone)]
    simp only [andThen]
    rw [setInitialPstate_no_os _ _ (by dsimp only; rw [f3]; exact hnoos)]
    exact ⟨rfl, by dsimp only; rw [f4]⟩
  · intro hplat hfreq
    rw [hrun2]
    apply treatUnused_setInitialPstate_returns
    · dsimp only
      rw [f3]
      exact hplat
    · dsimp only
      rw [f3]
      exact hfreq

/-- Witness for C7: scenario S2, with the threads 0 (emitter), 1 to 4 (workers)
and 5 (collector). -/
theorem mapAndSetFrequencies_ewc_witness :
    (mapAndSetFrequencies s2Manager).2.unusedVirtualCores =
      [core 0, core 1, core 2, core 3, core 4, core 5, core 6, core 7].drop (1 + 4 + 1) ∧
    (mapAndSetFrequencies s2Manager).1 = .returned () ∧
    (mapAndSetFrequencies s2Manager).2.calls = s2Manager.calls ++
      ((some 0).toList.map (fun thread =>
          PlatformCall.move thread (mapAndSetFrequencies s2Manager).2.emitterVirtualCore) ++
        (some 5).toList.map (fun thread =>
          PlatformCall.move thread (mapAndSetFrequencies s2Manager).2.collectorVirtualCore) ++
        List.zipWith (fun thread vc => PlatformCall.move thread (some vc)) [1, 2, 3, 4]
          (mapAndSetFrequencies s2Manager).2.workersVirtualCores) :=
  have h := mapAndSetFrequencies_ewc s2Manager
    [core 0, core 1, core 2, core 3, core 4, core 5, core 6, core 7]
    (by decide) rfl rfl (by decide) rfl (by decide)
  ⟨h.1.2.2.2, (h.2.1 (some 0) (some 5) [1, 2, 3, 4] rfl rfl rfl).2.2.1 rfl (Or.inl rfl)⟩

/-! ## The initial P-state at the end of `mapAndSetFrequencies` -/

/-- A call of `mapAndSetFrequencies` that completes under a mapping strategy
other than NO has completed every section before lines 351-356, and those lines
run on the state and the locals these sections leave; the parameters are then as
at the start except for `strategyNeverUsedVirtualCores`. -/
theorem mapAndSetFrequencies_sections (m : AdaptivityManagerFarm)
    (hmap : m.p.strategyMapping ≠ .STRATEGY_MAPPING_NO)
    (hret : (mapAndSetFrequencies m).1 = .returned ()) :
    ∃ (ma mb mc md me : AdaptivityManagerFarm) (la lb : MappingLocals),
      setUnusedVirtualCores m = (.returned (), ma) ∧
      mapSensitiveStages ma (initialLocals ma) = (.returned la, mb) ∧
      mapRemainingStages mb la = (.returned lb, mc) ∧
      performMapping mc = (.returned (), md) ∧
      treatUnusedVirtualCores md = (.returned (), me) ∧
      mapAndSetFrequencies m = setInitialPstate me lb ∧
      me.p = { m.p with strategyNeverUsedVirtualCores := me.p.strategyNeverUsedVirtualCores } ∧
      sameFrequencyState me m := by
  unfold mapAndSetFrequencies at hret ⊢
  rw [if_neg hmap] at hret ⊢
  have f1 := setUnusedVirtualCores_sameFrequencyState m
  have p1 : (setUnusedVirtualCores m).2.p = m.p := by
    rw [setUnusedVirtualCores_frame m]
  rcases h1 : setUnusedVirtualCores m with ⟨_ | e, ma⟩
  swap
  · rw [h1] at hret
    simp [andThen] at hret
  rw [h1] at hret f1 p1
  simp only [andThen] at hret ⊢
  have f2 := mapSensitiveStages_sameFrequencyState ma (initialLocals ma)
  have p2 := mapSensitiveStages_p ma (initialLocals ma)
  unfold initialLocals at f2 p2
  rcases h2 : mapSensitiveStages ma
      { emitterMappingRequired := ma.farm.getEmitter.isSome
        collectorMappingRequired := ma.farm.getCollector.isSome
        frequencyScalableVirtualCores := [] } with ⟨la | e, mb⟩
  swap
  · rw [h2] at hret
    simp at hret
  rw [h2] at hret f2 p2
  dsimp only at hret f2 p2 ⊢
  have f3 := mapRemainingStages_sameFrequencyState mb la
  have p3 := (mapRemainingStages_frame mb la).2.2.1
  rcases h3 : mapRemainingStages mb la with ⟨lb | e, mc⟩
  swap
  · rw [h3] at hret
    simp at hret
  rw [h3] at hret f3 p3
  dsimp only at hret f3 p3 ⊢
  have f4 := performMapping_sameFrequencyState mc
  have p4 := performMapping_p mc
  rcases h4 : performMapping mc with ⟨_ | e, md⟩
  swap
  · rw [h4] at hret
    simp at hret
  rw [h4] at hret f4 p4
  dsimp only at hret f4 p4 ⊢
  have f5 := treatUnusedVirtualCores_sameFrequencyState md
  have p5 := treatUnusedVirtualCores_p md
  rcases h5 : treatUnusedVirtualCores md with ⟨_ | e, me⟩
  swap
  · rw [h5] at hret
    simp at hret
  rw [h5] at f5 p5
  dsimp only at f5 p5 ⊢
  refine ⟨ma, mb, mc, md, me, la, lb, rfl, ?_, h3, h4, h5, rfl, ?_,
    sameFrequencyState_trans f5 (sameFrequencyState_trans f4
      (sameFrequencyState_trans f3 (sameFrequencyState_trans f2 f1)))⟩
  · unfold initialLocals
    exact h2
  · rw [p5, p4, p3, p2, p1]

/-- C20, amended.  When the frequency strategy is neither NO nor OS, the mapping
strategy is not NO and `mapAndSetFrequencies` completes, the manager holds the
available-frequency list of the first domain and its current frequency is the
last entry of that list, the maximum of the list when the list is sorted in
ascending order.  That value is the one passed to `updatePstate`: the call ends
with `updatePstate` on the state left by the treatment of the unused
VirtualCores, with the list and the current frequency stored, on the scalable
VirtualCores collected by the assignment and on that value; with the governor
USERSPACE its last calls are `setGovernor` and the setpoint at that value on
every domain that holds a scalable VirtualCore.  Lines 351-356 do so from every
state. -/
theorem mapAndSetFrequencies_initial_pstate (m : AdaptivityManagerFarm)
    (hno : m.p.strategyFrequencies ≠ .STRATEGY_FREQUENCY_NO)
    (hos : m.p.strategyFrequencies ≠ .STRATEGY_FREQUENCY_OS)
    (hmap : m.p.strategyMapping ≠ .STRATEGY_MAPPING_NO)
    (hret : (mapAndSetFrequencies m).1 = .returned ()) :
    (∃ domain0,
      m.p.cpufreq.getDomains[0]? = some domain0 ∧
      (mapAndSetFrequencies m).2.availableFrequencies = domain0.getAvailableFrequencies ∧
      (mapAndSetFrequencies m).2.availableFrequencies.getLast? =
        some (mapAndSetFrequencies m).2.currentFrequency ∧
      ((mapAndSetFrequencies m).2.availableFrequencies.Sorted (· ≤ ·) →
        (mapAndSetFrequencies m).2.currentFrequency ∈
          (mapAndSetFrequencies m).2.availableFrequencies ∧
        ∀ f ∈ (mapAndSetFrequencies m).2.availableFrequencies,
          f ≤ (mapAndSetFrequencies m).2.currentFrequency) ∧
      ∃ (ma mb mc md me : AdaptivityManagerFarm) (la lb : MappingLocals),
        setUnusedVirtualCores m = (.returned (), ma) ∧
        mapSensitiveStages ma (initialLocals ma) = (.returned la, mb) ∧
        mapRemainingStages mb la = (.returned lb, mc) ∧
        performMapping mc = (.returned (), md) ∧
        treatUnusedVirtualCores md = (.returned (), me) ∧
        mapAndSetFrequencies m =
          updatePstate
            { me with
              availableFrequencies := domain0.getAvailableFrequencies
              currentFrequency := (mapAndSetFrequencies m).2.currentFrequency }
            lb.frequencyScalableVirtualCores (mapAndSetFrequencies m).2.currentFrequency ∧
        (m.p.frequencyGovernor = .GOVERNOR_USERSPACE →
          (mapAndSetFrequencies m).2.calls = me.calls ++
            (m.p.cpufreq.getDomainsCovering lb.frequencyScalableVirtualCores).flatMap
              (fun d => [.setGovernor d.domainId .GOVERNOR_USERSPACE,
                .setFrequencyUserspace d.domainId
                  (mapAndSetFrequencies m).2.currentFrequency]))) ∧
    (∀ (m1 : AdaptivityManagerFarm) (l1 : MappingLocals) (domain1 : Domain)
        (highest : Frequency),
      m1.p.strategyFrequencies ≠ .STRATEGY_FREQUENCY_NO →
      m1.p.strategyFrequencies ≠ .STRATEGY_FREQUENCY_OS →
      m1.p.cpufreq.getDomains[0]? = some domain1 →
      domain1.getAvailableFrequencies.getLast? = some highest →
      setInitialPstate m1 l1 =
        updatePstate
          { m1 with
            availableFrequencies := domain1.getAvailableFrequencies
            currentFrequency := highest }
          l1.frequencyScalableVirtualCores highest) := by
  constructor
  swap
  · intro m1 l1 domain1 highest h1 h2 hd hl
    unfold setInitialPstate
    rw [if_pos ⟨h1, h2⟩, hd]
    dsimp only
    rw [hl]
  obtain ⟨ma, mb, mc, md, me, la, lb, e1, e2, e3, e4, e5, heq, hp, hsame⟩ :=
    mapAndSetFrequencies_sections m hmap hret
  obtain ⟨hc, hs, -, -⟩ := hsame
  have hret2 : (setInitialPstate me lb).1 = .returned () := by
    rw [← heq]
    exact hret
  obtain ⟨domain0, highest, hd, hl, hup, ha, hcur⟩ :=
    setInitialPstate_eq me lb (by rw [hs]; exact hno) (by rw [hs]; exact hos) hret2
  rw [hc] at hd
  rw [← heq] at hup ha hcur
  have hlast : (mapAndSetFrequencies m).2.availableFrequencies.getLast? =
      some (mapAndSetFrequencies m).2.currentFrequency := by
    rw [ha, hcur]
    exact hl
  refine ⟨domain0, hd, ha, hlast, ?_, ma, mb, mc, md, me, la, lb, e1, e2, e3, e4, e5, ?_, ?_⟩
  · intro hsorted
    exact ⟨List.mem_of_mem_getLast? hlast, sorted_le_getLast _ _ hsorted hlast⟩
  · rw [hcur]
    exact hup
  · intro hg
    have hgov : me.p.frequencyGovernor = .GOVERNOR_USERSPACE := by
      rw [hp]
      exact hg
    obtain ⟨-, new, c1, -, c3⟩ := updatePstateDomains_userspace highest
      (me.p.cpufreq.getDomainsCovering lb.frequencyScalableVirtualCores)
      { me with
        availableFrequencies := domain0.getAvailableFrequencies
        currentFrequency := highest }
      hgov (by dsimp only; rw [hs]; exact hos)
    have hup2 : mapAndSetFrequencies m =
        updatePstateDomains highest
          (me.p.cpufreq.getDomainsCovering lb.frequencyScalableVirtualCores)
          { me with
            availableFrequencies := domain0.getAvailableFrequencies
            currentFrequency := highest } := hup
    rw [← hup2] at c1 c3
    rw [c1, c3 hret, hcur, hc]

/-- Witness for C20 (amended): scenario S3, whose list 1.0, 1.5, 2.0 GHz is
sorted; the current frequency is 2.0 GHz, and after the two moves the domain of
the workers is set to USERSPACE at 2.0 GHz. -/
theorem mapAndSetFrequencies_initial_pstate_witness :
    (mapAndSetFrequencies s3Start).2.availableFrequencies = [1000000, 1500000, 2000000] ∧
    (mapAndSetFrequencies s3Start).2.currentFrequency = 2000000 ∧
    (mapAndSetFrequencies s3Start).2.calls =
      [.move 1 (some (core 0)), .move 2 (some (core 1)),
        .setGovernor 0 .GOVERNOR_USERSPACE, .setFrequencyUserspace 0 2000000] ∧
    ∃ domain0,
      s3Start.p.cpufreq.getDomains[0]? = some domain0 ∧
      (mapAndSetFrequencies s3Start).2.availableFrequencies =
        domain0.getAvailableFrequencies ∧
      (∀ f ∈ (mapAndSetFrequencies s3Start).2.availableFrequencies,
        f ≤ (mapAndSetFrequencies s3Start).2.currentFrequency) ∧
      ∃ (me : AdaptivityManagerFarm) (lb : MappingLocals),
        mapAndSetFrequencies s3Start =
          updatePstate
            { me with
              availableFrequencies := domain0.getAvailableFrequencies
              currentFrequency := (mapAndSetFrequencies s3Start).2.currentFrequency }
            lb.frequencyScalableVirtualCores
            (mapAndSetFrequencies s3Start).2.currentFrequency ∧
        (mapAndSetFrequencies s3Start).2.calls = me.calls ++
          (s3Start.p.cpufreq.getDomainsCovering lb.frequencyScalableVirtualCores).flatMap
            (fun d => [.setGovernor d.domainId .GOVERNOR_USERSPACE,
              .setFrequencyUserspace d.domainId
                (mapAndSetFrequencies s3Start).2.currentFrequency]) :=
  ⟨by decide, by decide, by decide,
    match (mapAndSetFrequencies_initial_pstate s3Start (by decide) (by decide) (by decide)
      (by decide)).1 with
    | ⟨domain0, h1, h2, _, h4, _, _, _, _, me, _, lb, _, _, _, _, _, e6, e7⟩ =>
      ⟨domain0, h1, h2, (h4 (by decide)).2, me, lb, e6, e7 (by decide)⟩⟩

end mammut.fastflow
